import Mathlib

/-!
# VSFS metadata journaling: a shallow embedding of `journal.c`

The backing image `vsfs.img` is modelled as a total map from byte offsets to
bytes; a `malloc`ed buffer is a map from indices to bytes of which only the
indices below the allocated size are meaningful.  Multi-byte fields are
little-endian (the layout the C structs have on x86-64), `uint32_t`
arithmetic wraps modulo `2^32`, `malloc` and the stream calls are assumed to
succeed, and the image is assumed long enough for every block that is read.
The file offset of a block is `block_no * BLOCK_SIZE` computed in `uint32_t`,
as in `read_block` and `write_block`, so block numbers that differ by a
multiple of `2^20` name the same place of the image.  The superblock is the
global `sb` that `read_superblock` loaded, a parameter of every operation.
The three calls of `time(NULL)` in `journal_create` are inputs (`Clock`).

Where the C program would index outside one of its buffers the model assigns
no behaviour (`Run.undefined`).
-/

namespace VSFS

/-! ## Bytes, buffers and the image -/

abbrev Byte := Fin 256

/-- The backing file: byte offset to byte. -/
abbrev Image := Nat → Byte

/-- An in-memory buffer: index to byte. -/
abbrev Buffer := Nat → Byte

/-- Truncation to `uint8_t`. -/
def byte_of (n : Nat) : Byte := ⟨n % 256, Nat.mod_lt _ (by decide)⟩

/-- Truncation to `uint32_t`. -/
def u32 (n : Nat) : Nat := n % 4294967296

/-- Conversion `(int)x` of a `uint32_t`. -/
def int_of_u32 (n : Nat) : Int :=
  if n < 2147483648 then (n : Int) else (n : Int) - 4294967296

def BLOCK_SIZE : Nat := 4096
def JOURNAL_MAGIC : Nat := 0x4A524E4C
def FS_MAGIC : Nat := 0x56534653
def NAME_LEN : Nat := 28
def REC_DATA : Nat := 1
def REC_COMMIT : Nat := 2

/-- Size of the journal buffer, `BLOCK_SIZE * 16`. -/
def JOURNAL_SIZE : Nat := 65536

/-- The value of `sizeof(struct journal_header)`. -/
def HEADER_SIZE : Nat := 8

/-- The value of `sizeof(struct data_record)`: 4 + 4 + 4096. -/
def DATA_RECORD_SIZE : Nat := 4104

/-- The value of `sizeof(struct commit_record)`. -/
def COMMIT_RECORD_SIZE : Nat := 4

/-- The value of `sizeof(struct inode)`. -/
def INODE_SIZE : Nat := 128

/-- The value of `sizeof(struct dirent)`: 4 + NAME_LEN. -/
def DIRENT_SIZE : Nat := 32

/-- The loaded `struct superblock sb` (the padding is not kept). -/
structure Superblock where
  magic : Nat
  block_size : Nat
  total_blocks : Nat
  inode_count : Nat
  journal_blocks : Nat
  inode_bitmap : Nat
  data_bitmap : Nat
  inode_start : Nat
  data_start : Nat

/-- The file offset `block_no * BLOCK_SIZE`, computed in `uint32_t`. -/
def disk_offset (block_no : Nat) : Nat := u32 (block_no * 4096)

/-- `read_block`: the 4096 bytes of the image at the block's file offset. -/
def read_block (img : Image) (block_no : Nat) : Buffer :=
  fun k => img (disk_offset block_no + k)

/-- `write_block`: the 4096 bytes of `buf` replace those at the block's file offset. -/
def write_block (img : Image) (block_no : Nat) (buf : Buffer) : Image :=
  fun a =>
    if disk_offset block_no ≤ a ∧ a < disk_offset block_no + 4096 then buf (a - disk_offset block_no)
    else img a

/-! ## Field access in a buffer (little-endian) -/

def get_u16 (buf : Buffer) (o : Nat) : Nat :=
  (buf o).val + 256 * (buf (o + 1)).val

def get_u32 (buf : Buffer) (o : Nat) : Nat :=
  (buf o).val + 256 * (buf (o + 1)).val + 65536 * (buf (o + 2)).val
    + 16777216 * (buf (o + 3)).val

def set_u8 (buf : Buffer) (o : Nat) (v : Byte) : Buffer :=
  fun k => if k = o then v else buf k

def set_u16 (buf : Buffer) (o v : Nat) : Buffer :=
  fun k => if k = o then byte_of v else if k = o + 1 then byte_of (v / 256) else buf k

def set_u32 (buf : Buffer) (o v : Nat) : Buffer :=
  fun k =>
    if k = o then byte_of v
    else if k = o + 1 then byte_of (v / 256)
    else if k = o + 2 then byte_of (v / 65536)
    else if k = o + 3 then byte_of (v / 16777216)
    else buf k

/-- `memcpy(dst + o, src, n)`. -/
def memcpy (dst : Buffer) (o : Nat) (src : Buffer) (n : Nat) : Buffer :=
  fun k => if o ≤ k ∧ k < o + n then src (k - o) else dst k

/-- The bytes `buf + o ...`, as a buffer of its own. -/
def slice (buf : Buffer) (o : Nat) : Buffer := fun k => buf (o + k)

/-! ## `read_superblock` -/

/-- `read_superblock`: block 0 decoded field by field; `none` is `exit(1)`. -/
def read_superblock (img : Image) : Option Superblock :=
  let block_buf := read_block img 0
  let sb : Superblock :=
    { magic := get_u32 block_buf 0
      block_size := get_u32 block_buf 4
      total_blocks := get_u32 block_buf 8
      inode_count := get_u32 block_buf 12
      journal_blocks := get_u32 block_buf 16
      inode_bitmap := get_u32 block_buf 20
      data_bitmap := get_u32 block_buf 24
      inode_start := get_u32 block_buf 28
      data_start := get_u32 block_buf 32 }
  if sb.magic ≠ FS_MAGIC then none else some sb

/-! ## `find_free_inode` and `find_free_dirent` -/

/-- The `for` loop of `find_free_inode` from index `i`, with `remaining`
iterations left before `i` reaches `(int)sb.inode_count`.  `none`: the loop
would read `bitmap[byte_idx]` outside the 4096-byte buffer. -/
def find_free_inode_loop (bitmap : Buffer) : Nat → Nat → Option Int
  | 0, _ => some (-1)
  | remaining + 1, i =>
    let byte_idx := i / 8
    let bit_idx := i % 8
    if 4096 ≤ byte_idx then none
    else if (bitmap byte_idx).val &&& (1 <<< bit_idx) = 0 then some (i : Int)
    else find_free_inode_loop bitmap remaining (i + 1)

def find_free_inode (sb : Superblock) (img : Image) : Option Int :=
  let bitmap := read_block img sb.inode_bitmap
  find_free_inode_loop bitmap (int_of_u32 (u32 sb.inode_count)).toNat 0

/-- The `for` loop of `find_free_dirent` from slot `i`, `remaining` slots left. -/
def find_free_dirent_loop (dir_block : Buffer) : Nat → Nat → Int
  | 0, _ => -1
  | remaining + 1, i =>
    if get_u32 dir_block (i * 32) = 0 ∧ (dir_block (i * 32 + 4)).val = 0 then (i : Int)
    else find_free_dirent_loop dir_block remaining (i + 1)

/-- `find_free_dirent`, with `max_entries = BLOCK_SIZE / sizeof(struct dirent) = 128`. -/
def find_free_dirent (dir_block : Buffer) : Int :=
  find_free_dirent_loop dir_block 128 0

/-! ## The journal region -/

/-- The sixteen `read_block(sb.journal_blocks + i, journal_data + i * BLOCK_SIZE)`. -/
def read_journal (sb : Superblock) (img : Image) : Buffer :=
  fun k => img (disk_offset (u32 (sb.journal_blocks + k / 4096)) + k % 4096)

/-- The first `n` iterations of
`write_block(sb.journal_blocks + i, journal_data + i * BLOCK_SIZE)`. -/
def write_journal_blocks (sb : Superblock) (journal_data : Buffer) (img : Image) : Nat → Image
  | 0 => img
  | n + 1 =>
    write_block (write_journal_blocks sb journal_data img n) (u32 (sb.journal_blocks + n))
      (slice journal_data (n * 4096))

def write_journal (sb : Superblock) (journal_data : Buffer) (img : Image) : Image :=
  write_journal_blocks sb journal_data img 16

/-! ## `init_journal` -/

def init_journal (sb : Superblock) (img : Image) : Image :=
  let journal_block := read_block img sb.journal_blocks
  if get_u32 journal_block 0 = JOURNAL_MAGIC then img
  else
    let journal_block := set_u32 journal_block 0 JOURNAL_MAGIC
    let journal_block := set_u32 journal_block 4 HEADER_SIZE
    write_block img sb.journal_blocks journal_block

/-! ## Results of a call -/

/-- Which `return` a call took (the message printed before it tells the
failures apart; the C return value is `Status.code`). -/
inductive Status where
  | ok
  | journal_empty
  | no_free_inodes
  | no_free_dirents
  | not_initialized
  | journal_full
  | unknown_record
  deriving DecidableEq, Repr

/-- The C return value: `0` or `-1`. -/
def Status.code : Status → Int
  | .ok => 0
  | .journal_empty => 0
  | _ => -1

/-- Outcome of running `journal_create` or `journal_install` on an image. -/
inductive Run where
  /-- The call returned, leaving the image as given. -/
  | returned (st : Status) (img : Image)
  /-- The C program indexes outside a buffer: no behaviour is assigned. -/
  | undefined
  /-- The replay loop of the model was given too little fuel. -/
  | out_of_fuel

def Run.status : Run → Option Status
  | .returned st _ => some st
  | _ => none

def Run.image : Run → Option Image
  | .returned _ img => some img
  | _ => none

/-! ## `journal_create` -/

/-- The values returned by the three calls of `time(NULL)` in `journal_create`. -/
structure Clock where
  ctime : Nat
  mtime : Nat
  root_mtime : Nat

/-- `strncpy(dst, src, n)`: the `n` bytes stored at `dst`.  `src` lists the
characters of the C string; a NUL inside the list ends the string there. -/
def strncpy_bytes : List Byte → Nat → List Byte
  | _, 0 => []
  | [], n + 1 => 0 :: strncpy_bytes [] n
  | c :: cs, n + 1 => if c = 0 then 0 :: strncpy_bytes [] n else c :: strncpy_bytes cs n

/-- Store the bytes of a list at `buf + o`. -/
def store_bytes (buf : Buffer) (o : Nat) (l : List Byte) : Buffer :=
  fun k => if o ≤ k ∧ k < o + l.length then l.getD (k - o) 0 else buf k

/-- `inode_bitmap[byte_idx] |= (1 << bit_idx)` (lines 155-157). -/
def mark_inode (inode_bitmap : Buffer) (free_inum : Nat) : Buffer :=
  let byte_idx := free_inum / 8
  let bit_idx := free_inum % 8
  set_u8 inode_bitmap byte_idx (byte_of ((inode_bitmap byte_idx).val ||| (1 <<< bit_idx)))

/-- The loop `for (i = 0; i < n; i++) new_inode->direct[i] = 0` at inode offset `o`. -/
def clear_direct (block : Buffer) (o : Nat) : Nat → Buffer
  | 0 => block
  | n + 1 => set_u32 (clear_direct block o n) (o + 8 + 4 * n) 0

/-- Initialisation of the new inode at `new_inode_block + o` (lines 182-190). -/
def init_inode (block : Buffer) (o : Nat) (clk : Clock) : Buffer :=
  let block := set_u16 block o 1
  let block := set_u16 block (o + 2) 1
  let block := set_u32 block (o + 4) 0
  let block := set_u32 block (o + 40) clk.ctime
  let block := set_u32 block (o + 44) clk.mtime
  clear_direct block o 8

/-- Update of the root inode, record 0 of its block (lines 193-194). -/
def update_root_inode (root_inode_block : Buffer) (free_dirent_idx : Nat) (clk : Clock) : Buffer :=
  let block := set_u32 root_inode_block 4 ((free_dirent_idx + 1) * 32)
  set_u32 block 44 clk.root_mtime

/-- The new directory entry (lines 197-200). -/
def add_dirent (root_dir : Buffer) (free_dirent_idx free_inum : Nat) (filename : List Byte) :
    Buffer :=
  let block := set_u32 root_dir (free_dirent_idx * 32) free_inum
  let block := store_bytes block (free_dirent_idx * 32 + 4) (strncpy_bytes filename (28 - 1))
  set_u8 block (free_dirent_idx * 32 + 4 + (28 - 1)) 0

/-- A `struct data_record` stored at `journal_data + offset`. -/
def put_data_record (journal_data : Buffer) (offset block_no : Nat) (data : Buffer) : Buffer :=
  let jd := set_u16 journal_data offset REC_DATA
  let jd := set_u16 jd (offset + 2) DATA_RECORD_SIZE
  let jd := set_u32 jd (offset + 4) block_no
  memcpy jd (offset + 8) data BLOCK_SIZE

/-- A `struct commit_record` stored at `journal_data + offset`. -/
def put_commit_record (journal_data : Buffer) (offset : Nat) : Buffer :=
  let jd := set_u16 journal_data offset REC_COMMIT
  set_u16 jd (offset + 2) COMMIT_RECORD_SIZE

/-- The in-memory buffers of a transaction once lines 154-200 have run. -/
structure Staged where
  inode_bitmap : Buffer
  root_inode_block : Buffer
  new_inode_block : Buffer
  root_dir : Buffer
  inode_block_no : Nat
  root_dir_block : Nat

/-- Lines 154-200 of `journal_create`.  When the new inode lies in the root
inode's block, `new_inode_block` and `root_inode_block` are one buffer. -/
def stage (sb : Superblock) (filename : List Byte) (clk : Clock) (img : Image)
    (free_inum free_dirent_idx : Nat) : Staged :=
  let inode_bitmap := read_block img sb.inode_bitmap
  let root_inode_block := read_block img sb.inode_start
  let root_dir_block := get_u32 root_inode_block 8
  let root_dir := read_block img root_dir_block
  let inode_bitmap := mark_inode inode_bitmap free_inum
  let inode_block_offset := free_inum * 128
  let inode_block_no := u32 (sb.inode_start + inode_block_offset / 4096)
  let inode_offset_in_block := inode_block_offset % 4096
  if inode_block_no = u32 sb.inode_start then
    let root_inode_block := init_inode root_inode_block inode_offset_in_block clk
    let root_inode_block := update_root_inode root_inode_block free_dirent_idx clk
    { inode_bitmap := inode_bitmap
      root_inode_block := root_inode_block
      new_inode_block := root_inode_block
      root_dir := add_dirent root_dir free_dirent_idx free_inum filename
      inode_block_no := inode_block_no
      root_dir_block := root_dir_block }
  else
    let new_inode_block := read_block img inode_block_no
    let new_inode_block := init_inode new_inode_block inode_offset_in_block clk
    let root_inode_block := update_root_inode root_inode_block free_dirent_idx clk
    { inode_bitmap := inode_bitmap
      root_inode_block := root_inode_block
      new_inode_block := new_inode_block
      root_dir := add_dirent root_dir free_dirent_idx free_inum filename
      inode_block_no := inode_block_no
      root_dir_block := root_dir_block }

/-- Number of DATA records of the transaction (line 235). -/
def num_data_records (sb : Superblock) (st : Staged) : Nat :=
  if st.inode_block_no = u32 sb.inode_start then 3 else 4

/-- The records of the transaction stored from `offset` on, and the header
updated (lines 250-290). -/
def log_records (sb : Superblock) (st : Staged) (journal_data : Buffer) (offset : Nat) : Buffer :=
  let jd := put_data_record journal_data offset sb.inode_bitmap st.inode_bitmap
  let offset := u32 (offset + DATA_RECORD_SIZE)
  let jd := put_data_record jd offset sb.inode_start st.root_inode_block
  let offset := u32 (offset + DATA_RECORD_SIZE)
  if st.inode_block_no ≠ u32 sb.inode_start then
    let jd := put_data_record jd offset st.inode_block_no st.new_inode_block
    let offset := u32 (offset + DATA_RECORD_SIZE)
    let jd := put_data_record jd offset st.root_dir_block st.root_dir
    let offset := u32 (offset + DATA_RECORD_SIZE)
    let jd := put_commit_record jd offset
    let offset := u32 (offset + COMMIT_RECORD_SIZE)
    set_u32 jd 4 offset
  else
    let jd := put_data_record jd offset st.root_dir_block st.root_dir
    let offset := u32 (offset + DATA_RECORD_SIZE)
    let jd := put_commit_record jd offset
    let offset := u32 (offset + COMMIT_RECORD_SIZE)
    set_u32 jd 4 offset

/-- Lines 202-305 of `journal_create`: the journal is read, checked, extended
by the transaction and written back.  The capacity check adds in `uint32_t`;
when that sum wraps the check passes although the records do not fit, and the
stores of lines 251-288 would land outside `journal_data`. -/
def log_transaction (sb : Superblock) (st : Staged) (img : Image) : Run :=
  let journal_data := read_journal sb img
  if get_u32 journal_data 0 ≠ JOURNAL_MAGIC then .returned .not_initialized img
  else
    let offset := get_u32 journal_data 4
    let needed := u32 (num_data_records sb st * DATA_RECORD_SIZE + COMMIT_RECORD_SIZE)
    if u32 (offset + needed) > JOURNAL_SIZE then .returned .journal_full img
    else if offset + needed > JOURNAL_SIZE then .undefined
    else .returned .ok (write_journal sb (log_records sb st journal_data offset) img)

def journal_create (sb : Superblock) (filename : List Byte) (clk : Clock) (img : Image) : Run :=
  let img := init_journal sb img
  let root_inode_block := read_block img sb.inode_start
  let root_dir_block := get_u32 root_inode_block 8
  let root_dir := read_block img root_dir_block
  match find_free_inode sb img with
  | none => .undefined
  | some free_inum =>
    if free_inum < 0 then .returned .no_free_inodes img
    else
      let free_dirent_idx := find_free_dirent root_dir
      if free_dirent_idx < 0 then .returned .no_free_dirents img
      else
        log_transaction sb (stage sb filename clk img free_inum.toNat free_dirent_idx.toNat) img

/-! ## `journal_install` -/

/-- Outcome of the replay loop. -/
inductive Walk where
  /-- The cursor reached `nbytes_used`. -/
  | finished (img : Image)
  /-- A record of unknown type was met. -/
  | unknown (img : Image)
  /-- A record header or payload lies outside `journal_data`. -/
  | undefined
  | out_of_fuel

/-- The `while (offset < jhdr->nbytes_used)` loop of `journal_install`
(lines 337-353), with at most `fuel` iterations.  A record header must lie
inside the 65536 bytes of `journal_data` to be read, and so must a DATA
record as a whole. -/
def replay (journal_data : Buffer) (nbytes_used : Nat) : Nat → Nat → Image → Walk
  | 0, offset, img => if offset < nbytes_used then .out_of_fuel else .finished img
  | fuel + 1, offset, img =>
    if offset < nbytes_used then
      if JOURNAL_SIZE < offset + 4 then .undefined
      else if get_u16 journal_data offset = REC_DATA then
        if JOURNAL_SIZE < offset + DATA_RECORD_SIZE then .undefined
        else
          replay journal_data nbytes_used fuel (u32 (offset + DATA_RECORD_SIZE))
            (write_block img (get_u32 journal_data (offset + 4)) (slice journal_data (offset + 8)))
      else if get_u16 journal_data offset = REC_COMMIT then
        replay journal_data nbytes_used fuel (u32 (offset + COMMIT_RECORD_SIZE)) img
      else .unknown img
    else .finished img

/-- `memset(buf, v, n)`. -/
def memset (buf : Buffer) (v : Byte) (n : Nat) : Buffer :=
  fun k => if k < n then v else buf k

/-- The journal buffer written back by the checkpoint (lines 356-358). -/
def checkpoint (journal_data : Buffer) : Buffer :=
  let jd := memset journal_data 0 JOURNAL_SIZE
  let jd := set_u32 jd 0 JOURNAL_MAGIC
  set_u32 jd 4 HEADER_SIZE

/-- Iterations granted to the replay loop; `replay_fuel_enough` shows that
they are never used up. -/
def REPLAY_FUEL : Nat := 16384

def journal_install (sb : Superblock) (img : Image) : Run :=
  let journal_data := read_journal sb img
  if get_u32 journal_data 0 ≠ JOURNAL_MAGIC then .returned .not_initialized img
  else if get_u32 journal_data 4 = HEADER_SIZE then .returned .journal_empty img
  else
    match replay journal_data (get_u32 journal_data 4) REPLAY_FUEL HEADER_SIZE img with
    | .finished img => .returned .ok (write_journal sb (checkpoint journal_data) img)
    | .unknown img => .returned .unknown_record img
    | .undefined => .undefined
    | .out_of_fuel => .out_of_fuel

/-! ## Reading the journal region -/

/-- The `magic` field of the journal header on the image. -/
def journal_magic (sb : Superblock) (img : Image) : Nat := get_u32 (read_journal sb img) 0

/-- The `nbytes_used` field of the journal header on the image. -/
def journal_nbytes_used (sb : Superblock) (img : Image) : Nat := get_u32 (read_journal sb img) 4

/-- Block number `b` is stored where one of the sixteen journal blocks is. -/
def is_journal_block (sb : Superblock) (b : Nat) : Prop :=
  ∃ i, i < 16 ∧ disk_offset (u32 (sb.journal_blocks + i)) = disk_offset b

/-- Index of the 4096-byte frame of address `a`, counted from the first journal block. -/
def journal_index (sb : Superblock) (a : Nat) : Nat :=
  (a / 4096 + 1048576 - sb.journal_blocks % 1048576) % 1048576

/-! ## The record stream of the journal -/

/-- The two kinds of journal record. -/
inductive RecKind where
  | data
  | commit
  deriving DecidableEq, Repr

/-- `tiles jd ks o e`: the bytes `[o, e)` of the journal buffer are exactly
records of the kinds `ks`, one after the other (4104 bytes for DATA, 4 for
COMMIT), each with its type tag. -/
def tiles (jd : Buffer) : List RecKind → Nat → Nat → Prop
  | [], o, e => o = e
  | .data :: ks, o, e => get_u16 jd o = REC_DATA ∧ tiles jd ks (o + DATA_RECORD_SIZE) e
  | .commit :: ks, o, e => get_u16 jd o = REC_COMMIT ∧ tiles jd ks (o + COMMIT_RECORD_SIZE) e

/-- Offsets of the DATA records among records of kinds `ks` laid out from `o`. -/
def data_offsets : List RecKind → Nat → List Nat
  | [], _ => []
  | .data :: ks, o => o :: data_offsets ks (o + DATA_RECORD_SIZE)
  | .commit :: ks, o => data_offsets ks (o + COMMIT_RECORD_SIZE)

/-- Target block of the DATA record at offset `o` (`drec->block_no`). -/
def record_target (jd : Buffer) (o : Nat) : Nat := get_u32 jd (o + 4)

/-- Payload of the DATA record at offset `o` (`drec->data`). -/
def record_payload (jd : Buffer) (o : Nat) : Buffer := slice jd (o + 8)

/-- The block write of the DATA record at offset `o`. -/
def apply_data (jd : Buffer) (img : Image) (o : Nat) : Image :=
  write_block img (record_target jd o) (record_payload jd o)

/-- The block writes of the DATA records at the offsets `offs`, in order. -/
def apply_records (jd : Buffer) (offs : List Nat) (img : Image) : Image :=
  offs.foldl (apply_data jd) img

/-- The C return value of a run that returned. -/
def Run.code : Run → Option Int
  | .returned st _ => some st.code
  | _ => none

/-! ## Notions used to state the properties -/

/-- Block number of the root directory: `direct[0]` of inode 0. -/
def root_dir_block (sb : Superblock) (img : Image) : Nat :=
  get_u32 (read_block img sb.inode_start) 8

/-- Bit `i` of a bitmap block (bit `i mod 8`, least significant first, of
byte `i / 8`) lies in the block and is set. -/
def bit_set (bitmap : Buffer) (i : Nat) : Prop :=
  i / 8 < 4096 ∧ (bitmap (i / 8)).val.testBit (i % 8) = true

/-- The C `strlen`: number of characters before the first NUL. -/
def strlen : List Byte → Nat
  | [] => 0
  | c :: cs => if c = 0 then 0 else strlen cs + 1

/-- The 28-byte name field as the specification words it: the first
`min(len, 27)` bytes of the name, then zero bytes up to length 28. -/
def name_field_spec (filename : List Byte) : List Byte :=
  filename.take (min (strlen filename) 27) ++ List.replicate (28 - min (strlen filename) 27) 0

/-- The 28 bytes that lines 199-200 store in the name field. -/
def name_field (filename : List Byte) : List Byte :=
  strncpy_bytes filename 27 ++ [0]

/-- The buffer `jd` holds at offset `o` a DATA record with target `b` (as a
`uint32_t`) and the 4096 payload bytes of `d`. -/
def holds_data (jd : Buffer) (o b : Nat) (d : Buffer) : Prop :=
  get_u16 jd o = REC_DATA ∧ record_target jd o = u32 b ∧
    ∀ k, k < 4096 → record_payload jd o k = d k

/-- The inode index `journal_create` gets from `find_free_inode` (line 135). -/
def create_inum (sb : Superblock) (img : Image) : Option Int :=
  find_free_inode sb (init_journal sb img)

/-- The directory slot `journal_create` gets from `find_free_dirent` (line 145). -/
def create_slot (sb : Superblock) (img : Image) : Int :=
  find_free_dirent (read_block (init_journal sb img) (root_dir_block sb (init_journal sb img)))

/-- The blocks of the inode bitmap, of the inode table and of the root
directory and the sixteen journal blocks lie pairwise apart in the image. -/
structure Layout (sb : Superblock) (img : Image) : Prop where
  bitmap_journal : ¬ is_journal_block sb sb.inode_bitmap
  table_journal : ∀ j, j < (sb.inode_count + 31) / 32 →
    ¬ is_journal_block sb (sb.inode_start + j)
  dir_journal : ¬ is_journal_block sb (root_dir_block sb img)
  table_bitmap : ∀ j, j < (sb.inode_count + 31) / 32 →
    disk_offset (sb.inode_start + j) ≠ disk_offset sb.inode_bitmap
  dir_bitmap : disk_offset (root_dir_block sb img) ≠ disk_offset sb.inode_bitmap
  table_dir : ∀ j, j < (sb.inode_count + 31) / 32 →
    disk_offset (sb.inode_start + j) ≠ disk_offset (root_dir_block sb img)

/-! ## Concrete images -/

/-- A geometry: journal in blocks 1-16, inode bitmap in block 17, data bitmap
in block 18, 64 inodes in blocks 19-20, data from block 21. -/
def sb0 : Superblock :=
  { magic := 0x56534653, block_size := 4096, total_blocks := 85, inode_count := 64,
    journal_blocks := 1, inode_bitmap := 17, data_bitmap := 18, inode_start := 19,
    data_start := 21 }

/-- A freshly formatted image of geometry `sb0`: the superblock, inode 0 in
use as the root directory, whose block 21 holds the entries "." and "..",
and a journal that was never initialised. -/
def fresh_image : Image := fun a =>
  if a = 0 then 0x53 else if a = 1 then 0x46 else if a = 2 then 0x53 else if a = 3 then 0x56
  else if a = 5 then 0x10
  else if a = 8 then 85
  else if a = 12 then 64
  else if a = 16 then 1
  else if a = 20 then 17
  else if a = 24 then 18
  else if a = 28 then 19
  else if a = 32 then 21
  else if a = 69632 then 1
  else if a = 73728 then 1
  else if a = 77824 then 2
  else if a = 77826 then 2
  else if a = 77828 then 64
  else if a = 77832 then 21
  else if a = 86020 then 46
  else if a = 86052 then 46
  else if a = 86053 then 46
  else 0

/-- The fresh image with all 64 inodes in use. -/
def exhausted_image : Image := fun a =>
  if 69632 ≤ a ∧ a < 69640 then 255 else fresh_image a

/-- The bytes of an initialised journal header with `nbytes_used = n`, laid
over an image of geometry `sb0`. -/
def with_header (n : Nat) (img : Image) : Image := fun a =>
  if a = 4096 then 0x4C else if a = 4097 then 0x4E else if a = 4098 then 0x52
  else if a = 4099 then 0x4A
  else if a = 4100 then byte_of n else if a = 4101 then byte_of (n / 256)
  else if a = 4102 then byte_of (n / 65536) else if a = 4103 then byte_of (n / 16777216)
  else img a

/-- The fresh image with a journal whose header says 61588 bytes are used. -/
def nearly_full_image : Image := with_header 61588 fresh_image

/-- The fresh image with a journal whose header says `0xFFFFFFFF` bytes are used. -/
def wrapped_image : Image := with_header 4294967295 fresh_image

/-- A journal holding one DATA record for block 30 (payload byte 0 is 7) and
its COMMIT. -/
def staged_image : Image := fun a =>
  if a = 4104 then 1 else if a = 4106 then 8 else if a = 4107 then 16
  else if a = 4108 then 30
  else if a = 4112 then 7
  else if a = 8208 then 2 else if a = 8210 then 4
  else with_header 4116 fresh_image a

/-- A journal holding one DATA record for block 30 followed by a record of type 9. -/
def damaged_image : Image := fun a =>
  if a = 4104 then 1 else if a = 4106 then 8 else if a = 4107 then 16
  else if a = 4108 then 30
  else if a = 4112 then 7
  else if a = 8208 then 9
  else with_header 4120 fresh_image a

/-- A journal holding one DATA record that targets block 1, the first journal
block, with the bytes of an empty journal header as payload, followed by a
record of type 9. -/
def self_target_image : Image := fun a =>
  if a = 4104 then 1 else if a = 4106 then 8 else if a = 4107 then 16
  else if a = 4108 then 1
  else if a = 4112 then 0x4C else if a = 4113 then 0x4E else if a = 4114 then 0x52
  else if a = 4115 then 0x4A
  else if a = 4116 then 8
  else if a = 8208 then 9
  else with_header 4120 fresh_image a

/-- The name "foo.txt". -/
def foo_txt : List Byte := [102, 111, 111, 46, 116, 120, 116]

/-- A name of thirty letters "a". -/
def long_name : List Byte := List.replicate 30 97

def clock0 : Clock := { ctime := 1700000000, mtime := 1700000000, root_mtime := 1700000001 }

/-- Slot `t` of a directory block is free: its inode index is 0 and the first
byte of its name is 0. -/
def slot_free (dir_block : Buffer) (t : Nat) : Prop :=
  get_u32 dir_block (t * 32) = 0 ∧ (dir_block (t * 32 + 4)).val = 0

/-- Byte offset `a` of the image lies in one of the sixteen journal blocks. -/
def in_journal_region (sb : Superblock) (a : Nat) : Prop :=
  ∃ i, i < 16 ∧ disk_offset (u32 (sb.journal_blocks + i)) ≤ a ∧
    a < disk_offset (u32 (sb.journal_blocks + i)) + 4096

/-! ## The cursor of the replay loop -/

/-- How the cursor loop ends, and where the cursor is then. -/
inductive Stop where
  /-- The loop condition `offset < nbytes_used` became false. -/
  | finished (cursor : Nat)
  /-- The unknown-record branch was taken. -/
  | unknown (cursor : Nat)
  /-- The record at the cursor does not lie inside `journal_data`. -/
  | undefined (cursor : Nat)
  | out_of_fuel
  deriving DecidableEq, Repr

/-- The cursor loop of `journal_install` (lines 337-353) with the block
writes left out: the records whose header it reads, each with its offset and
kind, and how the loop ends.  The tests are those of `replay`. -/
def walk (journal_data : Buffer) (nbytes_used : Nat) : Nat → Nat → List (Nat × RecKind) × Stop
  | 0, offset => if offset < nbytes_used then ([], .out_of_fuel) else ([], .finished offset)
  | fuel + 1, offset =>
    if offset < nbytes_used then
      if JOURNAL_SIZE < offset + 4 then ([], .undefined offset)
      else if get_u16 journal_data offset = REC_DATA then
        if JOURNAL_SIZE < offset + DATA_RECORD_SIZE then ([], .undefined offset)
        else
          ((offset, RecKind.data) ::
              (walk journal_data nbytes_used fuel (u32 (offset + DATA_RECORD_SIZE))).1,
            (walk journal_data nbytes_used fuel (u32 (offset + DATA_RECORD_SIZE))).2)
      else if get_u16 journal_data offset = REC_COMMIT then
        ((offset, RecKind.commit) ::
            (walk journal_data nbytes_used fuel (u32 (offset + COMMIT_RECORD_SIZE))).1,
          (walk journal_data nbytes_used fuel (u32 (offset + COMMIT_RECORD_SIZE))).2)
      else ([], .unknown offset)
    else ([], .finished offset)

/-- Offsets of the DATA records among the records read. -/
def read_data : List (Nat × RecKind) → List Nat
  | [] => []
  | (o, .data) :: rs => o :: read_data rs
  | (_, .commit) :: rs => read_data rs

/-- What `replay` returns, from how the cursor loop ends and the records it read. -/
def walk_result (jd : Buffer) (img : Image) : List (Nat × RecKind) × Stop → Walk
  | (rs, .finished _) => .finished (apply_records jd (read_data rs) img)
  | (rs, .unknown _) => .unknown (apply_records jd (read_data rs) img)
  | (_, .undefined _) => .undefined
  | (_, .out_of_fuel) => .out_of_fuel

/-- Records of kinds `ks` laid out from `o`, each with its offset. -/
def records_at : List RecKind → Nat → List (Nat × RecKind)
  | [], _ => []
  | .data :: ks, o => (o, .data) :: records_at ks (o + DATA_RECORD_SIZE)
  | .commit :: ks, o => (o, .commit) :: records_at ks (o + COMMIT_RECORD_SIZE)

/-- The journal on the image is well-formed: valid magic,
`8 ≤ nbytes_used ≤ 65536`, and the bytes from 8 to `nbytes_used` are whole
records the last of which, if there is one, is a COMMIT. -/
def well_formed (sb : Superblock) (img : Image) : Prop :=
  journal_magic sb img = JOURNAL_MAGIC ∧ 8 ≤ journal_nbytes_used sb img ∧
    journal_nbytes_used sb img ≤ 65536 ∧
    ∃ ks : List RecKind, tiles (read_journal sb img) ks 8 (journal_nbytes_used sb img) ∧
      (ks = [] ∨ ks.getLast? = some RecKind.commit)

/-- The fresh image with an initialised journal whose header says 0 bytes
are used, less than the header itself takes. -/
def short_header_image : Image := with_header 0 fresh_image

/-- An image of geometry `sb0` whose root directory once held four entries:
the root inode records size 128, inodes 0 and 5 are in use, slots 0, 1 and 3
are taken and slot 2 is free again. -/
def shrunk_image : Image := fun a =>
  if a = 69632 then 33
  else if a = 77828 then 128
  else if a = 86112 then 5
  else if a = 86116 then 120
  else fresh_image a

/-- A geometry with 32769 inodes, one more than the bits of the one-block
inode bitmap: journal in blocks 1-16, inode bitmap in block 17, inode table in
blocks 19-1043, data from block 1044. -/
def sb_wide : Superblock :=
  { magic := 0x56534653, block_size := 4096, total_blocks := 1108, inode_count := 32769,
    journal_blocks := 1, inode_bitmap := 17, data_bitmap := 18, inode_start := 19,
    data_start := 1044 }

/-- An image of geometry `sb_wide` in which every inode but number 32767,
the last bit of the bitmap block, is in use: the root directory in block 1044
holds "." and "..", and the journal was never initialised. -/
def last_inode_image : Image := fun a =>
  if 69632 ≤ a ∧ a < 73727 then 255
  else if a = 73727 then 127
  else if a = 77824 then 2
  else if a = 77826 then 2
  else if a = 77828 then 64
  else if a = 77832 then 0x14
  else if a = 77833 then 0x04
  else if a = 4276228 then 46
  else if a = 4276260 then 46
  else if a = 4276261 then 46
  else 0

/-- The geometry `sb0` with the inode bitmap moved into block 2, the second
of the sixteen journal blocks. -/
def sb_overlap : Superblock :=
  { magic := 0x56534653, block_size := 4096, total_blocks := 85, inode_count := 64,
    journal_blocks := 1, inode_bitmap := 2, data_bitmap := 18, inode_start := 19,
    data_start := 21 }

/-- A geometry whose journal starts at the first inode-table block: journal
in blocks 19-34, inode bitmap in block 17, 32 inodes in block 19, data from
block 40. -/
def sb_root_journal : Superblock :=
  { magic := 0x56534653, block_size := 4096, total_blocks := 85, inode_count := 32,
    journal_blocks := 19, inode_bitmap := 17, data_bitmap := 18, inode_start := 19,
    data_start := 40 }

/-- An image of geometry `sb_root_journal`, as its block 0 says: inode 0 in
use as the root directory (type 2, links 2, size 64), whose block 40 holds
the entries "." and "..", and no journal header yet in block 19, which begins
with the root inode. -/
def root_journal_image : Image := fun a =>
  if a = 0 then 0x53 else if a = 1 then 0x46 else if a = 2 then 0x53 else if a = 3 then 0x56
  else if a = 5 then 0x10
  else if a = 8 then 85
  else if a = 12 then 32
  else if a = 16 then 19
  else if a = 20 then 17
  else if a = 24 then 18
  else if a = 28 then 19
  else if a = 32 then 40
  else if a = 69632 then 1
  else if a = 77824 then 2
  else if a = 77826 then 2
  else if a = 77828 then 64
  else if a = 77832 then 40
  else if a = 163844 then 46
  else if a = 163876 then 46
  else if a = 163877 then 46
  else 0

/-! ## Basic facts: truncation, offsets, fields -/

theorem u32_of_lt {n : Nat} (h : n < 4294967296) : u32 n = n := by
  unfold u32; omega

theorem u32_lt (n : Nat) : u32 n < 4294967296 := by
  unfold u32; omega

theorem disk_offset_eq (b : Nat) : disk_offset b = b % 1048576 * 4096 := by
  unfold disk_offset u32; omega

theorem disk_offset_u32 (b : Nat) : disk_offset (u32 b) = disk_offset b := by
  unfold disk_offset u32; omega

theorem buf_congr (f : Nat → Byte) {x y : Nat} (h : x = y) : f x = f y := by
  rw [h]

theorem byte_of_val (n : Nat) : (byte_of n).val = n % 256 := rfl

theorem byte_of_zero : byte_of 0 = 0 := rfl

theorem get_u16_lt (buf : Buffer) (o : Nat) : get_u16 buf o < 65536 := by
  unfold get_u16; omega

theorem get_u32_lt (buf : Buffer) (o : Nat) : get_u32 buf o < 4294967296 := by
  unfold get_u32; omega

theorem get_u16_congr {b1 b2 : Buffer} {o : Nat}
    (h : ∀ k, o ≤ k → k < o + 2 → b1 k = b2 k) : get_u16 b1 o = get_u16 b2 o := by
  unfold get_u16
  rw [h o (by omega) (by omega), h (o + 1) (by omega) (by omega)]

theorem get_u32_congr {b1 b2 : Buffer} {o : Nat}
    (h : ∀ k, o ≤ k → k < o + 4 → b1 k = b2 k) : get_u32 b1 o = get_u32 b2 o := by
  unfold get_u32
  rw [h o (by omega) (by omega), h (o + 1) (by omega) (by omega),
    h (o + 2) (by omega) (by omega), h (o + 3) (by omega) (by omega)]

theorem set_u8_same (buf : Buffer) (o : Nat) (v : Byte) : set_u8 buf o v o = v := by
  simp [set_u8]

theorem set_u8_other (buf : Buffer) (o : Nat) (v : Byte) {k : Nat} (h : k ≠ o) :
    set_u8 buf o v k = buf k := by
  simp [set_u8, h]

theorem set_u16_other (buf : Buffer) (o v : Nat) {k : Nat} (h : k < o ∨ o + 2 ≤ k) :
    set_u16 buf o v k = buf k := by
  unfold set_u16
  rw [if_neg (by omega), if_neg (by omega)]

theorem set_u32_other (buf : Buffer) (o v : Nat) {k : Nat} (h : k < o ∨ o + 4 ≤ k) :
    set_u32 buf o v k = buf k := by
  unfold set_u32
  rw [if_neg (by omega), if_neg (by omega), if_neg (by omega), if_neg (by omega)]

theorem get_u16_set_u16_same (buf : Buffer) (o v : Nat) :
    get_u16 (set_u16 buf o v) o = v % 65536 := by
  unfold get_u16 set_u16
  rw [if_pos rfl, if_neg (by omega), if_pos rfl]
  simp only [byte_of_val]; omega

theorem get_u32_set_u32_same (buf : Buffer) (o v : Nat) :
    get_u32 (set_u32 buf o v) o = u32 v := by
  unfold get_u32 set_u32 u32
  rw [if_pos rfl, if_neg (by omega), if_pos rfl, if_neg (by omega), if_neg (by omega),
    if_pos rfl, if_neg (by omega), if_neg (by omega), if_neg (by omega), if_pos rfl]
  simp only [byte_of_val]; omega

theorem get_u16_set_u16_other (buf : Buffer) (o v : Nat) {p : Nat} (h : p + 2 ≤ o ∨ o + 2 ≤ p) :
    get_u16 (set_u16 buf o v) p = get_u16 buf p :=
  get_u16_congr (fun _ _ _ => set_u16_other buf o v (by omega))

theorem get_u32_set_u32_other (buf : Buffer) (o v : Nat) {p : Nat} (h : p + 4 ≤ o ∨ o + 4 ≤ p) :
    get_u32 (set_u32 buf o v) p = get_u32 buf p :=
  get_u32_congr (fun _ _ _ => set_u32_other buf o v (by omega))

theorem get_u16_set_u32_other (buf : Buffer) (o v : Nat) {p : Nat} (h : p + 2 ≤ o ∨ o + 4 ≤ p) :
    get_u16 (set_u32 buf o v) p = get_u16 buf p :=
  get_u16_congr (fun _ _ _ => set_u32_other buf o v (by omega))

theorem get_u32_set_u16_other (buf : Buffer) (o v : Nat) {p : Nat} (h : p + 4 ≤ o ∨ o + 2 ≤ p) :
    get_u32 (set_u16 buf o v) p = get_u32 buf p :=
  get_u32_congr (fun _ _ _ => set_u16_other buf o v (by omega))

theorem memcpy_in (dst : Buffer) (o : Nat) (src : Buffer) (n : Nat) {k : Nat}
    (h1 : o ≤ k) (h2 : k < o + n) : memcpy dst o src n k = src (k - o) := by
  unfold memcpy; rw [if_pos ⟨h1, h2⟩]

theorem memcpy_other (dst : Buffer) (o : Nat) (src : Buffer) (n : Nat) {k : Nat}
    (h : k < o ∨ o + n ≤ k) : memcpy dst o src n k = dst k := by
  unfold memcpy; rw [if_neg (by omega)]

/-! ## Blocks of the image -/

theorem write_block_apply (img : Image) (b : Nat) (buf : Buffer) (a : Nat) :
    write_block img b buf a = if a / 4096 = b % 1048576 then buf (a % 4096) else img a := by
  unfold write_block
  rw [disk_offset_eq]
  by_cases h : a / 4096 = b % 1048576
  · rw [if_pos h, if_pos (by omega)]
    exact buf_congr _ (by omega)
  · rw [if_neg h, if_neg (by omega)]

theorem read_block_apply (img : Image) (b k : Nat) :
    read_block img b k = img (b % 1048576 * 4096 + k) := by
  unfold read_block; rw [disk_offset_eq]

theorem read_write_same (img : Image) (b : Nat) (buf : Buffer) {b1 k : Nat} (h : k < 4096)
    (hb : b1 % 1048576 = b % 1048576) :
    read_block (write_block img b buf) b1 k = buf k := by
  rw [read_block_apply, write_block_apply, if_pos (by omega)]
  exact buf_congr _ (by omega)

theorem read_write_other (img : Image) (b : Nat) (buf : Buffer) {b1 k : Nat} (h : k < 4096)
    (hb : b1 % 1048576 ≠ b % 1048576) :
    read_block (write_block img b buf) b1 k = read_block img b1 k := by
  rw [read_block_apply, write_block_apply, if_neg (by omega), read_block_apply]

/-! ## The journal region of the image -/

theorem read_journal_block0 (sb : Superblock) (img : Image) {k : Nat} (h : k < 4096) :
    read_journal sb img k = read_block img sb.journal_blocks k := by
  unfold read_journal read_block
  rw [disk_offset_u32]
  have h1 : k / 4096 = 0 := by omega
  have h2 : k % 4096 = k := by omega
  rw [h1, h2, Nat.add_zero]

theorem journal_magic_eq (sb : Superblock) (img : Image) :
    journal_magic sb img = get_u32 (read_block img sb.journal_blocks) 0 :=
  get_u32_congr (fun _ _ _ => read_journal_block0 sb img (by omega))

theorem journal_nbytes_used_eq (sb : Superblock) (img : Image) :
    journal_nbytes_used sb img = get_u32 (read_block img sb.journal_blocks) 4 :=
  get_u32_congr (fun _ _ _ => read_journal_block0 sb img (by omega))

theorem write_journal_blocks_apply (sb : Superblock) (jd : Buffer) (img : Image) (n : Nat)
    (hn : n ≤ 1048576) (a : Nat) :
    write_journal_blocks sb jd img n a =
      if a / 4096 < 1048576 ∧ journal_index sb a < n then
        jd (journal_index sb a * 4096 + a % 4096)
      else img a := by
  induction n with
  | zero => simp [write_journal_blocks]
  | succ n ih =>
    have ih1 := ih (by omega)
    unfold write_journal_blocks
    rw [write_block_apply, ih1]
    unfold journal_index u32 slice
    by_cases h1 : a / 4096 = (sb.journal_blocks + n) % 4294967296 % 1048576
    · rw [if_pos h1, if_pos (by omega)]
      exact buf_congr _ (by omega)
    · rw [if_neg h1]
      by_cases h2 : a / 4096 < 1048576 ∧
          (a / 4096 + 1048576 - sb.journal_blocks % 1048576) % 1048576 < n
      · rw [if_pos h2, if_pos (by omega)]
      · rw [if_neg h2, if_neg (by omega)]

theorem write_journal_apply (sb : Superblock) (jd : Buffer) (img : Image) (a : Nat) :
    write_journal sb jd img a =
      if a / 4096 < 1048576 ∧ journal_index sb a < 16 then
        jd (journal_index sb a * 4096 + a % 4096)
      else img a :=
  write_journal_blocks_apply sb jd img 16 (by omega) a

/-- What was written by `write_journal` is what `read_journal` reads back. -/
theorem read_write_journal (sb : Superblock) (jd : Buffer) (img : Image) {k : Nat}
    (h : k < 65536) : read_journal sb (write_journal sb jd img) k = jd k := by
  unfold read_journal
  rw [write_journal_apply, disk_offset_u32, disk_offset_eq]
  unfold journal_index
  rw [if_pos (by omega)]
  exact buf_congr _ (by omega)

/-- A block that is no journal block is not touched by `write_journal`. -/
theorem read_block_write_journal (sb : Superblock) (jd : Buffer) (img : Image) {b k : Nat}
    (hb : ¬ is_journal_block sb b) (h : k < 4096) :
    read_block (write_journal sb jd img) b k = read_block img b k := by
  rw [read_block_apply, read_block_apply, write_journal_apply, if_neg]
  intro hc
  apply hb
  refine ⟨journal_index sb (b % 1048576 * 4096 + k), hc.2, ?_⟩
  rw [disk_offset_u32, disk_offset_eq, disk_offset_eq]
  unfold journal_index
  omega

/-- The journal that `read_journal` sees depends only on journal blocks. -/
theorem read_journal_write_block (sb : Superblock) (img : Image) (b : Nat) (buf : Buffer)
    (hb : ¬ is_journal_block sb b) {k : Nat} (h : k < 65536) :
    read_journal sb (write_block img b buf) k = read_journal sb img k := by
  unfold read_journal
  rw [write_block_apply, if_neg]
  intro hc
  apply hb
  refine ⟨k / 4096, by omega, ?_⟩
  rw [disk_offset_eq, disk_offset_eq]
  rw [disk_offset_eq] at hc
  omega

/-! ## `init_journal` -/

theorem init_journal_of_magic (sb : Superblock) (img : Image)
    (h : journal_magic sb img = JOURNAL_MAGIC) : init_journal sb img = img := by
  rw [journal_magic_eq] at h
  unfold init_journal
  simp only [h, if_true]

theorem init_journal_apply (sb : Superblock) (img : Image)
    (h : journal_magic sb img ≠ JOURNAL_MAGIC) (a : Nat) :
    init_journal sb img a =
      if disk_offset sb.journal_blocks ≤ a ∧ a < disk_offset sb.journal_blocks + 8 then
        set_u32 (set_u32 (fun _ => 0) 0 JOURNAL_MAGIC) 4 HEADER_SIZE
          (a - disk_offset sb.journal_blocks)
      else img a := by
  rw [journal_magic_eq] at h
  unfold init_journal
  simp only [h, if_false]
  unfold write_block read_block
  by_cases h1 : disk_offset sb.journal_blocks ≤ a ∧ a < disk_offset sb.journal_blocks + 8
  · rw [if_pos h1, if_pos (by omega)]
    unfold set_u32
    simp only []
    split_ifs <;> first | rfl | omega
  · rw [if_neg h1]
    by_cases h2 : disk_offset sb.journal_blocks ≤ a ∧ a < disk_offset sb.journal_blocks + 4096
    · rw [if_pos h2, set_u32_other _ _ _ (by omega), set_u32_other _ _ _ (by omega)]
      exact buf_congr _ (by omega)
    · rw [if_neg h2]

theorem init_journal_header (sb : Superblock) (img : Image) :
    journal_magic sb (init_journal sb img) = JOURNAL_MAGIC ∧
      (journal_magic sb img ≠ JOURNAL_MAGIC →
        journal_nbytes_used sb (init_journal sb img) = HEADER_SIZE) := by
  by_cases h : journal_magic sb img = JOURNAL_MAGIC
  · rw [init_journal_of_magic sb img h]
    exact ⟨h, fun hc => absurd h hc⟩
  · have hm : journal_magic sb (init_journal sb img)
        = get_u32 (set_u32 (set_u32 (fun _ => 0) 0 JOURNAL_MAGIC) 4 HEADER_SIZE) 0 := by
      rw [journal_magic_eq]
      apply get_u32_congr
      intro k hk1 hk2
      rw [read_block, init_journal_apply sb img h, if_pos (by omega)]
      exact buf_congr _ (by omega)
    have hn : journal_nbytes_used sb (init_journal sb img)
        = get_u32 (set_u32 (set_u32 (fun _ => 0) 0 JOURNAL_MAGIC) 4 HEADER_SIZE) 4 := by
      rw [journal_nbytes_used_eq]
      apply get_u32_congr
      intro k hk1 hk2
      rw [read_block, init_journal_apply sb img h, if_pos (by omega)]
      exact buf_congr _ (by omega)
    refine ⟨?_, fun _ => ?_⟩
    · rw [hm, get_u32_set_u32_other _ _ _ (by omega), get_u32_set_u32_same]; rfl
    · rw [hn, get_u32_set_u32_same]; rfl

/-- C7. Idempotent init: running `init_journal` twice gives the image of
running it once; with a valid header magic the image is left unchanged byte
for byte; otherwise the header becomes `magic = JOURNAL_MAGIC`,
`nbytes_used = 8` and no byte outside the eight header bytes changes. -/
theorem init_journal_idempotent (sb : Superblock) (img : Image) :
    init_journal sb (init_journal sb img) = init_journal sb img ∧
    (journal_magic sb img = JOURNAL_MAGIC → init_journal sb img = img) ∧
    (journal_magic sb img ≠ JOURNAL_MAGIC →
      journal_magic sb (init_journal sb img) = JOURNAL_MAGIC ∧
      journal_nbytes_used sb (init_journal sb img) = 8 ∧
      ∀ a, ¬ (disk_offset sb.journal_blocks ≤ a ∧ a < disk_offset sb.journal_blocks + 8) →
        init_journal sb img a = img a) := by
  refine ⟨init_journal_of_magic sb _ (init_journal_header sb img).1,
    init_journal_of_magic sb img, fun h => ⟨(init_journal_header sb img).1,
      (init_journal_header sb img).2 h, fun a ha => ?_⟩⟩
  rw [init_journal_apply sb img h, if_neg ha]

/-! ## The replay loop -/

theorem tiles_le (jd : Buffer) (ks : List RecKind) :
    ∀ o e, tiles jd ks o e → o + 4 * ks.length ≤ e := by
  induction ks with
  | nil => intro o e h; simp only [tiles] at h; simp only [List.length_nil]; omega
  | cons k ks ih =>
    intro o e h
    cases k with
    | data =>
      simp only [tiles, DATA_RECORD_SIZE] at h
      have := ih _ _ h.2
      simp only [List.length_cons]; omega
    | commit =>
      simp only [tiles, COMMIT_RECORD_SIZE] at h
      have := ih _ _ h.2
      simp only [List.length_cons]; omega

theorem replay_done (jd : Buffer) (n fuel o : Nat) (img : Image) (h : ¬ o < n) :
    replay jd n fuel o img = .finished img := by
  cases fuel with
  | zero => simp only [replay, if_neg h]
  | succ f => simp only [replay, if_neg h]

theorem apply_records_nil (jd : Buffer) (img : Image) : apply_records jd [] img = img := rfl

theorem apply_records_cons (jd : Buffer) (o : Nat) (offs : List Nat) (img : Image) :
    apply_records jd (o :: offs) img = apply_records jd offs (apply_data jd img o) := rfl

/-- Over a run of whole records the loop performs the block writes of the
DATA records, in order, and arrives at the end of the run. -/
theorem replay_tiles (jd : Buffer) (n e : Nat) (he : e ≤ n) (hb : e ≤ 65536)
    (ks : List RecKind) :
    ∀ (o fuel : Nat) (img : Image), tiles jd ks o e → ks.length ≤ fuel →
      replay jd n fuel o img =
        replay jd n (fuel - ks.length) e (apply_records jd (data_offsets ks o) img) := by
  induction ks with
  | nil =>
    intro o fuel img h _
    simp only [tiles] at h
    subst h
    simp only [List.length_nil, Nat.sub_zero, data_offsets, apply_records_nil]
  | cons k ks ih =>
    intro o fuel img h hf
    have hle := tiles_le jd _ _ _ h
    simp only [List.length_cons] at hle hf
    cases fuel with
    | zero => omega
    | succ f =>
      cases k with
      | data =>
        simp only [tiles, DATA_RECORD_SIZE, REC_DATA] at h
        have hle2 := tiles_le jd _ _ _ h.2
        simp only [replay, JOURNAL_SIZE, DATA_RECORD_SIZE, REC_DATA]
        rw [if_pos (by omega), if_neg (by omega), if_pos h.1, if_neg (by omega),
          u32_of_lt (by omega), ih _ _ _ h.2 (by omega)]
        simp only [List.length_cons, data_offsets, apply_records_cons, DATA_RECORD_SIZE,
          Nat.add_sub_add_right]
        rfl
      | commit =>
        simp only [tiles, COMMIT_RECORD_SIZE, REC_COMMIT] at h
        simp only [replay, JOURNAL_SIZE, COMMIT_RECORD_SIZE, REC_DATA, REC_COMMIT]
        rw [if_pos (by omega), if_neg (by omega), if_neg (by omega), if_pos h.1,
          u32_of_lt (by omega), ih _ _ _ h.2 (by omega)]
        simp only [List.length_cons, data_offsets, COMMIT_RECORD_SIZE, Nat.add_sub_add_right]

/-- The fuel given to the loop by `journal_install` is never used up. -/
theorem replay_fuel_bound (jd : Buffer) (n : Nat) :
    ∀ (fuel o : Nat) (img : Image), o ≤ 65536 → 65536 < o + 4 * fuel →
      replay jd n fuel o img ≠ .out_of_fuel := by
  intro fuel
  induction fuel with
  | zero => intro o img h1 h2; omega
  | succ f ih =>
    intro o img h1 h2
    simp only [replay, JOURNAL_SIZE, DATA_RECORD_SIZE, COMMIT_RECORD_SIZE]
    split_ifs with c1 c2 c3 c4 c5
    · exact fun h => Walk.noConfusion h
    · exact fun h => Walk.noConfusion h
    · rw [u32_of_lt (by omega)]; exact ih _ _ (by omega) (by omega)
    · rw [u32_of_lt (by omega)]; exact ih _ _ (by omega) (by omega)
    · exact fun h => Walk.noConfusion h
    · exact fun h => Walk.noConfusion h

theorem replay_fuel_enough (jd : Buffer) (n : Nat) (img : Image) :
    replay jd n REPLAY_FUEL HEADER_SIZE img ≠ .out_of_fuel :=
  replay_fuel_bound jd n REPLAY_FUEL HEADER_SIZE img (by decide) (by decide)

theorem data_offsets_bound (jd : Buffer) (ks : List RecKind) :
    ∀ o e, tiles jd ks o e → ∀ r ∈ data_offsets ks o, o ≤ r ∧ r + 4104 ≤ e := by
  induction ks with
  | nil => intro o e _ r hr; simp [data_offsets] at hr
  | cons k ks ih =>
    intro o e h r hr
    cases k with
    | data =>
      simp only [tiles, DATA_RECORD_SIZE] at h
      simp only [data_offsets, DATA_RECORD_SIZE, List.mem_cons] at hr
      have hle := tiles_le jd _ _ _ h.2
      rcases hr with hr | hr
      · subst hr; omega
      · have := ih _ _ h.2 r hr; omega
    | commit =>
      simp only [tiles, COMMIT_RECORD_SIZE] at h
      simp only [data_offsets, COMMIT_RECORD_SIZE] at hr
      have := ih _ _ h.2 r hr; omega

theorem tiles_congr {jd1 jd2 : Buffer} (hj : ∀ k, k < 65536 → jd1 k = jd2 k)
    (ks : List RecKind) :
    ∀ o e, e ≤ 65536 → tiles jd1 ks o e → tiles jd2 ks o e := by
  induction ks with
  | nil => intro o e _ h; exact h
  | cons k ks ih =>
    intro o e he h
    have hle := tiles_le jd1 _ _ _ h
    simp only [List.length_cons] at hle
    have ht : get_u16 jd1 o = get_u16 jd2 o :=
      get_u16_congr (fun k _ _ => hj k (by omega))
    cases k with
    | data =>
      simp only [tiles] at h ⊢
      exact ⟨ht ▸ h.1, ih _ _ he h.2⟩
    | commit =>
      simp only [tiles] at h ⊢
      exact ⟨ht ▸ h.1, ih _ _ he h.2⟩

theorem apply_data_congr {jd1 jd2 : Buffer} (hj : ∀ k, k < 65536 → jd1 k = jd2 k)
    (img : Image) {o : Nat} (ho : o + 4104 ≤ 65536) :
    apply_data jd1 img o = apply_data jd2 img o := by
  funext a
  unfold apply_data record_target record_payload
  rw [write_block_apply, write_block_apply,
    get_u32_congr (fun k _ _ => hj k (by omega) : ∀ k, o + 4 ≤ k → k < o + 4 + 4 → jd1 k = jd2 k)]
  unfold slice
  split_ifs
  · exact hj _ (by omega)
  · rfl

theorem apply_records_congr {jd1 jd2 : Buffer} (hj : ∀ k, k < 65536 → jd1 k = jd2 k)
    (offs : List Nat) :
    ∀ img : Image, (∀ r ∈ offs, r + 4104 ≤ 65536) →
      apply_records jd1 offs img = apply_records jd2 offs img := by
  induction offs with
  | nil => intro img _; rw [apply_records_nil, apply_records_nil]
  | cons o offs ih =>
    intro img h
    rw [apply_records_cons, apply_records_cons,
      apply_data_congr hj img (h o (List.mem_cons_self _ _))]
    exact ih _ (fun r hr => h r (List.mem_cons_of_mem _ hr))

theorem apply_data_apply (jd : Buffer) (img : Image) (o a : Nat) :
    apply_data jd img o a =
      if a / 4096 = record_target jd o % 1048576 then jd (o + 8 + a % 4096) else img a := by
  unfold apply_data record_payload slice
  rw [write_block_apply]

/-- An address outside every target block keeps its byte. -/
theorem apply_records_frame (jd : Buffer) (offs : List Nat) (a : Nat) :
    ∀ img : Image, (∀ r ∈ offs, a / 4096 ≠ record_target jd r % 1048576) →
      apply_records jd offs img a = img a := by
  induction offs with
  | nil => intro img _; rw [apply_records_nil]
  | cons o offs ih =>
    intro img h
    rw [apply_records_cons, ih _ (fun r hr => h r (List.mem_cons_of_mem _ hr)),
      apply_data_apply, if_neg (h o (List.mem_cons_self _ _))]

/-- An address inside some target block gets a byte that does not depend on
the image the writes started from. -/
theorem apply_records_covered (jd : Buffer) (offs : List Nat) (a : Nat) :
    ∀ img1 img2 : Image, (∃ r ∈ offs, a / 4096 = record_target jd r % 1048576) →
      apply_records jd offs img1 a = apply_records jd offs img2 a := by
  induction offs with
  | nil => intro _ _ h; obtain ⟨r, hr, _⟩ := h; simp at hr
  | cons o offs ih =>
    intro img1 img2 h
    rw [apply_records_cons, apply_records_cons]
    by_cases hc : ∃ r ∈ offs, a / 4096 = record_target jd r % 1048576
    · exact ih _ _ hc
    · have hn : ∀ r ∈ offs, a / 4096 ≠ record_target jd r % 1048576 :=
        fun r hr he => hc ⟨r, hr, he⟩
      rw [apply_records_frame jd offs a _ hn, apply_records_frame jd offs a _ hn]
      obtain ⟨r, hr, he⟩ := h
      rcases List.mem_cons.mp hr with h1 | h1
      · subst h1
        rw [apply_data_apply, apply_data_apply, if_pos he, if_pos he]
      · exact absurd he (hn r h1)

/-- Whole-block writes absorb an earlier run of their first `K`. -/
theorem apply_records_absorb (jd : Buffer) (offs : List Nat) (K : Nat) (img : Image) :
    apply_records jd offs (apply_records jd (offs.take K) img) = apply_records jd offs img := by
  funext a
  by_cases hc : ∃ r ∈ offs, a / 4096 = record_target jd r % 1048576
  · exact apply_records_covered jd offs a _ _ hc
  · have hn : ∀ r ∈ offs, a / 4096 ≠ record_target jd r % 1048576 :=
      fun r hr he => hc ⟨r, hr, he⟩
    rw [apply_records_frame jd offs a _ hn, apply_records_frame jd offs a _ hn,
      apply_records_frame jd _ a _ (fun r hr => hn r (List.mem_of_mem_take hr))]

/-- Writes to blocks that are no journal blocks leave the journal as read. -/
theorem read_journal_apply_records (sb : Superblock) (jd : Buffer) (offs : List Nat) :
    ∀ img : Image, (∀ r ∈ offs, ¬ is_journal_block sb (record_target jd r)) →
      ∀ k, k < 65536 → read_journal sb (apply_records jd offs img) k = read_journal sb img k := by
  induction offs with
  | nil => intro img _ k _; rw [apply_records_nil]
  | cons o offs ih =>
    intro img h k hk
    rw [apply_records_cons, ih _ (fun r hr => h r (List.mem_cons_of_mem _ hr)) k hk]
    exact read_journal_write_block sb img _ _ (h o (List.mem_cons_self _ _)) hk

/-! ## `journal_install` -/

theorem checkpoint_low (jd : Buffer) {k : Nat} (h : k < 65536) :
    checkpoint jd k = set_u32 (set_u32 (fun _ => 0) 0 JOURNAL_MAGIC) 4 HEADER_SIZE k := by
  unfold checkpoint memset set_u32 JOURNAL_SIZE
  simp only []
  split_ifs <;> rfl

theorem checkpoint_magic (jd : Buffer) : get_u32 (checkpoint jd) 0 = JOURNAL_MAGIC := by
  unfold checkpoint
  rw [get_u32_set_u32_other _ _ _ (by omega), get_u32_set_u32_same]; rfl

theorem checkpoint_nbytes_used (jd : Buffer) : get_u32 (checkpoint jd) 4 = 8 := by
  unfold checkpoint
  rw [get_u32_set_u32_same]; rfl

theorem checkpoint_zero (jd : Buffer) {k : Nat} (h1 : 8 ≤ k) (h2 : k < 65536) :
    checkpoint jd k = 0 := by
  unfold checkpoint
  rw [set_u32_other _ _ _ (by omega), set_u32_other _ _ _ (by omega)]
  unfold memset JOURNAL_SIZE
  rw [if_pos h2]

/-- The three ways `journal_install` returns, by what the loop did. -/
theorem journal_install_replay (sb : Superblock) (img : Image)
    (hm : journal_magic sb img = JOURNAL_MAGIC) (hn : journal_nbytes_used sb img ≠ 8) :
    journal_install sb img =
      match replay (read_journal sb img) (journal_nbytes_used sb img) REPLAY_FUEL 8 img with
      | .finished img1 =>
        .returned .ok (write_journal sb (checkpoint (read_journal sb img)) img1)
      | .unknown img1 => .returned .unknown_record img1
      | .undefined => .undefined
      | .out_of_fuel => .out_of_fuel := by
  unfold journal_magic at hm
  unfold journal_nbytes_used at hn ⊢
  unfold journal_install
  simp only [HEADER_SIZE]
  rw [if_neg (not_not.mpr hm), if_neg hn]

theorem journal_install_empty (sb : Superblock) (img : Image)
    (hm : journal_magic sb img = JOURNAL_MAGIC) (hn : journal_nbytes_used sb img = 8) :
    journal_install sb img = .returned .journal_empty img := by
  unfold journal_magic at hm
  unfold journal_nbytes_used at hn
  unfold journal_install
  simp only [HEADER_SIZE]
  rw [if_neg (not_not.mpr hm), if_pos hn]

theorem journal_install_not_initialized (sb : Superblock) (img : Image)
    (hm : journal_magic sb img ≠ JOURNAL_MAGIC) :
    journal_install sb img = .returned .not_initialized img := by
  unfold journal_magic at hm
  unfold journal_install
  simp only []
  rw [if_pos hm]

/-- C10. Checkpoint: when `journal_install` returns success the journal on
the image is empty afterwards (`magic = JOURNAL_MAGIC`, `nbytes_used = 8`),
and when `nbytes_used` was not 8 before the call all 65528 bytes of the
journal region after the header are zero. -/
theorem install_checkpoint (sb : Superblock) (img img1 : Image) (st : Status)
    (h : journal_install sb img = .returned st img1) (hc : st.code = 0) :
    journal_magic sb img1 = JOURNAL_MAGIC ∧ journal_nbytes_used sb img1 = 8 ∧
    (journal_nbytes_used sb img ≠ 8 →
      ∀ k, 8 ≤ k → k < 65536 → read_journal sb img1 k = 0) := by
  by_cases hm : journal_magic sb img = JOURNAL_MAGIC
  · by_cases hn : journal_nbytes_used sb img = 8
    · rw [journal_install_empty sb img hm hn] at h
      simp only [Run.returned.injEq] at h
      rw [← h.2]
      exact ⟨hm, hn, fun hc => absurd hn hc⟩
    · rw [journal_install_replay sb img hm hn] at h
      split at h
      · simp only [Run.returned.injEq] at h
        rw [← h.2]
        refine ⟨?_, ?_, fun _ k h1 h2 => ?_⟩
        · unfold journal_magic
          rw [get_u32_congr (fun k _ _ => read_write_journal sb _ _ (by omega))]
          exact checkpoint_magic _
        · unfold journal_nbytes_used
          rw [get_u32_congr (fun k _ _ => read_write_journal sb _ _ (by omega))]
          exact checkpoint_nbytes_used _
        · rw [read_write_journal sb _ _ h2]
          exact checkpoint_zero _ h1 h2
      · simp only [Run.returned.injEq] at h
        rw [← h.1] at hc
        exact absurd hc (by decide)
      · exact Run.noConfusion h
      · exact Run.noConfusion h
  · rw [journal_install_not_initialized sb img hm] at h
    simp only [Run.returned.injEq] at h
    rw [← h.1] at hc
    exact absurd hc (by decide)

theorem tiles_fuel (jd : Buffer) (ks : List RecKind) (e : Nat) (h : tiles jd ks 8 e)
    (he : e ≤ 65536) : ks.length + 2 ≤ REPLAY_FUEL := by
  have := tiles_le jd ks 8 e h
  unfold REPLAY_FUEL; omega

/-- Install over a journal that is a run of whole records up to `nbytes_used`. -/
theorem journal_install_tiles (sb : Superblock) (img : Image) (ks : List RecKind)
    (hm : journal_magic sb img = JOURNAL_MAGIC) (hn : journal_nbytes_used sb img ≠ 8)
    (hb : journal_nbytes_used sb img ≤ 65536)
    (ht : tiles (read_journal sb img) ks 8 (journal_nbytes_used sb img)) :
    journal_install sb img =
      .returned .ok (write_journal sb (checkpoint (read_journal sb img))
        (apply_records (read_journal sb img) (data_offsets ks 8) img)) := by
  rw [journal_install_replay sb img hm hn,
    replay_tiles _ _ _ (Nat.le_refl _) hb ks 8 REPLAY_FUEL img ht
      (by have := tiles_fuel _ ks _ ht hb; omega),
    replay_done _ _ _ _ _ (Nat.lt_irrefl _)]

/-- The loop stops at a record of unknown type with the earlier DATA records applied. -/
theorem journal_install_unknown (sb : Superblock) (img : Image) (ks : List RecKind) (o : Nat)
    (hm : journal_magic sb img = JOURNAL_MAGIC)
    (ht : tiles (read_journal sb img) ks 8 o)
    (ho : o < journal_nbytes_used sb img)
    (hb : o + 4 ≤ 65536)
    (h1 : get_u16 (read_journal sb img) o ≠ REC_DATA)
    (h2 : get_u16 (read_journal sb img) o ≠ REC_COMMIT) :
    journal_install sb img =
      .returned .unknown_record
        (apply_records (read_journal sb img) (data_offsets ks 8) img) := by
  have hle := tiles_le _ ks 8 o ht
  have hf := tiles_fuel _ ks o ht (by omega)
  rw [journal_install_replay sb img hm (by omega),
    replay_tiles _ _ o (by omega) (by omega) ks 8 REPLAY_FUEL img ht (by omega)]
  obtain ⟨f, hfeq⟩ : ∃ f, REPLAY_FUEL - ks.length = f + 1 := ⟨REPLAY_FUEL - ks.length - 1, by omega⟩
  rw [hfeq]
  simp only [replay, JOURNAL_SIZE]
  rw [if_pos ho, if_neg (by omega), if_neg h1, if_neg h2]

/-- Block writes none of which goes to the first journal block keep the header. -/
theorem header_apply_records (sb : Superblock) (jd : Buffer) (offs : List Nat) (img : Image)
    (hj : ∀ r ∈ offs, disk_offset (record_target jd r) ≠ disk_offset sb.journal_blocks) :
    journal_magic sb (apply_records jd offs img) = journal_magic sb img ∧
      journal_nbytes_used sb (apply_records jd offs img) = journal_nbytes_used sb img := by
  have key : ∀ k, k < 4096 →
      read_journal sb (apply_records jd offs img) k = read_journal sb img k := by
    intro k hk
    rw [read_journal_block0 sb _ hk, read_journal_block0 sb _ hk, read_block_apply,
      read_block_apply]
    apply apply_records_frame
    intro r hr he
    apply hj r hr
    rw [disk_offset_eq, disk_offset_eq]
    omega
  exact ⟨get_u32_congr (fun k _ _ => key k (by omega)),
    get_u32_congr (fun k _ _ => key k (by omega))⟩

/-- C9 (as amended). Non-clean failure of install: when the cursor, after a
run of whole records from offset 8, meets at `o < nbytes_used` a record
header inside the journal buffer whose tag is neither DATA nor COMMIT,
`journal_install` returns -1 with the unknown-record message, and the image
is the original one with exactly the block writes of the DATA records before
`o` applied in stream order: nothing at or after `o` is applied and no
checkpoint is written.  The header fields on the image are unchanged when
none of those DATA records targets the first journal block. -/
theorem install_unknown_record (sb : Superblock) (img : Image) (ks : List RecKind) (o : Nat)
    (hm : journal_magic sb img = JOURNAL_MAGIC)
    (ht : tiles (read_journal sb img) ks 8 o)
    (ho : o < journal_nbytes_used sb img)
    (hb : o + 4 ≤ 65536)
    (h1 : get_u16 (read_journal sb img) o ≠ REC_DATA)
    (h2 : get_u16 (read_journal sb img) o ≠ REC_COMMIT) :
    journal_install sb img =
      .returned .unknown_record
        (apply_records (read_journal sb img) (data_offsets ks 8) img) ∧
    Status.unknown_record.code = -1 ∧
    ((∀ r ∈ data_offsets ks 8,
        disk_offset (record_target (read_journal sb img) r) ≠ disk_offset sb.journal_blocks) →
      journal_magic sb (apply_records (read_journal sb img) (data_offsets ks 8) img)
        = journal_magic sb img ∧
      journal_nbytes_used sb (apply_records (read_journal sb img) (data_offsets ks 8) img)
        = journal_nbytes_used sb img) :=
  ⟨journal_install_unknown sb img ks o hm ht ho hb h1 h2, rfl,
    header_apply_records sb _ _ img⟩

/-- C4. Resumable replay: on an image whose journal is a well-formed record
stream (valid magic, `8 ≤ nbytes_used ≤ 65536`, whole records up to
`nbytes_used`) none of whose DATA records targets a journal block, applying
the first `K` DATA records and then running `journal_install` gives the same
result, image and return value, as running `journal_install` once on the
original image; and that run returns 0. -/
theorem resumable_replay (sb : Superblock) (img : Image) (ks : List RecKind) (K : Nat)
    (hm : journal_magic sb img = JOURNAL_MAGIC)
    (hb : journal_nbytes_used sb img ≤ 65536)
    (ht : tiles (read_journal sb img) ks 8 (journal_nbytes_used sb img))
    (hj : ∀ r ∈ data_offsets ks 8,
      ¬ is_journal_block sb (record_target (read_journal sb img) r))
    (hK : K ≤ (data_offsets ks 8).length) :
    journal_install sb
        (apply_records (read_journal sb img) ((data_offsets ks 8).take K) img)
      = journal_install sb img ∧
    (journal_install sb img).code = some 0 := by
  have hjK : ∀ k, k < 65536 →
      read_journal sb (apply_records (read_journal sb img) ((data_offsets ks 8).take K) img) k
        = read_journal sb img k :=
    read_journal_apply_records sb _ _ img (fun r hr => hj r (List.mem_of_mem_take hr))
  have hmK : journal_magic sb
      (apply_records (read_journal sb img) ((data_offsets ks 8).take K) img) = JOURNAL_MAGIC := by
    rw [← hm]; exact get_u32_congr (fun k _ _ => hjK k (by omega))
  have hnK : journal_nbytes_used sb
      (apply_records (read_journal sb img) ((data_offsets ks 8).take K) img)
        = journal_nbytes_used sb img :=
    get_u32_congr (fun k _ _ => hjK k (by omega))
  have hle := tiles_le _ ks 8 _ ht
  by_cases hn : journal_nbytes_used sb img = 8
  · have hks : ks = [] := by
      cases ks with
      | nil => rfl
      | cons k ks => simp only [List.length_cons] at hle; omega
    subst hks
    simp only [data_offsets, List.take_nil, apply_records_nil]
    rw [journal_install_empty sb img hm hn]
    exact ⟨trivial, rfl⟩
  · have hoff := data_offsets_bound _ ks 8 _ ht
    have htK := tiles_congr (fun k hk => (hjK k hk).symm) ks 8 _ hb ht
    rw [← hnK] at htK
    rw [journal_install_tiles sb img ks hm hn hb ht,
      journal_install_tiles sb _ ks hmK (by rw [hnK]; exact hn) (by rw [hnK]; exact hb) htK]
    refine ⟨?_, rfl⟩
    rw [apply_records_congr hjK (data_offsets ks 8) _ (fun r hr => by have := hoff r hr; omega),
      apply_records_absorb]
    refine congrArg (Run.returned Status.ok) ?_
    funext a
    rw [write_journal_apply, write_journal_apply]
    split_ifs with hc
    · unfold journal_index at hc ⊢
      rw [checkpoint_low _ (by omega), checkpoint_low _ (by omega)]
    · rfl

/-! ## The allocators -/

theorem find_free_inode_loop_congr {b1 b2 : Buffer} (h : ∀ k, k < 4096 → b1 k = b2 k) :
    ∀ r i, find_free_inode_loop b1 r i = find_free_inode_loop b2 r i := by
  intro r
  induction r with
  | zero => intro i; rfl
  | succ r ih =>
    intro i
    simp only [find_free_inode_loop]
    by_cases hb : 4096 ≤ i / 8
    · rw [if_pos hb, if_pos hb]
    · rw [if_neg hb, if_neg hb, h _ (by omega), ih]

theorem find_free_dirent_loop_congr {b1 b2 : Buffer} (h : ∀ k, k < 4096 → b1 k = b2 k) :
    ∀ r i, i + r ≤ 128 → find_free_dirent_loop b1 r i = find_free_dirent_loop b2 r i := by
  intro r
  induction r with
  | zero => intro i _; rfl
  | succ r ih =>
    intro i hi
    simp only [find_free_dirent_loop]
    rw [get_u32_congr (fun k _ _ => h k (by omega) : ∀ k, i * 32 ≤ k → k < i * 32 + 4 →
      b1 k = b2 k), h (i * 32 + 4) (by omega), ih _ (by omega)]

theorem find_free_dirent_congr {b1 b2 : Buffer} (h : ∀ k, k < 4096 → b1 k = b2 k) :
    find_free_dirent b1 = find_free_dirent b2 :=
  find_free_dirent_loop_congr h 128 0 (by omega)

/-- A result of the bitmap scan is `-1` or an index that was scanned. -/
theorem find_free_inode_loop_range (bitmap : Buffer) :
    ∀ r i (v : Int), find_free_inode_loop bitmap r i = some v →
      v = -1 ∨ ((i : Int) ≤ v ∧ v < i + r ∧ v.toNat / 8 < 4096 ∧
        (bitmap (v.toNat / 8)).val &&& (1 <<< (v.toNat % 8)) = 0) := by
  intro r
  induction r with
  | zero => intro i v h; simp only [find_free_inode_loop, Option.some.injEq] at h; omega
  | succ r ih =>
    intro i v h
    simp only [find_free_inode_loop] at h
    split_ifs at h with c1 c2
    · simp only [Option.some.injEq] at h
      subst h
      right
      simp only [Int.toNat_ofNat]
      exact ⟨by omega, by omega, by omega, c2⟩
    · rcases ih _ _ h with h1 | h1
      · exact Or.inl h1
      · right
        refine ⟨by omega, by omega, h1.2.2⟩

theorem find_free_dirent_loop_range (dir_block : Buffer) :
    ∀ r i, find_free_dirent_loop dir_block r i = -1 ∨
      ((i : Int) ≤ find_free_dirent_loop dir_block r i ∧
        find_free_dirent_loop dir_block r i < i + r) := by
  intro r
  induction r with
  | zero => intro i; left; rfl
  | succ r ih =>
    intro i
    simp only [find_free_dirent_loop]
    split_ifs with c
    · right; omega
    · rcases ih (i + 1) with h1 | h1
      · exact Or.inl h1
      · right; omega

theorem find_free_dirent_range (dir_block : Buffer) :
    find_free_dirent dir_block = -1 ∨
      (0 ≤ find_free_dirent dir_block ∧ find_free_dirent dir_block < 128) := by
  rcases find_free_dirent_loop_range dir_block 128 0 with h | h
  · exact Or.inl h
  · right; unfold find_free_dirent; omega

/-! ## Blocks outside the journal across `init_journal` -/

theorem read_block_init_journal (sb : Superblock) (img : Image) {b k : Nat}
    (hb : disk_offset b ≠ disk_offset sb.journal_blocks) (hk : k < 4096) :
    read_block (init_journal sb img) b k = read_block img b k := by
  by_cases hm : journal_magic sb img = JOURNAL_MAGIC
  · rw [init_journal_of_magic sb img hm]
  · unfold read_block
    rw [init_journal_apply sb img hm, if_neg]
    rw [disk_offset_eq, disk_offset_eq] at hb ⊢
    omega

theorem not_journal_block_first (sb : Superblock) {b : Nat} (h : ¬ is_journal_block sb b) :
    disk_offset b ≠ disk_offset sb.journal_blocks := by
  intro hc
  apply h
  refine ⟨0, by omega, ?_⟩
  rw [disk_offset_u32, Nat.add_zero, hc]

/-- The root inode's `direct[0]` is not among the header bytes `init_journal` writes. -/
theorem root_dir_block_init_journal (sb : Superblock) (img : Image) :
    root_dir_block sb (init_journal sb img) = root_dir_block sb img := by
  by_cases hm : journal_magic sb img = JOURNAL_MAGIC
  · rw [init_journal_of_magic sb img hm]
  · unfold root_dir_block
    apply get_u32_congr
    intro k h1 h2
    unfold read_block
    rw [init_journal_apply sb img hm, if_neg]
    rw [disk_offset_eq, disk_offset_eq]
    omega

/-! ## `journal_create`: the ways it returns -/

theorem journal_create_undefined (sb : Superblock) (filename : List Byte) (clk : Clock)
    (img : Image) (h : find_free_inode sb (init_journal sb img) = none) :
    journal_create sb filename clk img = .undefined := by
  unfold journal_create
  simp only [h]

theorem journal_create_no_free_inodes (sb : Superblock) (filename : List Byte) (clk : Clock)
    (img : Image) (v : Int) (h : find_free_inode sb (init_journal sb img) = some v)
    (hv : v < 0) :
    journal_create sb filename clk img = .returned .no_free_inodes (init_journal sb img) := by
  unfold journal_create
  simp only [h, if_pos hv]

theorem journal_create_no_free_dirents (sb : Superblock) (filename : List Byte) (clk : Clock)
    (img : Image) (v : Int) (h : find_free_inode sb (init_journal sb img) = some v)
    (hv : ¬ v < 0)
    (hs : find_free_dirent (read_block (init_journal sb img)
      (root_dir_block sb (init_journal sb img))) < 0) :
    journal_create sb filename clk img = .returned .no_free_dirents (init_journal sb img) := by
  unfold root_dir_block at hs
  unfold journal_create
  simp only [h, if_neg hv, if_pos hs]

theorem journal_create_log (sb : Superblock) (filename : List Byte) (clk : Clock)
    (img : Image) (v : Int) (h : find_free_inode sb (init_journal sb img) = some v)
    (hv : ¬ v < 0)
    (hs : ¬ find_free_dirent (read_block (init_journal sb img)
      (root_dir_block sb (init_journal sb img))) < 0) :
    journal_create sb filename clk img =
      log_transaction sb
        (stage sb filename clk (init_journal sb img) v.toNat
          (find_free_dirent (read_block (init_journal sb img)
            (root_dir_block sb (init_journal sb img)))).toNat)
        (init_journal sb img) := by
  unfold root_dir_block at hs ⊢
  unfold journal_create
  simp only [h, if_neg hv, if_neg hs]

/-- Whatever `journal_create` returns without logging, and whenever the
capacity check rejects, the image is the one `init_journal` left. -/
theorem journal_create_failed_image (sb : Superblock) (filename : List Byte) (clk : Clock)
    (img img1 : Image) (st : Status)
    (h : journal_create sb filename clk img = .returned st img1) (hst : st ≠ .ok) :
    img1 = init_journal sb img := by
  cases hf : find_free_inode sb (init_journal sb img) with
  | none => rw [journal_create_undefined sb filename clk img hf] at h; exact Run.noConfusion h
  | some v =>
    by_cases hv : v < 0
    · rw [journal_create_no_free_inodes sb filename clk img v hf hv] at h
      simp only [Run.returned.injEq] at h
      exact h.2.symm
    · by_cases hs : find_free_dirent (read_block (init_journal sb img)
          (root_dir_block sb (init_journal sb img))) < 0
      · rw [journal_create_no_free_dirents sb filename clk img v hf hv hs] at h
        simp only [Run.returned.injEq] at h
        exact h.2.symm
      · rw [journal_create_log sb filename clk img v hf hv hs] at h
        unfold log_transaction at h
        simp only [] at h
        split_ifs at h
        · simp only [Run.returned.injEq] at h; exact h.2.symm
        · simp only [Run.returned.injEq] at h; exact h.2.symm
        · simp only [Run.returned.injEq] at h; exact absurd h.1.symm hst

/-- The capacity check can only reject a journal that was already initialised. -/
theorem journal_full_magic (sb : Superblock) (filename : List Byte) (clk : Clock)
    (img img1 : Image)
    (h : journal_create sb filename clk img = .returned .journal_full img1) :
    journal_magic sb img = JOURNAL_MAGIC := by
  by_contra hm
  have hn := (init_journal_header sb img).2 hm
  cases hf : find_free_inode sb (init_journal sb img) with
  | none => rw [journal_create_undefined sb filename clk img hf] at h; exact Run.noConfusion h
  | some v =>
    by_cases hv : v < 0
    · rw [journal_create_no_free_inodes sb filename clk img v hf hv] at h
      simp only [Run.returned.injEq] at h
      exact absurd h.1 (by decide)
    · by_cases hs : find_free_dirent (read_block (init_journal sb img)
          (root_dir_block sb (init_journal sb img))) < 0
      · rw [journal_create_no_free_dirents sb filename clk img v hf hv hs] at h
        simp only [Run.returned.injEq] at h
        exact absurd h.1 (by decide)
      · rw [journal_create_log sb filename clk img v hf hv hs] at h
        unfold log_transaction at h
        unfold journal_nbytes_used at hn
        simp only [hn] at h
        unfold num_data_records HEADER_SIZE DATA_RECORD_SIZE COMMIT_RECORD_SIZE JOURNAL_SIZE u32
          at h
        split_ifs at h <;>
          first
          | exact Run.noConfusion h
          | omega
          | (simp only [Run.returned.injEq] at h; exact absurd h.1 (by decide))

/-- C2. JournalFull is atomic: whenever `journal_create` fails because the
capacity check rejects the transaction, the image after the call equals the
image before the call, byte for byte; in particular the journal region and
`nbytes_used` are as before the attempt. -/
theorem journal_full_atomic (sb : Superblock) (filename : List Byte) (clk : Clock)
    (img img1 : Image)
    (h : journal_create sb filename clk img = .returned .journal_full img1) :
    img1 = img ∧ (∀ k, read_journal sb img1 k = read_journal sb img k) ∧
      journal_nbytes_used sb img1 = journal_nbytes_used sb img := by
  have h1 : img1 = img := by
    rw [journal_create_failed_image sb filename clk img img1 _ h (by decide),
      init_journal_of_magic sb img (journal_full_magic sb filename clk img img1 h)]
  subst h1
  exact ⟨rfl, fun _ => rfl, rfl⟩

/-- C5 (as amended). Failure of create for want of a free inode or of a free
directory slot: the image after the call is the image `init_journal` leaves,
which is the image before the call, byte for byte, when the journal magic
was valid, and otherwise differs from it in the eight bytes of the journal
header only (set to `JOURNAL_MAGIC` and `nbytes_used = 8`). -/
theorem create_failure_image (sb : Superblock) (filename : List Byte) (clk : Clock)
    (img img1 : Image) (st : Status)
    (h : journal_create sb filename clk img = .returned st img1)
    (hst : st = .no_free_inodes ∨ st = .no_free_dirents) :
    img1 = init_journal sb img ∧
    (journal_magic sb img = JOURNAL_MAGIC → img1 = img) ∧
    (journal_magic sb img ≠ JOURNAL_MAGIC →
      journal_magic sb img1 = JOURNAL_MAGIC ∧ journal_nbytes_used sb img1 = 8 ∧
      ∀ a, ¬ (disk_offset sb.journal_blocks ≤ a ∧ a < disk_offset sb.journal_blocks + 8) →
        img1 a = img a) := by
  have h1 : img1 = init_journal sb img :=
    journal_create_failed_image sb filename clk img img1 st h
      (by rcases hst with h2 | h2 <;> rw [h2] <;> decide)
  subst h1
  refine ⟨rfl, init_journal_of_magic sb img, fun hm => ⟨(init_journal_header sb img).1,
      (init_journal_header sb img).2 hm, fun a ha => ?_⟩⟩
  rw [init_journal_apply sb img hm, if_neg ha]

/-! ## Records stored by `journal_create` -/

theorem put_data_record_other (jd : Buffer) (o b : Nat) (d : Buffer) {k : Nat}
    (h : k < o ∨ o + 4104 ≤ k) : put_data_record jd o b d k = jd k := by
  unfold put_data_record BLOCK_SIZE
  rw [memcpy_other _ _ _ _ (by omega), set_u32_other _ _ _ (by omega),
    set_u16_other _ _ _ (by omega), set_u16_other _ _ _ (by omega)]

theorem put_commit_record_other (jd : Buffer) (o : Nat) {k : Nat}
    (h : k < o ∨ o + 4 ≤ k) : put_commit_record jd o k = jd k := by
  unfold put_commit_record
  rw [set_u16_other _ _ _ (by omega), set_u16_other _ _ _ (by omega)]

theorem put_commit_record_tag (jd : Buffer) (o : Nat) :
    get_u16 (put_commit_record jd o) o = REC_COMMIT := by
  unfold put_commit_record
  simp only []
  rw [get_u16_set_u16_other _ _ _ (by omega), get_u16_set_u16_same]
  rfl

theorem holds_data_put (jd : Buffer) (o b : Nat) (d : Buffer) :
    holds_data (put_data_record jd o b d) o b d := by
  unfold holds_data record_target record_payload put_data_record BLOCK_SIZE
  simp only []
  refine ⟨?_, ?_, fun k hk => ?_⟩
  · rw [get_u16_congr (fun k _ _ => memcpy_other _ _ _ _ (by omega)),
      get_u16_set_u32_other _ _ _ (by omega), get_u16_set_u16_other _ _ _ (by omega),
      get_u16_set_u16_same]
    rfl
  · rw [get_u32_congr (fun k _ _ => memcpy_other _ _ _ _ (by omega)), get_u32_set_u32_same]
  · unfold slice
    rw [memcpy_in _ _ _ _ (by omega) (by omega)]
    exact buf_congr _ (by omega)

theorem holds_data_congr {j1 j2 : Buffer} {o b : Nat} {d : Buffer}
    (h : ∀ k, o ≤ k → k < o + 4104 → j2 k = j1 k) (hd : holds_data j1 o b d) :
    holds_data j2 o b d := by
  unfold holds_data record_target record_payload at hd ⊢
  refine ⟨?_, ?_, fun k hk => ?_⟩
  · rw [get_u16_congr (fun k _ _ => h k (by omega) (by omega))]; exact hd.1
  · rw [get_u32_congr (fun k _ _ => h k (by omega) (by omega))]; exact hd.2.1
  · unfold slice
    rw [h _ (by omega) (by omega)]
    exact hd.2.2 k hk

/-- `log_records` when the new inode shares the root inode's block. -/
theorem log_records_three (sb : Superblock) (st : Staged) (jd : Buffer) (u : Nat)
    (hs : st.inode_block_no = u32 sb.inode_start) (hu : u + 12316 ≤ 65536) :
    log_records sb st jd u =
      set_u32 (put_commit_record (put_data_record (put_data_record (put_data_record jd u
        sb.inode_bitmap st.inode_bitmap) (u + 4104) sb.inode_start st.root_inode_block)
        (u + 8208) st.root_dir_block st.root_dir) (u + 12312)) 4 (u + 12316) := by
  unfold log_records
  simp only [DATA_RECORD_SIZE, COMMIT_RECORD_SIZE]
  rw [if_neg (not_not.mpr hs), u32_of_lt (by omega), u32_of_lt (by omega), u32_of_lt (by omega),
    u32_of_lt (by omega)]

/-- `log_records` when the new inode lies in a block of its own. -/
theorem log_records_four (sb : Superblock) (st : Staged) (jd : Buffer) (u : Nat)
    (hs : st.inode_block_no ≠ u32 sb.inode_start) (hu : u + 16420 ≤ 65536) :
    log_records sb st jd u =
      set_u32 (put_commit_record (put_data_record (put_data_record (put_data_record
        (put_data_record jd u sb.inode_bitmap st.inode_bitmap) (u + 4104) sb.inode_start
        st.root_inode_block) (u + 8208) st.inode_block_no st.new_inode_block)
        (u + 12312) st.root_dir_block st.root_dir) (u + 16416)) 4 (u + 16420) := by
  unfold log_records
  simp only [DATA_RECORD_SIZE, COMMIT_RECORD_SIZE]
  rw [if_pos hs, u32_of_lt (by omega), u32_of_lt (by omega), u32_of_lt (by omega),
    u32_of_lt (by omega), u32_of_lt (by omega)]

/-- The last DATA record of the transaction is the root-directory block. -/
theorem log_records_dir (sb : Superblock) (st : Staged) (jd : Buffer) (u : Nat)
    (hu : u + num_data_records sb st * 4104 + 4 ≤ 65536) :
    holds_data (log_records sb st jd u) (u + (num_data_records sb st - 1) * 4104)
      st.root_dir_block st.root_dir := by
  unfold num_data_records at hu ⊢
  by_cases hs : st.inode_block_no = u32 sb.inode_start
  · rw [if_pos hs] at hu ⊢
    rw [log_records_three sb st jd u hs (by omega), (by omega : u + (3 - 1) * 4104 = u + 8208)]
    refine holds_data_congr (fun k h1 h2 => ?_) (holds_data_put (put_data_record
      (put_data_record jd u sb.inode_bitmap st.inode_bitmap) (u + 4104) sb.inode_start
      st.root_inode_block) (u + 8208) _ _)
    rw [set_u32_other _ _ _ (by omega), put_commit_record_other _ _ (by omega)]
  · rw [if_neg hs] at hu ⊢
    rw [log_records_four sb st jd u hs (by omega), (by omega : u + (4 - 1) * 4104 = u + 12312)]
    refine holds_data_congr (fun k h1 h2 => ?_) (holds_data_put (put_data_record
      (put_data_record (put_data_record jd u sb.inode_bitmap st.inode_bitmap) (u + 4104)
      sb.inode_start st.root_inode_block) (u + 8208) st.inode_block_no st.new_inode_block)
      (u + 12312) _ _)
    rw [set_u32_other _ _ _ (by omega), put_commit_record_other _ _ (by omega)]

theorem log_transaction_ok (sb : Superblock) (st : Staged) (img : Image)
    (hm : journal_magic sb img = JOURNAL_MAGIC)
    (hu : journal_nbytes_used sb img + num_data_records sb st * 4104 + 4 ≤ 65536) :
    log_transaction sb st img =
      .returned .ok (write_journal sb
        (log_records sb st (read_journal sb img) (journal_nbytes_used sb img)) img) := by
  unfold journal_magic at hm
  unfold journal_nbytes_used at hu ⊢
  unfold log_transaction
  simp only [DATA_RECORD_SIZE, COMMIT_RECORD_SIZE, JOURNAL_SIZE]
  have hn : num_data_records sb st ≤ 4 := by unfold num_data_records; split_ifs <;> omega
  have e1 : u32 (num_data_records sb st * 4104 + 4) = num_data_records sb st * 4104 + 4 :=
    u32_of_lt (by omega)
  have e2 : u32 (get_u32 (read_journal sb img) 4 + (num_data_records sb st * 4104 + 4))
      = get_u32 (read_journal sb img) 4 + (num_data_records sb st * 4104 + 4) :=
    u32_of_lt (by omega)
  simp only [e1, e2]
  rw [if_neg (not_not.mpr hm), if_neg (by omega), if_neg (by omega)]

theorem log_transaction_ok_inv (sb : Superblock) (st : Staged) (img img1 : Image)
    (h : log_transaction sb st img = .returned .ok img1) :
    journal_magic sb img = JOURNAL_MAGIC ∧
    journal_nbytes_used sb img + num_data_records sb st * 4104 + 4 ≤ 65536 ∧
    img1 = write_journal sb
      (log_records sb st (read_journal sb img) (journal_nbytes_used sb img)) img := by
  have hn : num_data_records sb st ≤ 4 := by unfold num_data_records; split_ifs <;> omega
  unfold journal_magic journal_nbytes_used
  unfold log_transaction at h
  simp only [DATA_RECORD_SIZE, COMMIT_RECORD_SIZE, JOURNAL_SIZE] at h
  have e1 : u32 (num_data_records sb st * 4104 + 4) = num_data_records sb st * 4104 + 4 :=
    u32_of_lt (by omega)
  simp only [e1] at h
  split_ifs at h with c1 c2 c3
  · simp only [Run.returned.injEq] at h; exact absurd h.1 (by decide)
  · simp only [Run.returned.injEq] at h; exact absurd h.1 (by decide)
  · simp only [Run.returned.injEq] at h
    exact ⟨not_not.mp c1, by omega, h.2.symm⟩

/-- A successful `journal_create`, taken apart. -/
theorem journal_create_ok_inv (sb : Superblock) (filename : List Byte) (clk : Clock)
    (img img1 : Image) (h : journal_create sb filename clk img = .returned .ok img1) :
    ∃ v : Int, create_inum sb img = some v ∧ 0 ≤ v ∧ 0 ≤ create_slot sb img ∧
      log_transaction sb
        (stage sb filename clk (init_journal sb img) v.toNat (create_slot sb img).toNat)
        (init_journal sb img) = .returned .ok img1 := by
  unfold create_inum create_slot
  cases hf : find_free_inode sb (init_journal sb img) with
  | none => rw [journal_create_undefined sb filename clk img hf] at h; exact Run.noConfusion h
  | some v =>
    by_cases hv : v < 0
    · rw [journal_create_no_free_inodes sb filename clk img v hf hv] at h
      simp only [Run.returned.injEq] at h
      exact absurd h.1 (by decide)
    · by_cases hs : find_free_dirent (read_block (init_journal sb img)
          (root_dir_block sb (init_journal sb img))) < 0
      · rw [journal_create_no_free_dirents sb filename clk img v hf hv hs] at h
        simp only [Run.returned.injEq] at h
        exact absurd h.1 (by decide)
      · rw [journal_create_log sb filename clk img v hf hv hs] at h
        exact ⟨v, rfl, by omega, by omega, h⟩

/-! ## The name field -/

theorem strncpy_bytes_nil (n : Nat) : strncpy_bytes [] n = List.replicate n 0 := by
  induction n with
  | zero => rfl
  | succ n ih => simp only [strncpy_bytes, ih, List.replicate_succ]

theorem strncpy_bytes_eq (l : List Byte) :
    ∀ n, strncpy_bytes l n =
      l.take (min (strlen l) n) ++ List.replicate (n - min (strlen l) n) 0 := by
  induction l with
  | nil =>
    intro n
    rw [strncpy_bytes_nil]
    simp only [strlen, Nat.zero_min, List.take_nil, List.nil_append, Nat.sub_zero]
  | cons c cs ih =>
    intro n
    cases n with
    | zero => simp only [strncpy_bytes, Nat.min_zero, List.take_zero, Nat.sub_zero,
        List.replicate_zero, List.append_nil]
    | succ n =>
      by_cases hc : c = 0
      · simp only [strncpy_bytes, strlen, if_pos hc, strncpy_bytes_nil, Nat.zero_min,
          List.take_zero, List.nil_append, Nat.sub_zero, List.replicate_succ]
      · simp only [strncpy_bytes, strlen, if_neg hc, ih n, Nat.add_min_add_right,
          List.take_succ_cons, List.cons_append, Nat.add_sub_add_right]

theorem strlen_le (l : List Byte) : strlen l ≤ l.length := by
  induction l with
  | nil => simp only [strlen, List.length_nil, Nat.le_refl]
  | cons c cs ih =>
    simp only [strlen, List.length_cons]
    split_ifs <;> omega

theorem strncpy_bytes_length (l : List Byte) (n : Nat) : (strncpy_bytes l n).length = n := by
  rw [strncpy_bytes_eq]
  have := strlen_le l
  simp only [List.length_append, List.length_take, List.length_replicate]
  omega

/-- The stored name field is the one the specification words. -/
theorem name_field_eq (filename : List Byte) : name_field filename = name_field_spec filename := by
  unfold name_field name_field_spec
  rw [strncpy_bytes_eq, List.append_assoc]
  have h : 28 - min (strlen filename) 27 = (27 - min (strlen filename) 27) + 1 := by omega
  rw [h, List.replicate_succ']

theorem name_field_spec_long (filename : List Byte) (h : 28 ≤ strlen filename) :
    name_field_spec filename = filename.take 27 ++ [0] := by
  unfold name_field_spec
  have h1 : min (strlen filename) 27 = 27 := by omega
  rw [h1]
  rfl

theorem add_dirent_name (root_dir : Buffer) (s i : Nat) (filename : List Byte) {k : Nat}
    (hk : k < 28) :
    add_dirent root_dir s i filename (s * 32 + 4 + k) = (name_field filename).getD k 0 := by
  unfold add_dirent name_field
  simp only [Nat.add_one_sub_one]
  by_cases h27 : k = 27
  · subst h27
    rw [set_u8_same, List.getD_append_right _ _ _ _ (by rw [strncpy_bytes_length])]
    rw [strncpy_bytes_length]
    rfl
  · rw [set_u8_other _ _ _ (by omega)]
    unfold store_bytes
    rw [strncpy_bytes_length, if_pos (by omega),
      List.getD_append _ _ _ _ (by rw [strncpy_bytes_length]; omega)]
    exact congrArg (fun j => (strncpy_bytes filename 27).getD j 0) (by omega)

theorem add_dirent_inode (root_dir : Buffer) (s i : Nat) (filename : List Byte) :
    get_u32 (add_dirent root_dir s i filename) (s * 32) = u32 i := by
  unfold add_dirent
  simp only [Nat.add_one_sub_one]
  rw [get_u32_congr (fun k _ _ => set_u8_other _ _ _ (by omega)),
    get_u32_congr (fun k h1 h2 => by unfold store_bytes; rw [if_neg (by omega)] :
      ∀ k, s * 32 ≤ k → k < s * 32 + 4 →
        store_bytes (set_u32 root_dir (s * 32) i) (s * 32 + 4) (strncpy_bytes filename 27) k
          = set_u32 root_dir (s * 32) i k),
    get_u32_set_u32_same]

theorem add_dirent_other (root_dir : Buffer) (s i : Nat) (filename : List Byte) {k : Nat}
    (hk : k < s * 32 ∨ s * 32 + 32 ≤ k) :
    add_dirent root_dir s i filename k = root_dir k := by
  unfold add_dirent
  simp only [Nat.add_one_sub_one]
  rw [set_u8_other _ _ _ (by omega)]
  unfold store_bytes
  rw [strncpy_bytes_length, if_neg (by omega), set_u32_other _ _ _ (by omega)]

theorem stage_root_dir (sb : Superblock) (filename : List Byte) (clk : Clock) (img : Image)
    (i s : Nat) :
    (stage sb filename clk img i s).root_dir =
      add_dirent (read_block img (root_dir_block sb img)) s i filename := by
  unfold stage root_dir_block
  simp only []
  split_ifs <;> rfl

theorem stage_root_dir_block (sb : Superblock) (filename : List Byte) (clk : Clock) (img : Image)
    (i s : Nat) :
    (stage sb filename clk img i s).root_dir_block = root_dir_block sb img := by
  unfold stage root_dir_block
  simp only []
  split_ifs <;> rfl

theorem stage_inode_bitmap (sb : Superblock) (filename : List Byte) (clk : Clock) (img : Image)
    (i s : Nat) :
    (stage sb filename clk img i s).inode_bitmap =
      mark_inode (read_block img sb.inode_bitmap) i := by
  unfold stage
  simp only []
  split_ifs <;> rfl

theorem stage_inode_block_no (sb : Superblock) (filename : List Byte) (clk : Clock) (img : Image)
    (i s : Nat) :
    (stage sb filename clk img i s).inode_block_no = u32 (sb.inode_start + i * 128 / 4096) := by
  unfold stage
  simp only []
  split_ifs <;> rfl

theorem num_data_records_cases (sb : Superblock) (st : Staged) :
    num_data_records sb st = 3 ∨ num_data_records sb st = 4 := by
  unfold num_data_records; split_ifs
  · exact Or.inl rfl
  · exact Or.inr rfl

theorem log_records_nbytes_used (sb : Superblock) (st : Staged) (jd : Buffer) (u : Nat)
    (hu : u + num_data_records sb st * 4104 + 4 ≤ 65536) :
    get_u32 (log_records sb st jd u) 4 = u + num_data_records sb st * 4104 + 4 := by
  unfold num_data_records at hu ⊢
  by_cases hs : st.inode_block_no = u32 sb.inode_start
  · rw [if_pos hs] at hu ⊢
    rw [log_records_three sb st jd u hs (by omega), get_u32_set_u32_same, u32_of_lt (by omega)]
  · rw [if_neg hs] at hu ⊢
    rw [log_records_four sb st jd u hs (by omega), get_u32_set_u32_same, u32_of_lt (by omega)]

theorem create_slot_range (sb : Superblock) (img : Image) (h : 0 ≤ create_slot sb img) :
    (create_slot sb img).toNat < 128 := by
  unfold create_slot at h ⊢
  rcases find_free_dirent_range (read_block (init_journal sb img)
    (root_dir_block sb (init_journal sb img))) with h1 | h1
  · omega
  · omega

/-- C8. Name truncation: after a successful `journal_create` the last DATA
record of the journal (the one before the closing COMMIT) is the staged
root-directory block, and the 28-byte name field of the new entry in it holds
the first `min(len, 27)` bytes of the filename followed by zero bytes up to
length 28; for a filename of length at least 28 that is its first 27 bytes
followed by one NUL. -/
theorem name_truncation (sb : Superblock) (filename : List Byte) (clk : Clock)
    (img img1 : Image) (h : journal_create sb filename clk img = .returned .ok img1) :
    4108 ≤ journal_nbytes_used sb img1 ∧
    holds_data (read_journal sb img1) (journal_nbytes_used sb img1 - 4108)
      (root_dir_block sb (init_journal sb img))
      (add_dirent (read_block (init_journal sb img) (root_dir_block sb (init_journal sb img)))
        (create_slot sb img).toNat
        ((create_inum sb img).getD 0).toNat filename) ∧
    (∀ k, k < 28 →
      record_payload (read_journal sb img1) (journal_nbytes_used sb img1 - 4108)
        ((create_slot sb img).toNat * 32 + 4 + k) = (name_field_spec filename).getD k 0) ∧
    (28 ≤ strlen filename → name_field_spec filename = filename.take 27 ++ [0]) := by
  obtain ⟨v, hv, _, hs0, hlog⟩ := journal_create_ok_inv sb filename clk img img1 h
  obtain ⟨_, hu, himg⟩ := log_transaction_ok_inv sb _ _ _ hlog
  have hs := create_slot_range sb img hs0
  have hn := num_data_records_cases sb
    (stage sb filename clk (init_journal sb img) v.toNat (create_slot sb img).toNat)
  have hrd : ∀ k, k < 65536 → read_journal sb img1 k =
      log_records sb
        (stage sb filename clk (init_journal sb img) v.toNat (create_slot sb img).toNat)
        (read_journal sb (init_journal sb img)) (journal_nbytes_used sb (init_journal sb img))
        k := by
    intro k hk; rw [himg]; exact read_write_journal sb _ _ hk
  have hnb : journal_nbytes_used sb img1 = journal_nbytes_used sb (init_journal sb img)
      + num_data_records sb
        (stage sb filename clk (init_journal sb img) v.toNat (create_slot sb img).toNat) * 4104
      + 4 := by
    unfold journal_nbytes_used
    rw [get_u32_congr (fun k _ _ => hrd k (by omega))]
    exact log_records_nbytes_used sb _ _ _ hu
  have ho : journal_nbytes_used sb img1 - 4108 = journal_nbytes_used sb (init_journal sb img)
      + (num_data_records sb
        (stage sb filename clk (init_journal sb img) v.toNat (create_slot sb img).toNat) - 1)
        * 4104 := by
    omega
  have hd := log_records_dir sb
    (stage sb filename clk (init_journal sb img) v.toNat (create_slot sb img).toNat)
    (read_journal sb (init_journal sb img)) (journal_nbytes_used sb (init_journal sb img)) hu
  rw [stage_root_dir, stage_root_dir_block, ← ho] at hd
  have hd1 := holds_data_congr (fun k h1 h2 => hrd k (by omega)) hd
  have hv1 : ((create_inum sb img).getD 0).toNat = v.toNat := by rw [hv]; rfl
  rw [hv1]
  refine ⟨by omega, hd1, fun k hk => ?_, name_field_spec_long filename⟩
  rw [hd1.2.2 _ (by omega), add_dirent_name _ _ _ _ hk, name_field_eq]

/-! ## Bits of the inode bitmap -/

theorem and_shift_eq_zero_iff (x k : Nat) : x &&& (1 <<< k) = 0 ↔ x.testBit k = false := by
  rw [Nat.one_shiftLeft]
  constructor
  · intro h
    have h1 := Nat.testBit_and x (2 ^ k) k
    rw [h, Nat.zero_testBit, Nat.testBit_two_pow_self, Bool.and_true] at h1
    exact h1.symm
  · intro h
    apply Nat.eq_of_testBit_eq
    intro j
    rw [Nat.testBit_and, Nat.zero_testBit, Nat.testBit_two_pow]
    by_cases hj : k = j
    · subst hj; rw [h]; rfl
    · simp only [hj, decide_False, Bool.and_false]

theorem find_free_inode_loop_full (bitmap : Buffer) :
    ∀ r i, (∀ j, i ≤ j → j < i + r → bit_set bitmap j) →
      find_free_inode_loop bitmap r i = some (-1) := by
  intro r
  induction r with
  | zero => intro i _; rfl
  | succ r ih =>
    intro i h
    have hi := h i (Nat.le_refl _) (by omega)
    unfold bit_set at hi
    simp only [find_free_inode_loop]
    rw [if_neg (by omega), if_neg, ih (i + 1) (fun j h1 h2 => h j (by omega) (by omega))]
    rw [and_shift_eq_zero_iff, hi.2]
    exact Bool.noConfusion

theorem inode_count_cast_le (n : Nat) : (int_of_u32 (u32 n)).toNat ≤ n := by
  unfold int_of_u32 u32
  split_ifs <;> omega

/-- C6. Allocation exhaustion: when no journal block is the inode-bitmap
block or the root-directory block and every bit `0 .. inode_count - 1` of
the inode bitmap is set, `journal_create` returns -1 with the no-free-inodes
message, and the inode-bitmap block and the root-directory block of the
image are the same before and after the call. -/
theorem allocation_exhaustion (sb : Superblock) (filename : List Byte) (clk : Clock)
    (img : Image)
    (hjb : ¬ is_journal_block sb sb.inode_bitmap)
    (hjd : ¬ is_journal_block sb (root_dir_block sb img))
    (hfull : ∀ i, i < sb.inode_count → bit_set (read_block img sb.inode_bitmap) i) :
    ∃ img1, journal_create sb filename clk img = .returned .no_free_inodes img1 ∧
      Status.no_free_inodes.code = -1 ∧
      (∀ k, k < 4096 → read_block img1 sb.inode_bitmap k = read_block img sb.inode_bitmap k) ∧
      (∀ k, k < 4096 →
        read_block img1 (root_dir_block sb img) k = read_block img (root_dir_block sb img) k) := by
  have hf : find_free_inode sb (init_journal sb img) = some (-1) := by
    unfold find_free_inode
    simp only []
    rw [find_free_inode_loop_congr
      (fun k hk => read_block_init_journal sb img (not_journal_block_first sb hjb) hk)]
    apply find_free_inode_loop_full
    intro j _ hj
    exact hfull j (by have := inode_count_cast_le sb.inode_count; omega)
  refine ⟨init_journal sb img,
    journal_create_no_free_inodes sb filename clk img (-1) hf (by decide), rfl,
    fun k hk => read_block_init_journal sb img (not_journal_block_first sb hjb) hk,
    fun k hk => read_block_init_journal sb img (not_journal_block_first sb hjd) hk⟩

/-- The journal buffer after `log_records`, three-record transaction: the
magic is kept and the records lie one after the other from `u` on. -/
theorem log_records_three_spec (sb : Superblock) (st : Staged) (jd : Buffer) (u : Nat)
    (hs : st.inode_block_no = u32 sb.inode_start) (h8 : 8 ≤ u) (hu : u + 12316 ≤ 65536) :
    get_u32 (log_records sb st jd u) 0 = get_u32 jd 0 ∧
    holds_data (log_records sb st jd u) u sb.inode_bitmap st.inode_bitmap ∧
    holds_data (log_records sb st jd u) (u + 4104) sb.inode_start st.root_inode_block ∧
    holds_data (log_records sb st jd u) (u + 8208) st.root_dir_block st.root_dir ∧
    get_u16 (log_records sb st jd u) (u + 12312) = REC_COMMIT := by
  rw [log_records_three sb st jd u hs hu]
  refine ⟨?_, ?_, ?_, ?_, ?_⟩
  · apply get_u32_congr
    intro k h1 h2
    rw [set_u32_other _ _ _ (by omega), put_commit_record_other _ _ (by omega),
      put_data_record_other _ _ _ _ (by omega), put_data_record_other _ _ _ _ (by omega),
      put_data_record_other _ _ _ _ (by omega)]
  · refine holds_data_congr (fun k h1 h2 => ?_) (holds_data_put jd u _ _)
    rw [set_u32_other _ _ _ (by omega), put_commit_record_other _ _ (by omega),
      put_data_record_other _ _ _ _ (by omega), put_data_record_other _ _ _ _ (by omega)]
  · refine holds_data_congr (fun k h1 h2 => ?_)
      (holds_data_put (put_data_record jd u sb.inode_bitmap st.inode_bitmap) (u + 4104) _ _)
    rw [set_u32_other _ _ _ (by omega), put_commit_record_other _ _ (by omega),
      put_data_record_other _ _ _ _ (by omega)]
  · refine holds_data_congr (fun k h1 h2 => ?_)
      (holds_data_put (put_data_record (put_data_record jd u sb.inode_bitmap st.inode_bitmap)
        (u + 4104) sb.inode_start st.root_inode_block) (u + 8208) _ _)
    rw [set_u32_other _ _ _ (by omega), put_commit_record_other _ _ (by omega)]
  · rw [get_u16_set_u32_other _ _ _ (by omega), put_commit_record_tag]

/-- The journal buffer after `log_records`, four-record transaction. -/
theorem log_records_four_spec (sb : Superblock) (st : Staged) (jd : Buffer) (u : Nat)
    (hs : st.inode_block_no ≠ u32 sb.inode_start) (h8 : 8 ≤ u) (hu : u + 16420 ≤ 65536) :
    get_u32 (log_records sb st jd u) 0 = get_u32 jd 0 ∧
    holds_data (log_records sb st jd u) u sb.inode_bitmap st.inode_bitmap ∧
    holds_data (log_records sb st jd u) (u + 4104) sb.inode_start st.root_inode_block ∧
    holds_data (log_records sb st jd u) (u + 8208) st.inode_block_no st.new_inode_block ∧
    holds_data (log_records sb st jd u) (u + 12312) st.root_dir_block st.root_dir ∧
    get_u16 (log_records sb st jd u) (u + 16416) = REC_COMMIT := by
  rw [log_records_four sb st jd u hs hu]
  refine ⟨?_, ?_, ?_, ?_, ?_, ?_⟩
  · apply get_u32_congr
    intro k h1 h2
    rw [set_u32_other _ _ _ (by omega), put_commit_record_other _ _ (by omega),
      put_data_record_other _ _ _ _ (by omega), put_data_record_other _ _ _ _ (by omega),
      put_data_record_other _ _ _ _ (by omega), put_data_record_other _ _ _ _ (by omega)]
  · refine holds_data_congr (fun k h1 h2 => ?_) (holds_data_put jd u _ _)
    rw [set_u32_other _ _ _ (by omega), put_commit_record_other _ _ (by omega),
      put_data_record_other _ _ _ _ (by omega), put_data_record_other _ _ _ _ (by omega),
      put_data_record_other _ _ _ _ (by omega)]
  · refine holds_data_congr (fun k h1 h2 => ?_)
      (holds_data_put (put_data_record jd u sb.inode_bitmap st.inode_bitmap) (u + 4104) _ _)
    rw [set_u32_other _ _ _ (by omega), put_commit_record_other _ _ (by omega),
      put_data_record_other _ _ _ _ (by omega), put_data_record_other _ _ _ _ (by omega)]
  · refine holds_data_congr (fun k h1 h2 => ?_)
      (holds_data_put (put_data_record (put_data_record jd u sb.inode_bitmap st.inode_bitmap)
        (u + 4104) sb.inode_start st.root_inode_block) (u + 8208) _ _)
    rw [set_u32_other _ _ _ (by omega), put_commit_record_other _ _ (by omega),
      put_data_record_other _ _ _ _ (by omega)]
  · refine holds_data_congr (fun k h1 h2 => ?_)
      (holds_data_put (put_data_record (put_data_record (put_data_record jd u sb.inode_bitmap
        st.inode_bitmap) (u + 4104) sb.inode_start st.root_inode_block) (u + 8208)
        st.inode_block_no st.new_inode_block) (u + 12312) _ _)
    rw [set_u32_other _ _ _ (by omega), put_commit_record_other _ _ (by omega)]
  · rw [get_u16_set_u32_other _ _ _ (by omega), put_commit_record_tag]

/-! ## Reading a block after the write of a DATA record -/

theorem read_apply_data_same {jd : Buffer} {o b : Nat} {d : Buffer} (hd : holds_data jd o b d)
    (img : Image) {x k : Nat} (hx : disk_offset x = disk_offset b) (hk : k < 4096) :
    read_block (apply_data jd img o) x k = d k := by
  unfold apply_data
  rw [read_write_same _ _ _ hk, hd.2.2 k hk]
  rw [hd.2.1]
  rw [disk_offset_eq, disk_offset_eq] at hx
  unfold u32
  omega

theorem read_apply_data_other {jd : Buffer} {o b : Nat} {d : Buffer} (hd : holds_data jd o b d)
    (img : Image) {x k : Nat} (hx : disk_offset x ≠ disk_offset b) (hk : k < 4096) :
    read_block (apply_data jd img o) x k = read_block img x k := by
  unfold apply_data
  rw [read_write_other _ _ _ hk]
  rw [hd.2.1]
  rw [disk_offset_eq, disk_offset_eq] at hx
  unfold u32
  omega

/-! ## Install of one freshly logged transaction -/

theorem write_checkpoint_header (sb : Superblock) (jd : Buffer) (img : Image) :
    journal_magic sb (write_journal sb (checkpoint jd) img) = JOURNAL_MAGIC ∧
      journal_nbytes_used sb (write_journal sb (checkpoint jd) img) = 8 := by
  unfold journal_magic journal_nbytes_used
  rw [get_u32_congr (fun k _ _ => read_write_journal sb _ _ (by omega)),
    get_u32_congr (fun k _ _ => read_write_journal sb _ _ (by omega) :
      ∀ k, 4 ≤ k → k < 4 + 4 → read_journal sb (write_journal sb (checkpoint jd) img) k
        = checkpoint jd k)]
  exact ⟨checkpoint_magic _, checkpoint_nbytes_used _⟩

theorem journal_install_three (sb : Superblock) (img : Image)
    (hm : journal_magic sb img = JOURNAL_MAGIC) (hn : journal_nbytes_used sb img = 12324)
    (h1 : get_u16 (read_journal sb img) 8 = REC_DATA)
    (h2 : get_u16 (read_journal sb img) 4112 = REC_DATA)
    (h3 : get_u16 (read_journal sb img) 8216 = REC_DATA)
    (h4 : get_u16 (read_journal sb img) 12320 = REC_COMMIT) :
    journal_install sb img =
      .returned .ok (write_journal sb (checkpoint (read_journal sb img))
        (apply_data (read_journal sb img) (apply_data (read_journal sb img)
          (apply_data (read_journal sb img) img 8) 4112) 8216)) := by
  have ht : tiles (read_journal sb img) [.data, .data, .data, .commit] 8
      (journal_nbytes_used sb img) := by
    rw [hn]
    simp only [tiles, DATA_RECORD_SIZE, COMMIT_RECORD_SIZE, Nat.reduceAdd]
    exact ⟨h1, h2, h3, h4, trivial⟩
  rw [journal_install_tiles sb img _ hm (by omega) (by omega) ht]
  rfl

theorem journal_install_four (sb : Superblock) (img : Image)
    (hm : journal_magic sb img = JOURNAL_MAGIC) (hn : journal_nbytes_used sb img = 16428)
    (h1 : get_u16 (read_journal sb img) 8 = REC_DATA)
    (h2 : get_u16 (read_journal sb img) 4112 = REC_DATA)
    (h3 : get_u16 (read_journal sb img) 8216 = REC_DATA)
    (h4 : get_u16 (read_journal sb img) 12320 = REC_DATA)
    (h5 : get_u16 (read_journal sb img) 16424 = REC_COMMIT) :
    journal_install sb img =
      .returned .ok (write_journal sb (checkpoint (read_journal sb img))
        (apply_data (read_journal sb img) (apply_data (read_journal sb img)
          (apply_data (read_journal sb img) (apply_data (read_journal sb img) img 8) 4112)
          8216) 12320)) := by
  have ht : tiles (read_journal sb img) [.data, .data, .data, .data, .commit] 8
      (journal_nbytes_used sb img) := by
    rw [hn]
    simp only [tiles, DATA_RECORD_SIZE, COMMIT_RECORD_SIZE, Nat.reduceAdd]
    exact ⟨h1, h2, h3, h4, h5, trivial⟩
  rw [journal_install_tiles sb img _ hm (by omega) (by omega) ht]
  rfl

/-! ## Create followed by install -/

theorem find_free_inode_some_range (sb : Superblock) (img : Image) (i : Nat)
    (hi : find_free_inode sb img = some (i : Int)) :
    i < sb.inode_count ∧ i / 8 < 4096 := by
  unfold find_free_inode at hi
  have hc := inode_count_cast_le sb.inode_count
  rcases find_free_inode_loop_range _ _ _ _ hi with h | h
  · omega
  · have h3 := h.2.2.1
    simp only [Int.toNat_ofNat] at h3
    omega

theorem disk_offset_table_ne (b j : Nat) (h1 : 0 < j) (h2 : j < 1048576) :
    disk_offset (b + j) ≠ disk_offset b := by
  rw [disk_offset_eq, disk_offset_eq]; omega

/-- What `journal_create` does on an image with an uninitialised or empty
journal where inode `i` and slot `s` are free, and what `journal_install`
then makes of it: both return 0 and the four metadata blocks hold the staged
buffers. -/
theorem round_trip_blocks (sb : Superblock) (filename : List Byte) (clk : Clock) (img : Image)
    (i s : Nat) (hL : Layout sb img)
    (hj : journal_magic sb img ≠ JOURNAL_MAGIC ∨ journal_nbytes_used sb img = 8)
    (hi : find_free_inode sb img = some (i : Int))
    (hs : find_free_dirent (read_block img (root_dir_block sb img)) = (s : Int)) :
    ∃ img1 img2, journal_create sb filename clk img = .returned .ok img1 ∧
      journal_install sb img1 = .returned .ok img2 ∧
      (∀ k, k < 4096 → read_block img2 sb.inode_bitmap k =
        (stage sb filename clk (init_journal sb img) i s).inode_bitmap k) ∧
      (∀ k, k < 4096 → read_block img2 sb.inode_start k =
        (stage sb filename clk (init_journal sb img) i s).root_inode_block k) ∧
      (∀ k, k < 4096 → read_block img2 (sb.inode_start + i / 32) k =
        (stage sb filename clk (init_journal sb img) i s).new_inode_block k) ∧
      (∀ k, k < 4096 → read_block img2 (root_dir_block sb img) k =
        (stage sb filename clk (init_journal sb img) i s).root_dir k) ∧
      journal_magic sb img2 = JOURNAL_MAGIC ∧ journal_nbytes_used sb img2 = 8 := by
  obtain ⟨hcnt, hi8⟩ := find_free_inode_some_range sb img i hi
  have hjB := hL.bitmap_journal
  have hjR : ¬ is_journal_block sb sb.inode_start := by
    have := hL.table_journal 0 (by omega); rwa [Nat.add_zero] at this
  have hjN := hL.table_journal (i / 32) (by omega)
  have hjD := hL.dir_journal
  have hRB : disk_offset sb.inode_start ≠ disk_offset sb.inode_bitmap := by
    have := hL.table_bitmap 0 (by omega); rwa [Nat.add_zero] at this
  have hNB := hL.table_bitmap (i / 32) (by omega)
  have hDB := hL.dir_bitmap
  have hRD : disk_offset sb.inode_start ≠ disk_offset (root_dir_block sb img) := by
    have := hL.table_dir 0 (by omega); rwa [Nat.add_zero] at this
  have hND := hL.table_dir (i / 32) (by omega)
  -- the allocators see the same blocks after `init_journal`
  have hfi0 : find_free_inode sb (init_journal sb img) = some (i : Int) := by
    unfold find_free_inode at hi ⊢
    simp only [] at hi ⊢
    rw [find_free_inode_loop_congr
      (fun k hk => read_block_init_journal sb img (not_journal_block_first sb hjB) hk)]
    exact hi
  have hD0 := root_dir_block_init_journal sb img
  have hfd0 : find_free_dirent (read_block (init_journal sb img)
      (root_dir_block sb (init_journal sb img))) = (s : Int) := by
    rw [hD0, find_free_dirent_congr
      (fun k hk => read_block_init_journal sb img (not_journal_block_first sb hjD) hk)]
    exact hs
  have hcreate := journal_create_log sb filename clk img i hfi0 (by omega)
    (by rw [hfd0]; omega)
  rw [hfd0] at hcreate
  simp only [Int.toNat_ofNat] at hcreate
  -- the journal after `init_journal` is empty
  have hm0 := (init_journal_header sb img).1
  have hu0 : journal_nbytes_used sb (init_journal sb img) = 8 := by
    by_cases hm : journal_magic sb img = JOURNAL_MAGIC
    · rw [init_journal_of_magic sb img hm]
      rcases hj with h | h
      · exact absurd hm h
      · exact h
    · exact (init_journal_header sb img).2 hm
  have hn := num_data_records_cases sb (stage sb filename clk (init_journal sb img) i s)
  have hok := log_transaction_ok sb (stage sb filename clk (init_journal sb img) i s)
    (init_journal sb img) hm0 (by omega)
  rw [hu0] at hok
  rw [hok] at hcreate
  have hrd : ∀ k, k < 65536 →
      read_journal sb (write_journal sb (log_records sb
        (stage sb filename clk (init_journal sb img) i s)
        (read_journal sb (init_journal sb img)) 8) (init_journal sb img)) k
      = log_records sb (stage sb filename clk (init_journal sb img) i s)
        (read_journal sb (init_journal sb img)) 8 k :=
    fun k hk => read_write_journal sb _ _ hk
  have hnb := log_records_nbytes_used sb (stage sb filename clk (init_journal sb img) i s)
    (read_journal sb (init_journal sb img)) 8 (by omega)
  have hbn := stage_inode_block_no sb filename clk (init_journal sb img) i s
  have hdb := stage_root_dir_block sb filename clk (init_journal sb img) i s
  rw [hD0] at hdb
  by_cases hsame : (stage sb filename clk (init_journal sb img) i s).inode_block_no
      = u32 sb.inode_start
  · -- three records: the new inode lies in the root inode's block
    obtain ⟨hJm, hd1, hd2, hd3, hc⟩ := log_records_three_spec sb _
      (read_journal sb (init_journal sb img)) 8 hsame (by omega) (by omega)
    have hN3 : num_data_records sb (stage sb filename clk (init_journal sb img) i s) = 3 := by
      unfold num_data_records; rw [if_pos hsame]
    have hi32 : i / 32 = 0 := by
      rw [hbn] at hsame; unfold u32 at hsame; omega
    rw [hN3] at hnb
    rw [hdb] at hd3
    have hd1r := holds_data_congr (fun k _ _ => hrd k (by omega)) hd1
    have hd2r := holds_data_congr (fun k _ _ => hrd k (by omega)) hd2
    have hd3r := holds_data_congr (fun k _ _ => hrd k (by omega)) hd3
    have hinst := journal_install_three sb _
      (by unfold journal_magic
          rw [get_u32_congr (fun k _ _ => hrd k (by omega)), hJm]; exact hm0)
      (by unfold journal_nbytes_used
          rw [get_u32_congr (fun k _ _ => hrd k (by omega)), hnb])
      hd1r.1 hd2r.1 hd3r.1
      (by rw [get_u16_congr (fun k _ _ => hrd k (by omega))]; exact hc)
    refine ⟨_, _, hcreate, hinst, fun k hk => ?_, fun k hk => ?_, fun k hk => ?_,
      fun k hk => ?_, (write_checkpoint_header sb _ _).1, (write_checkpoint_header sb _ _).2⟩
    · rw [read_block_write_journal sb _ _ hjB hk,
        read_apply_data_other hd3r _ (Ne.symm hDB) hk,
        read_apply_data_other hd2r _ (Ne.symm hRB) hk,
        read_apply_data_same hd1r _ rfl hk]
    · rw [read_block_write_journal sb _ _ hjR hk,
        read_apply_data_other hd3r _ hRD hk,
        read_apply_data_same hd2r _ rfl hk]
    · rw [hi32, Nat.add_zero, read_block_write_journal sb _ _ hjR hk,
        read_apply_data_other hd3r _ hRD hk,
        read_apply_data_same hd2r _ rfl hk]
      unfold stage
      simp only []
      rw [hbn] at hsame
      rw [if_pos hsame]
    · rw [read_block_write_journal sb _ _ hjD hk,
        read_apply_data_same hd3r _ rfl hk]
  · -- four records: the new inode lies in a block of its own
    obtain ⟨hJm, hd1, hd2, hd3, hd4, hc⟩ := log_records_four_spec sb _
      (read_journal sb (init_journal sb img)) 8 hsame (by omega) (by omega)
    have hN4 : num_data_records sb (stage sb filename clk (init_journal sb img) i s) = 4 := by
      unfold num_data_records; rw [if_neg hsame]
    have hi32 : 0 < i / 32 := by
      rw [hbn] at hsame
      have e : i * 128 / 4096 = i / 32 := by omega
      rw [e] at hsame
      by_contra hc0
      have : i / 32 = 0 := by omega
      rw [this, Nat.add_zero] at hsame
      exact hsame rfl
    have hNR : disk_offset (sb.inode_start + i / 32) ≠ disk_offset sb.inode_start :=
      disk_offset_table_ne _ _ hi32 (by omega)
    have hbn2 : disk_offset (stage sb filename clk (init_journal sb img) i s).inode_block_no
        = disk_offset (sb.inode_start + i / 32) := by
      rw [hbn, disk_offset_u32]
      exact congrArg disk_offset (by omega)
    rw [hN4] at hnb
    rw [hdb] at hd4
    have hd1r := holds_data_congr (fun k _ _ => hrd k (by omega)) hd1
    have hd2r := holds_data_congr (fun k _ _ => hrd k (by omega)) hd2
    have hd3r := holds_data_congr (fun k _ _ => hrd k (by omega)) hd3
    have hd4r := holds_data_congr (fun k _ _ => hrd k (by omega)) hd4
    have hinst := journal_install_four sb _
      (by unfold journal_magic
          rw [get_u32_congr (fun k _ _ => hrd k (by omega)), hJm]; exact hm0)
      (by unfold journal_nbytes_used
          rw [get_u32_congr (fun k _ _ => hrd k (by omega)), hnb])
      hd1r.1 hd2r.1 hd3r.1 hd4r.1
      (by rw [get_u16_congr (fun k _ _ => hrd k (by omega))]; exact hc)
    refine ⟨_, _, hcreate, hinst, fun k hk => ?_, fun k hk => ?_, fun k hk => ?_,
      fun k hk => ?_, (write_checkpoint_header sb _ _).1, (write_checkpoint_header sb _ _).2⟩
    · rw [read_block_write_journal sb _ _ hjB hk,
        read_apply_data_other hd4r _ (Ne.symm hDB) hk,
        read_apply_data_other hd3r _ (by rw [hbn2]; exact Ne.symm hNB) hk,
        read_apply_data_other hd2r _ (Ne.symm hRB) hk,
        read_apply_data_same hd1r _ rfl hk]
    · rw [read_block_write_journal sb _ _ hjR hk,
        read_apply_data_other hd4r _ hRD hk,
        read_apply_data_other hd3r _ (by rw [hbn2]; exact Ne.symm hNR) hk,
        read_apply_data_same hd2r _ rfl hk]
    · rw [read_block_write_journal sb _ _ hjN hk,
        read_apply_data_other hd4r _ hND hk,
        read_apply_data_same hd3r _ hbn2.symm hk]
    · rw [read_block_write_journal sb _ _ hjD hk,
        read_apply_data_same hd4r _ rfl hk]

/-! ## Fields of the staged buffers -/

theorem clear_direct_other (b : Buffer) (o : Nat) :
    ∀ n k, k < o + 8 ∨ o + 8 + 4 * n ≤ k → clear_direct b o n k = b k := by
  intro n
  induction n with
  | zero => intro k _; rfl
  | succ n ih =>
    intro k hk
    simp only [clear_direct]
    rw [set_u32_other _ _ _ (by omega), ih k (by omega)]

theorem update_root_inode_other (b : Buffer) (s : Nat) (clk : Clock) {k : Nat}
    (hk : k < 4 ∨ (8 ≤ k ∧ k < 44) ∨ 48 ≤ k) : update_root_inode b s clk k = b k := by
  unfold update_root_inode
  rw [set_u32_other _ _ _ (by omega), set_u32_other _ _ _ (by omega)]

theorem update_root_inode_size (b : Buffer) (s : Nat) (clk : Clock) :
    get_u32 (update_root_inode b s clk) 4 = u32 ((s + 1) * 32) := by
  unfold update_root_inode
  simp only []
  rw [get_u32_set_u32_other _ _ _ (by omega), get_u32_set_u32_same]

theorem stage_root_inode_block (sb : Superblock) (filename : List Byte) (clk : Clock)
    (img : Image) (i s : Nat) :
    (stage sb filename clk img i s).root_inode_block =
      if u32 (sb.inode_start + i * 128 / 4096) = u32 sb.inode_start then
        update_root_inode (init_inode (read_block img sb.inode_start) (i * 128 % 4096) clk) s clk
      else update_root_inode (read_block img sb.inode_start) s clk := by
  unfold stage
  simp only []
  split_ifs <;> rfl

theorem find_free_dirent_some_range (dir_block : Buffer) (s : Nat)
    (hs : find_free_dirent dir_block = (s : Int)) : s < 128 := by
  rcases find_free_dirent_range dir_block with h | h
  · omega
  · omega

theorem fresh_image_superblock : read_superblock fresh_image = some sb0 := rfl

theorem fresh_image_layout : Layout sb0 fresh_image := by
  constructor <;> (try unfold is_journal_block) <;> decide

/-- C2, witness: on `nearly_full_image` (61588 bytes used) the capacity check
rejects a three-record transaction. -/
theorem journal_full_atomic_witness :
    journal_create sb0 foo_txt clock0 nearly_full_image
      = .returned .journal_full nearly_full_image ∧
    (nearly_full_image = nearly_full_image ∧
      (∀ k, read_journal sb0 nearly_full_image k = read_journal sb0 nearly_full_image k) ∧
      journal_nbytes_used sb0 nearly_full_image = journal_nbytes_used sb0 nearly_full_image) :=
  ⟨rfl, journal_full_atomic sb0 foo_txt clock0 nearly_full_image nearly_full_image rfl⟩

/-- C3, the code at the failing input: with `nbytes_used = 0xFFFFFFFF` the
sum `offset + needed` wraps to 12315, the capacity check does not reject, and
the records would be stored outside the journal buffer. -/
theorem capacity_check_wraps :
    journal_magic sb0 wrapped_image = JOURNAL_MAGIC ∧
    journal_nbytes_used sb0 wrapped_image = 4294967295 ∧
    65536 < journal_nbytes_used sb0 wrapped_image + (3 * 4104 + 4) ∧
    u32 (journal_nbytes_used sb0 wrapped_image + (3 * 4104 + 4)) = 12315 ∧
    journal_create sb0 foo_txt clock0 wrapped_image = .undefined ∧
    (journal_create sb0 foo_txt clock0 wrapped_image).status ≠ some .journal_full :=
  ⟨by decide, by decide, by decide, by decide, rfl, by decide⟩

theorem staged_image_tiles :
    tiles (read_journal sb0 staged_image) [.data, .commit] 8
      (journal_nbytes_used sb0 staged_image) := by
  simp only [tiles]; decide

theorem staged_image_targets :
    ∀ r ∈ data_offsets [.data, .commit] 8,
      ¬ is_journal_block sb0 (record_target (read_journal sb0 staged_image) r) := by
  intro r hr
  simp only [data_offsets, List.mem_singleton] at hr
  subst hr
  unfold is_journal_block
  decide

/-- C4, witness: `staged_image` holds one DATA record for block 30 and its
COMMIT; the install is interrupted after that one record (`K = 1`). -/
theorem resumable_replay_witness :
    journal_install sb0
        (apply_records (read_journal sb0 staged_image)
          ((data_offsets [.data, .commit] 8).take 1) staged_image)
      = journal_install sb0 staged_image ∧
    (journal_install sb0 staged_image).code = some 0 :=
  resumable_replay sb0 staged_image [.data, .commit] 1 (by decide) (by decide)
    staged_image_tiles staged_image_targets (by decide)

theorem exhausted_image_create :
    journal_create sb0 foo_txt clock0 exhausted_image
      = .returned .no_free_inodes (init_journal sb0 exhausted_image) :=
  journal_create_no_free_inodes sb0 foo_txt clock0 exhausted_image (-1) (by decide) (by decide)

/-- C5, witness: all 64 inodes of `exhausted_image` are in use. -/
theorem create_failure_image_witness :
    init_journal sb0 exhausted_image = init_journal sb0 exhausted_image ∧
    (journal_magic sb0 exhausted_image = JOURNAL_MAGIC →
      init_journal sb0 exhausted_image = exhausted_image) ∧
    (journal_magic sb0 exhausted_image ≠ JOURNAL_MAGIC →
      journal_magic sb0 (init_journal sb0 exhausted_image) = JOURNAL_MAGIC ∧
      journal_nbytes_used sb0 (init_journal sb0 exhausted_image) = 8 ∧
      ∀ a, ¬ (disk_offset sb0.journal_blocks ≤ a ∧ a < disk_offset sb0.journal_blocks + 8) →
        init_journal sb0 exhausted_image a = exhausted_image a) :=
  create_failure_image sb0 foo_txt clock0 exhausted_image _ .no_free_inodes
    exhausted_image_create (Or.inl rfl)

/-- C5, counterexample to the claim as stated: `journal_create` fails on
`exhausted_image` for want of a free inode, and the first byte of the journal
header, 0 before the call, is `0x4C` after it. -/
theorem create_failure_image_counterexample :
    ∃ img1, journal_create sb0 foo_txt clock0 exhausted_image
        = .returned .no_free_inodes img1 ∧
      exhausted_image 4096 = 0 ∧ img1 4096 = 0x4C ∧ img1 ≠ exhausted_image := by
  refine ⟨_, exhausted_image_create, by decide, by decide, fun h => ?_⟩
  have h1 := congrFun h 4096
  revert h1
  decide

/-- C6, witness: `exhausted_image`, whose bitmap has the bits 0..63 set. -/
theorem allocation_exhaustion_witness :
    ∃ img1, journal_create sb0 foo_txt clock0 exhausted_image
        = .returned .no_free_inodes img1 ∧
      Status.no_free_inodes.code = -1 ∧
      (∀ k, k < 4096 → read_block img1 sb0.inode_bitmap k
        = read_block exhausted_image sb0.inode_bitmap k) ∧
      (∀ k, k < 4096 → read_block img1 (root_dir_block sb0 exhausted_image) k
        = read_block exhausted_image (root_dir_block sb0 exhausted_image) k) :=
  allocation_exhaustion sb0 foo_txt clock0 exhausted_image
    (by unfold is_journal_block; decide) (by unfold is_journal_block; decide)
    (by unfold bit_set; decide)

/-- C8, witness: the thirty-letter name on the fresh image; slot 2 is the
free one, and the field holds twenty-seven letters and a NUL. -/
theorem name_truncation_witness :
    ∃ img1, journal_create sb0 long_name clock0 fresh_image = .returned .ok img1 ∧
      (4108 ≤ journal_nbytes_used sb0 img1 ∧
      holds_data (read_journal sb0 img1) (journal_nbytes_used sb0 img1 - 4108)
        (root_dir_block sb0 (init_journal sb0 fresh_image))
        (add_dirent (read_block (init_journal sb0 fresh_image)
            (root_dir_block sb0 (init_journal sb0 fresh_image)))
          (create_slot sb0 fresh_image).toNat
          ((create_inum sb0 fresh_image).getD 0).toNat long_name) ∧
      (∀ k, k < 28 →
        record_payload (read_journal sb0 img1) (journal_nbytes_used sb0 img1 - 4108)
          ((create_slot sb0 fresh_image).toNat * 32 + 4 + k)
            = (name_field_spec long_name).getD k 0) ∧
      (28 ≤ strlen long_name → name_field_spec long_name = long_name.take 27 ++ [0])) ∧
      create_slot sb0 fresh_image = 2 ∧ 28 ≤ strlen long_name ∧
      name_field_spec long_name = List.replicate 27 97 ++ [0] := by
  obtain ⟨img1, _, h1, _⟩ :=
    round_trip_blocks sb0 long_name clock0 fresh_image 1 2 fresh_image_layout
      (Or.inl (by decide)) (by decide) (by decide)
  exact ⟨img1, h1, name_truncation sb0 long_name clock0 fresh_image img1 h1, by decide,
    by decide, by decide⟩

theorem damaged_image_tiles : tiles (read_journal sb0 damaged_image) [.data] 8 4112 := by
  simp only [tiles]; decide

/-- C9, witness: `damaged_image` holds one DATA record for block 30 and then,
at offset 4112 of 4120 bytes used, a record of type 9. -/
theorem install_unknown_record_witness :
    journal_install sb0 damaged_image =
      .returned .unknown_record
        (apply_records (read_journal sb0 damaged_image) (data_offsets [.data] 8)
          damaged_image) ∧
    Status.unknown_record.code = -1 ∧
    ((∀ r ∈ data_offsets [.data] 8,
        disk_offset (record_target (read_journal sb0 damaged_image) r)
          ≠ disk_offset sb0.journal_blocks) →
      journal_magic sb0 (apply_records (read_journal sb0 damaged_image)
          (data_offsets [.data] 8) damaged_image) = journal_magic sb0 damaged_image ∧
      journal_nbytes_used sb0 (apply_records (read_journal sb0 damaged_image)
          (data_offsets [.data] 8) damaged_image) = journal_nbytes_used sb0 damaged_image) ∧
    apply_records (read_journal sb0 damaged_image) (data_offsets [.data] 8) damaged_image
        (30 * 4096) = 7 ∧
    damaged_image (30 * 4096) = 0 :=
  ⟨(install_unknown_record sb0 damaged_image [.data] 4112 (by decide) damaged_image_tiles
      (by decide) (by decide) (by decide) (by decide)).1,
    (install_unknown_record sb0 damaged_image [.data] 4112 (by decide) damaged_image_tiles
      (by decide) (by decide) (by decide) (by decide)).2.1,
    (install_unknown_record sb0 damaged_image [.data] 4112 (by decide) damaged_image_tiles
      (by decide) (by decide) (by decide) (by decide)).2.2,
    by decide, by decide⟩

theorem self_target_image_tiles :
    tiles (read_journal sb0 self_target_image) [.data] 8 4112 := by
  simp only [tiles]; decide

/-- C9, counterexample to the claim as stated: in `self_target_image` the
DATA record before the record of unknown type targets the first journal
block; `journal_install` fails on the unknown type, and the header on the
image, `nbytes_used = 4120` before the call, reads `nbytes_used = 8` with a
valid magic after it. -/
theorem install_unknown_record_counterexample :
    journal_magic sb0 self_target_image = JOURNAL_MAGIC ∧
    journal_nbytes_used sb0 self_target_image = 4120 ∧
    get_u16 (read_journal sb0 self_target_image) 4112 = 9 ∧
    ∃ img1, journal_install sb0 self_target_image = .returned .unknown_record img1 ∧
      journal_magic sb0 img1 = JOURNAL_MAGIC ∧ journal_nbytes_used sb0 img1 = 8 := by
  refine ⟨by decide, by decide, by decide, _,
    journal_install_unknown sb0 self_target_image [.data] 4112 (by decide)
      self_target_image_tiles (by decide) (by decide) (by decide) (by decide), ?_, ?_⟩
  · decide
  · decide

theorem staged_image_install :
    journal_install sb0 staged_image =
      .returned .ok (write_journal sb0 (checkpoint (read_journal sb0 staged_image))
        (apply_records (read_journal sb0 staged_image) (data_offsets [.data, .commit] 8)
          staged_image)) :=
  journal_install_tiles sb0 staged_image [.data, .commit] (by decide) (by decide) (by decide)
    staged_image_tiles

/-- C10, witness: the install of `staged_image`, whose journal holds 4116 bytes. -/
theorem install_checkpoint_witness :
    Status.ok.code = 0 ∧ journal_nbytes_used sb0 staged_image = 4116 ∧
    (journal_magic sb0 (write_journal sb0 (checkpoint (read_journal sb0 staged_image))
        (apply_records (read_journal sb0 staged_image) (data_offsets [.data, .commit] 8)
          staged_image)) = JOURNAL_MAGIC ∧
      journal_nbytes_used sb0 (write_journal sb0 (checkpoint (read_journal sb0 staged_image))
        (apply_records (read_journal sb0 staged_image) (data_offsets [.data, .commit] 8)
          staged_image)) = 8 ∧
      (journal_nbytes_used sb0 staged_image ≠ 8 →
        ∀ k, 8 ≤ k → k < 65536 →
          read_journal sb0 (write_journal sb0 (checkpoint (read_journal sb0 staged_image))
            (apply_records (read_journal sb0 staged_image) (data_offsets [.data, .commit] 8)
              staged_image)) k = 0)) :=
  ⟨rfl, by decide, install_checkpoint sb0 staged_image _ .ok staged_image_install rfl⟩

/-- `journal_install` always comes to an end within the fuel of the model. -/
theorem journal_install_fuel (sb : Superblock) (img : Image) :
    journal_install sb img ≠ .out_of_fuel := by
  unfold journal_install
  simp only []
  split_ifs
  · exact fun h => Run.noConfusion h
  · exact fun h => Run.noConfusion h
  · have hf := replay_fuel_enough (read_journal sb img) (get_u32 (read_journal sb img) 4) img
    split
    · exact fun h => Run.noConfusion h
    · exact fun h => Run.noConfusion h
    · exact fun h => Run.noConfusion h
    · next h => exact absurd h hf

/-! ## The capacity check away from the wrap-around -/

theorem log_transaction_full (sb : Superblock) (st : Staged) (img : Image)
    (hm : journal_magic sb img = JOURNAL_MAGIC)
    (hu : 65536 < journal_nbytes_used sb img + num_data_records sb st * 4104 + 4)
    (hw : journal_nbytes_used sb img + num_data_records sb st * 4104 + 4 < 4294967296) :
    log_transaction sb st img = .returned .journal_full img := by
  unfold journal_magic at hm
  unfold journal_nbytes_used at hu hw
  unfold log_transaction
  simp only [DATA_RECORD_SIZE, COMMIT_RECORD_SIZE, JOURNAL_SIZE]
  have e1 : u32 (num_data_records sb st * 4104 + 4) = num_data_records sb st * 4104 + 4 :=
    u32_of_lt (by omega)
  have e2 : u32 (get_u32 (read_journal sb img) 4 + (num_data_records sb st * 4104 + 4))
      = get_u32 (read_journal sb img) 4 + (num_data_records sb st * 4104 + 4) :=
    u32_of_lt (by omega)
  simp only [e1, e2]
  rw [if_neg (not_not.mpr hm), if_pos (by omega)]

/-- With a valid magic, a free inode and a free slot, and a stored
`nbytes_used = u` for which `u + n * 4104 + 4` stays below `2^32`,
`journal_create` fails with the journal-full message exactly when that sum
exceeds 65536, and succeeds otherwise. -/
theorem journal_create_capacity (sb : Superblock) (filename : List Byte) (clk : Clock)
    (img : Image) (v : Int) (hm : journal_magic sb img = JOURNAL_MAGIC)
    (hv : find_free_inode sb img = some v) (hv0 : 0 ≤ v)
    (hs : 0 ≤ find_free_dirent (read_block img (root_dir_block sb img)))
    (hw : journal_nbytes_used sb img + 16420 < 4294967296) :
    (65536 < journal_nbytes_used sb img
        + num_data_records sb (stage sb filename clk img v.toNat
            (find_free_dirent (read_block img (root_dir_block sb img))).toNat) * 4104 + 4 →
      journal_create sb filename clk img = .returned .journal_full img) ∧
    (journal_nbytes_used sb img
        + num_data_records sb (stage sb filename clk img v.toNat
            (find_free_dirent (read_block img (root_dir_block sb img))).toNat) * 4104 + 4
        ≤ 65536 →
      (journal_create sb filename clk img).status = some .ok) := by
  have h0 := init_journal_of_magic sb img hm
  have hn := num_data_records_cases sb (stage sb filename clk img v.toNat
    (find_free_dirent (read_block img (root_dir_block sb img))).toNat)
  have hc := journal_create_log sb filename clk img v (by rw [h0]; exact hv) (by omega)
    (by rw [h0]; omega)
  rw [h0] at hc
  refine ⟨fun h => ?_, fun h => ?_⟩
  · rw [hc]
    exact log_transaction_full sb _ img hm h (by omega)
  · rw [hc, log_transaction_ok sb _ img hm h]
    rfl

/-! ## First fit -/

/-- What the bitmap scan returns while it stays inside the block. -/
theorem find_free_inode_loop_spec (bitmap : Buffer) :
    ∀ r i, i + r ≤ 32768 →
      (find_free_inode_loop bitmap r i = some (-1) ∧
        ∀ j, i ≤ j → j < i + r → bit_set bitmap j) ∨
      (∃ v : Nat, find_free_inode_loop bitmap r i = some (v : Int) ∧ i ≤ v ∧ v < i + r ∧
        ¬ bit_set bitmap v ∧ ∀ j, i ≤ j → j < v → bit_set bitmap j) := by
  intro r
  induction r with
  | zero =>
    intro i _
    left
    exact ⟨rfl, fun j h1 h2 => by omega⟩
  | succ r ih =>
    intro i hi
    simp only [find_free_inode_loop]
    rw [if_neg (by omega)]
    by_cases hz : (bitmap (i / 8)).val &&& (1 <<< (i % 8)) = 0
    · rw [if_pos hz]
      right
      refine ⟨i, rfl, Nat.le_refl _, by omega, ?_, fun j h1 h2 => by omega⟩
      intro hb
      rw [and_shift_eq_zero_iff] at hz
      rw [hb.2] at hz
      exact Bool.noConfusion hz
    · rw [if_neg hz]
      have hset : bit_set bitmap i := by
        refine ⟨by omega, ?_⟩
        rw [and_shift_eq_zero_iff] at hz
        simpa using hz
      rcases ih (i + 1) (by omega) with h | ⟨v, h1, h2, h3, h4, h5⟩
      · left
        refine ⟨h.1, fun j h1 h2 => ?_⟩
        by_cases hj : j = i
        · rw [hj]; exact hset
        · exact h.2 j (by omega) (by omega)
      · right
        refine ⟨v, h1, by omega, by omega, h4, fun j h6 h7 => ?_⟩
        by_cases hj : j = i
        · rw [hj]; exact hset
        · exact h5 j (by omega) h7

theorem inode_count_cast (n : Nat) (h : n ≤ 32768) : (int_of_u32 (u32 n)).toNat = n := by
  unfold int_of_u32 u32
  split_ifs <;> omega

theorem find_free_inode_spec (sb : Superblock) (img : Image) (h : sb.inode_count ≤ 32768) :
    (find_free_inode sb img = some (-1) ∧
      ∀ i, i < sb.inode_count → bit_set (read_block img sb.inode_bitmap) i) ∨
    (∃ v : Nat, find_free_inode sb img = some (v : Int) ∧ v < sb.inode_count ∧
      ¬ bit_set (read_block img sb.inode_bitmap) v ∧
      ∀ j, j < v → bit_set (read_block img sb.inode_bitmap) j) := by
  unfold find_free_inode
  simp only []
  rw [inode_count_cast _ h]
  rcases find_free_inode_loop_spec (read_block img sb.inode_bitmap) sb.inode_count 0 (by omega)
    with h1 | ⟨v, h1, h2, h3, h4, h5⟩
  · left
    exact ⟨h1.1, fun i hi => h1.2 i (by omega) (by omega)⟩
  · right
    exact ⟨v, h1, by omega, h4, fun j hj => h5 j (by omega) hj⟩

/-- C13. BitmapAllocator first-fit: for `inode_count ≤ 32768`,
`find_free_inode` returns the least index below `inode_count` whose bit (bit
`i mod 8`, least significant first, of byte `i / 8`) is clear; it returns -1
if and only if every bit `0 .. inode_count - 1` is set; and a bitmap with the
same bits below `inode_count` gives the same result. -/
theorem find_free_inode_first_fit (sb : Superblock) (img : Image)
    (h : sb.inode_count ≤ 32768) :
    ((find_free_inode sb img = some (-1) ∧
        ∀ i, i < sb.inode_count → bit_set (read_block img sb.inode_bitmap) i) ∨
      (∃ v : Nat, find_free_inode sb img = some (v : Int) ∧ v < sb.inode_count ∧
        ¬ bit_set (read_block img sb.inode_bitmap) v ∧
        ∀ j, j < v → bit_set (read_block img sb.inode_bitmap) j)) ∧
    (find_free_inode sb img = some (-1) ↔
      ∀ i, i < sb.inode_count → bit_set (read_block img sb.inode_bitmap) i) ∧
    (∀ img2 : Image,
      (∀ i, i < sb.inode_count →
        (bit_set (read_block img2 sb.inode_bitmap) i ↔
          bit_set (read_block img sb.inode_bitmap) i)) →
      find_free_inode sb img2 = find_free_inode sb img) := by
  have hspec := find_free_inode_spec sb img h
  refine ⟨hspec, ?_, fun img2 hb => ?_⟩
  · constructor
    · intro hm
      rcases hspec with h1 | ⟨v, h1, _, _, _⟩
      · exact h1.2
      · rw [hm] at h1
        simp only [Option.some.injEq] at h1
        omega
    · intro hall
      rcases hspec with h1 | ⟨v, _, h2, h3, _⟩
      · exact h1.1
      · exact absurd (hall v h2) h3
  · rcases hspec with h1 | ⟨v, h1, h2, h3, h4⟩
    · rcases find_free_inode_spec sb img2 h with g1 | ⟨w, _, g2, g3, _⟩
      · rw [h1.1, g1.1]
      · exact absurd ((hb w g2).mpr (h1.2 w g2)) g3
    · rcases find_free_inode_spec sb img2 h with g1 | ⟨w, g1, g2, g3, g4⟩
      · exact absurd ((hb v h2).mp (g1.2 v h2)) h3
      · have hvw : v = w := by
          by_contra hne
          rcases Nat.lt_or_gt_of_ne hne with hlt | hgt
          · exact h3 ((hb v h2).mp (g4 v hlt))
          · exact g3 ((hb w g2).mpr (h4 w hgt))
        rw [h1, g1, hvw]

/-- What the directory scan returns. -/
theorem find_free_dirent_loop_spec (dir_block : Buffer) :
    ∀ r i,
      (find_free_dirent_loop dir_block r i = -1 ∧
        ∀ t, i ≤ t → t < i + r → ¬ slot_free dir_block t) ∨
      (∃ v : Nat, find_free_dirent_loop dir_block r i = (v : Int) ∧ i ≤ v ∧ v < i + r ∧
        slot_free dir_block v ∧ ∀ t, i ≤ t → t < v → ¬ slot_free dir_block t) := by
  intro r
  induction r with
  | zero =>
    intro i
    left
    exact ⟨rfl, fun t h1 h2 => by omega⟩
  | succ r ih =>
    intro i
    simp only [find_free_dirent_loop]
    by_cases hf : get_u32 dir_block (i * 32) = 0 ∧ (dir_block (i * 32 + 4)).val = 0
    · rw [if_pos hf]
      right
      exact ⟨i, rfl, Nat.le_refl _, by omega, hf, fun t h1 h2 => by omega⟩
    · rw [if_neg hf]
      rcases ih (i + 1) with h | ⟨v, h1, h2, h3, h4, h5⟩
      · left
        refine ⟨h.1, fun t h1 h2 => ?_⟩
        by_cases ht : t = i
        · rw [ht]; exact hf
        · exact h.2 t (by omega) (by omega)
      · right
        refine ⟨v, h1, by omega, by omega, h4, fun t h6 h7 => ?_⟩
        by_cases ht : t = i
        · rw [ht]; exact hf
        · exact h5 t (by omega) h7

theorem find_free_dirent_spec (dir_block : Buffer) :
    (find_free_dirent dir_block = -1 ∧ ∀ t, t < 128 → ¬ slot_free dir_block t) ∨
    (∃ v : Nat, find_free_dirent dir_block = (v : Int) ∧ v < 128 ∧ slot_free dir_block v ∧
      ∀ t, t < v → ¬ slot_free dir_block t) := by
  unfold find_free_dirent
  rcases find_free_dirent_loop_spec dir_block 128 0 with h | ⟨v, h1, h2, h3, h4, h5⟩
  · left
    exact ⟨h.1, fun t ht => h.2 t (by omega) (by omega)⟩
  · right
    exact ⟨v, h1, by omega, h4, fun t ht => h5 t (by omega) ht⟩

/-- C14. DirectoryAllocator first-fit: on every directory block
`find_free_dirent` returns the least slot among the 128 slots of 32 bytes
whose entry has inode index 0 and first name byte 0, and it returns -1 if and
only if there is no such slot. -/
theorem find_free_dirent_first_fit (dir_block : Buffer) :
    ((find_free_dirent dir_block = -1 ∧ ∀ t, t < 128 → ¬ slot_free dir_block t) ∨
      (∃ v : Nat, find_free_dirent dir_block = (v : Int) ∧ v < 128 ∧ slot_free dir_block v ∧
        ∀ t, t < v → ¬ slot_free dir_block t)) ∧
    (find_free_dirent dir_block = -1 ↔ ∀ t, t < 128 → ¬ slot_free dir_block t) := by
  have hspec := find_free_dirent_spec dir_block
  refine ⟨hspec, ?_⟩
  constructor
  · intro hm
    rcases hspec with h1 | ⟨v, h1, _, _, _⟩
    · exact h1.2
    · rw [hm] at h1; omega
  · intro hall
    rcases hspec with h1 | ⟨v, _, h2, h3, _⟩
    · exact h1.1
    · exact absurd h3 (hall v h2)

/-! ## What `journal_create` writes -/

theorem write_journal_frame (sb : Superblock) (jd : Buffer) (img : Image) {a : Nat}
    (h : ¬ in_journal_region sb a) : write_journal sb jd img a = img a := by
  rw [write_journal_apply, if_neg]
  intro hc
  apply h
  refine ⟨journal_index sb a, hc.2, ?_⟩
  rw [disk_offset_u32, disk_offset_eq]
  have h2 := hc.2
  unfold journal_index at h2 ⊢
  omega

theorem init_journal_frame (sb : Superblock) (img : Image) {a : Nat}
    (h : ¬ in_journal_region sb a) : init_journal sb img a = img a := by
  by_cases hm : journal_magic sb img = JOURNAL_MAGIC
  · rw [init_journal_of_magic sb img hm]
  · rw [init_journal_apply sb img hm, if_neg]
    intro hc
    apply h
    refine ⟨0, by omega, ?_⟩
    rw [disk_offset_u32, Nat.add_zero]
    omega

theorem not_in_journal_region_block (sb : Superblock) {b k : Nat}
    (hb : ¬ is_journal_block sb b) (hk : k < 4096) :
    ¬ in_journal_region sb (disk_offset b + k) := by
  intro hc
  apply hb
  obtain ⟨i, hi, h1, h2⟩ := hc
  refine ⟨i, hi, ?_⟩
  rw [disk_offset_eq] at h1 h2 ⊢
  rw [disk_offset_eq] at h1 h2 ⊢
  omega

/-- The image a returning `journal_create` leaves differs from the one it was
given inside the journal region only. -/
theorem journal_create_frame (sb : Superblock) (filename : List Byte) (clk : Clock)
    (img img1 : Image) (st : Status)
    (h : journal_create sb filename clk img = .returned st img1) {a : Nat}
    (ha : ¬ in_journal_region sb a) : img1 a = img a := by
  by_cases hst : st = .ok
  · subst hst
    obtain ⟨v, _, _, _, hlog⟩ := journal_create_ok_inv sb filename clk img img1 h
    obtain ⟨_, _, himg⟩ := log_transaction_ok_inv sb _ _ _ hlog
    rw [himg, write_journal_frame sb _ _ ha, init_journal_frame sb img ha]
  · rw [journal_create_failed_image sb filename clk img img1 st h hst,
      init_journal_frame sb img ha]

/-- C11 (as amended). Create only stages: whatever `journal_create` returns, success or
failure, every byte of the image outside the sixteen journal blocks is as
before the call, so every block that is no journal block is unchanged; the
inode-bitmap block, the inode-table blocks and the root-directory block, when
they are no journal blocks, are such blocks. -/
theorem create_only_stages (sb : Superblock) (filename : List Byte) (clk : Clock)
    (img img1 : Image) (st : Status)
    (h : journal_create sb filename clk img = .returned st img1) :
    (∀ a, ¬ in_journal_region sb a → img1 a = img a) ∧
    (∀ b, ¬ is_journal_block sb b →
      ∀ k, k < 4096 → read_block img1 b k = read_block img b k) ∧
    (¬ is_journal_block sb sb.inode_bitmap →
      ∀ k, k < 4096 → read_block img1 sb.inode_bitmap k = read_block img sb.inode_bitmap k) ∧
    (∀ j, ¬ is_journal_block sb (sb.inode_start + j) →
      ∀ k, k < 4096 →
        read_block img1 (sb.inode_start + j) k = read_block img (sb.inode_start + j) k) ∧
    (¬ is_journal_block sb (root_dir_block sb img) →
      ∀ k, k < 4096 →
        read_block img1 (root_dir_block sb img) k = read_block img (root_dir_block sb img) k) := by
  have key : ∀ b, ¬ is_journal_block sb b →
      ∀ k, k < 4096 → read_block img1 b k = read_block img b k := by
    intro b hb k hk
    unfold read_block
    exact journal_create_frame sb filename clk img img1 st h
      (not_in_journal_region_block sb hb hk)
  exact ⟨fun a ha => journal_create_frame sb filename clk img img1 st h ha, key,
    key _, fun j => key _, key _⟩

/-! ## The cursor loop -/

theorem walk_result_cons_data (jd : Buffer) (img : Image) (o : Nat)
    (r : List (Nat × RecKind) × Stop) :
    walk_result jd img ((o, RecKind.data) :: r.1, r.2) = walk_result jd (apply_data jd img o) r := by
  obtain ⟨rs, s⟩ := r
  cases s <;> rfl

theorem walk_result_cons_commit (jd : Buffer) (img : Image) (o : Nat)
    (r : List (Nat × RecKind) × Stop) :
    walk_result jd img ((o, RecKind.commit) :: r.1, r.2) = walk_result jd img r := by
  obtain ⟨rs, s⟩ := r
  cases s <;> rfl

/-- The loop of `replay` is the cursor loop `walk` with the block writes of
the DATA records it reads. -/
theorem replay_eq_walk (jd : Buffer) (n : Nat) :
    ∀ (fuel o : Nat) (img : Image),
      replay jd n fuel o img = walk_result jd img (walk jd n fuel o) := by
  intro fuel
  induction fuel with
  | zero =>
    intro o img
    simp only [replay, walk]
    split_ifs <;> rfl
  | succ f ih =>
    intro o img
    simp only [replay, walk]
    split_ifs
    · rfl
    · rfl
    · rw [walk_result_cons_data, ← ih]; rfl
    · rw [walk_result_cons_commit, ← ih]
    · rfl
    · rfl

theorem walk_done (jd : Buffer) (n fuel o : Nat) (h : ¬ o < n) :
    walk jd n fuel o = ([], .finished o) := by
  cases fuel with
  | zero => simp only [walk, if_neg h]
  | succ f => simp only [walk, if_neg h]

/-- Over a journal that is a run of whole records up to `nbytes_used` the
cursor reads exactly those records and stops at `nbytes_used`. -/
theorem walk_tiles (jd : Buffer) (n : Nat) (hb : n ≤ 65536) (ks : List RecKind) :
    ∀ (o fuel : Nat), tiles jd ks o n → ks.length ≤ fuel →
      walk jd n fuel o = (records_at ks o, .finished n) := by
  induction ks with
  | nil =>
    intro o fuel h _
    simp only [tiles] at h
    subst h
    rw [walk_done _ _ _ _ (Nat.lt_irrefl _)]
    rfl
  | cons k ks ih =>
    intro o fuel h hf
    have hle := tiles_le jd _ _ _ h
    simp only [List.length_cons] at hle hf
    cases fuel with
    | zero => omega
    | succ f =>
      cases k with
      | data =>
        simp only [tiles, DATA_RECORD_SIZE, REC_DATA] at h
        have hle2 := tiles_le jd _ _ _ h.2
        simp only [walk, JOURNAL_SIZE, DATA_RECORD_SIZE, REC_DATA, records_at]
        rw [if_pos (by omega), if_neg (by omega), if_pos h.1, if_neg (by omega),
          u32_of_lt (by omega), ih _ _ h.2 (by omega)]
      | commit =>
        simp only [tiles, COMMIT_RECORD_SIZE, REC_COMMIT] at h
        simp only [walk, JOURNAL_SIZE, COMMIT_RECORD_SIZE, REC_DATA, REC_COMMIT, records_at]
        rw [if_pos (by omega), if_neg (by omega), if_neg (by omega), if_pos h.1,
          u32_of_lt (by omega), ih _ _ h.2 (by omega)]

theorem records_at_kinds (ks : List RecKind) : ∀ o, (records_at ks o).map Prod.snd = ks := by
  induction ks with
  | nil => intro o; rfl
  | cons k ks ih =>
    intro o
    cases k <;> simp only [records_at, List.map_cons, ih]

theorem read_data_records_at (ks : List RecKind) :
    ∀ o, read_data (records_at ks o) = data_offsets ks o := by
  induction ks with
  | nil => intro o; rfl
  | cons k ks ih =>
    intro o
    cases k <;> simp only [records_at, read_data, data_offsets, ih]

/-- Every record of a run of whole records lies inside the run. -/
theorem records_at_bound (jd : Buffer) (ks : List RecKind) :
    ∀ o e, tiles jd ks o e → ∀ r ∈ records_at ks o,
      o ≤ r.1 ∧ r.1 + 4 ≤ e ∧ (r.2 = RecKind.data → r.1 + 4104 ≤ e) := by
  induction ks with
  | nil => intro o e _ r hr; simp [records_at] at hr
  | cons k ks ih =>
    intro o e h r hr
    cases k with
    | data =>
      simp only [tiles, DATA_RECORD_SIZE] at h
      simp only [records_at, DATA_RECORD_SIZE, List.mem_cons] at hr
      have hle := tiles_le jd _ _ _ h.2
      rcases hr with hr | hr
      · subst hr
        exact ⟨Nat.le_refl _, by omega, fun _ => by omega⟩
      · have := ih _ _ h.2 r hr
        exact ⟨by omega, this.2.1, this.2.2⟩
    | commit =>
      simp only [tiles, COMMIT_RECORD_SIZE] at h
      simp only [records_at, COMMIT_RECORD_SIZE, List.mem_cons] at hr
      have hle := tiles_le jd _ _ _ h.2
      rcases hr with hr | hr
      · subst hr
        exact ⟨Nat.le_refl _, by omega, fun hk => RecKind.noConfusion hk⟩
      · have := ih _ _ h.2 r hr
        exact ⟨by omega, this.2.1, this.2.2⟩

/-- C20. Replay walk is safe and terminates: on an image whose journal is
well-formed (valid magic, `nbytes_used ≤ 65536`, the bytes from 8 to
`nbytes_used` whole DATA and COMMIT records) the cursor loop of
`journal_install` comes to an end within the fuel of the model and with any
larger fuel alike, it reads exactly the records of the stream, each header
and each DATA record lying inside the 65536-byte buffer, it never takes the
unknown-record branch, the cursor ends equal to `nbytes_used`, and
`journal_install` returns 0. -/
theorem replay_walk_safe (sb : Superblock) (img : Image) (ks : List RecKind)
    (hm : journal_magic sb img = JOURNAL_MAGIC)
    (hb : journal_nbytes_used sb img ≤ 65536)
    (ht : tiles (read_journal sb img) ks 8 (journal_nbytes_used sb img)) :
    (∀ fuel, REPLAY_FUEL ≤ fuel →
      walk (read_journal sb img) (journal_nbytes_used sb img) fuel 8
        = (records_at ks 8, .finished (journal_nbytes_used sb img))) ∧
    (∀ fuel, REPLAY_FUEL ≤ fuel → ∀ img0 : Image,
      replay (read_journal sb img) (journal_nbytes_used sb img) fuel 8 img0
        = .finished (apply_records (read_journal sb img) (data_offsets ks 8) img0)) ∧
    (∀ r ∈ records_at ks 8,
      8 ≤ r.1 ∧ r.1 + 4 ≤ 65536 ∧ (r.2 = RecKind.data → r.1 + 4104 ≤ 65536)) ∧
    (journal_install sb img).code = some 0 ∧
    (journal_install sb img).status ≠ some .unknown_record := by
  have hf := tiles_fuel _ ks _ ht hb
  have hw : ∀ fuel, REPLAY_FUEL ≤ fuel →
      walk (read_journal sb img) (journal_nbytes_used sb img) fuel 8
        = (records_at ks 8, .finished (journal_nbytes_used sb img)) :=
    fun fuel hfuel => walk_tiles _ _ hb ks 8 fuel ht (by omega)
  refine ⟨hw, fun fuel hfuel img0 => ?_, fun r hr => ?_, ?_⟩
  · rw [replay_eq_walk, hw fuel hfuel]
    show Walk.finished _ = Walk.finished _
    rw [read_data_records_at]
  · have := records_at_bound _ ks 8 _ ht r hr
    exact ⟨this.1, by omega, fun hk => by have := this.2.2 hk; omega⟩
  · by_cases hn : journal_nbytes_used sb img = 8
    · rw [journal_install_empty sb img hm hn]
      exact ⟨rfl, fun h => Status.noConfusion (Option.some.inj h)⟩
    · rw [journal_install_tiles sb img ks hm hn hb ht]
      exact ⟨rfl, fun h => Status.noConfusion (Option.some.inj h)⟩

/-! ## The journal after a successful `journal_create` -/

theorem read_journal_init_journal (sb : Superblock) (img : Image) {k : Nat}
    (h8 : 8 ≤ k) (hk : k < 65536) :
    read_journal sb (init_journal sb img) k = read_journal sb img k := by
  by_cases hm : journal_magic sb img = JOURNAL_MAGIC
  · rw [init_journal_of_magic sb img hm]
  · unfold read_journal
    rw [init_journal_apply sb img hm, if_neg]
    rw [disk_offset_u32, disk_offset_eq, disk_offset_eq]
    omega

theorem tiles_append (jd : Buffer) (ks1 ks2 : List RecKind) :
    ∀ o m e, tiles jd ks1 o m → tiles jd ks2 m e → tiles jd (ks1 ++ ks2) o e := by
  induction ks1 with
  | nil =>
    intro o m e h1 h2
    simp only [tiles] at h1
    subst h1
    exact h2
  | cons k ks ih =>
    intro o m e h1 h2
    cases k with
    | data =>
      simp only [tiles, List.cons_append] at h1 ⊢
      exact ⟨h1.1, ih _ _ _ h1.2 h2⟩
    | commit =>
      simp only [tiles, List.cons_append] at h1 ⊢
      exact ⟨h1.1, ih _ _ _ h1.2 h2⟩

theorem tiles_congr_range {jd1 jd2 : Buffer} (ks : List RecKind) :
    ∀ o e, (∀ k, o ≤ k → k < e → jd1 k = jd2 k) → tiles jd1 ks o e → tiles jd2 ks o e := by
  induction ks with
  | nil => intro o e _ h; exact h
  | cons k ks ih =>
    intro o e hj h
    have hle := tiles_le jd1 _ _ _ h
    simp only [List.length_cons] at hle
    have ht : get_u16 jd1 o = get_u16 jd2 o :=
      get_u16_congr (fun k h1 h2 => hj k h1 (by omega))
    cases k with
    | data =>
      simp only [tiles, DATA_RECORD_SIZE] at h ⊢
      exact ⟨ht ▸ h.1, ih _ _ (fun k h1 h2 => hj k (by omega) h2) h.2⟩
    | commit =>
      simp only [tiles, COMMIT_RECORD_SIZE] at h ⊢
      exact ⟨ht ▸ h.1, ih _ _ (fun k h1 h2 => hj k (by omega) h2) h.2⟩

/-- The bytes of the journal buffer between the header and the old
`nbytes_used` are not touched by `log_records`. -/
theorem log_records_before (sb : Superblock) (st : Staged) (jd : Buffer) (u : Nat)
    (hu : u + num_data_records sb st * 4104 + 4 ≤ 65536) {k : Nat} (h8 : 8 ≤ k) (hk : k < u) :
    log_records sb st jd u k = jd k := by
  unfold num_data_records at hu
  by_cases hs : st.inode_block_no = u32 sb.inode_start
  · rw [if_pos hs] at hu
    rw [log_records_three sb st jd u hs (by omega), set_u32_other _ _ _ (by omega),
      put_commit_record_other _ _ (by omega), put_data_record_other _ _ _ _ (by omega),
      put_data_record_other _ _ _ _ (by omega), put_data_record_other _ _ _ _ (by omega)]
  · rw [if_neg hs] at hu
    rw [log_records_four sb st jd u hs (by omega), set_u32_other _ _ _ (by omega),
      put_commit_record_other _ _ (by omega), put_data_record_other _ _ _ _ (by omega),
      put_data_record_other _ _ _ _ (by omega), put_data_record_other _ _ _ _ (by omega),
      put_data_record_other _ _ _ _ (by omega)]

/-- A successful `journal_create`: the index and the slot it allocated, and
the journal it left on the image. -/
theorem journal_create_ok_journal (sb : Superblock) (filename : List Byte) (clk : Clock)
    (img img1 : Image) (h : journal_create sb filename clk img = .returned .ok img1) :
    ∃ i s : Nat, create_inum sb img = some (i : Int) ∧ create_slot sb img = (s : Int) ∧
      s < 128 ∧ i / 8 < 4096 ∧
      journal_magic sb (init_journal sb img) = JOURNAL_MAGIC ∧
      journal_nbytes_used sb (init_journal sb img)
        + num_data_records sb (stage sb filename clk (init_journal sb img) i s) * 4104 + 4
        ≤ 65536 ∧
      journal_nbytes_used sb img1 = journal_nbytes_used sb (init_journal sb img)
        + num_data_records sb (stage sb filename clk (init_journal sb img) i s) * 4104 + 4 ∧
      img1 = write_journal sb
        (log_records sb (stage sb filename clk (init_journal sb img) i s)
          (read_journal sb (init_journal sb img)) (journal_nbytes_used sb (init_journal sb img)))
        (init_journal sb img) ∧
      ∀ k, k < 65536 → read_journal sb img1 k =
        log_records sb (stage sb filename clk (init_journal sb img) i s)
          (read_journal sb (init_journal sb img)) (journal_nbytes_used sb (init_journal sb img))
          k := by
  obtain ⟨v, hv, hv0, hs0, hlog⟩ := journal_create_ok_inv sb filename clk img img1 h
  obtain ⟨hm, hu, himg⟩ := log_transaction_ok_inv sb _ _ _ hlog
  have hs := create_slot_range sb img hs0
  have hrd : ∀ k, k < 65536 → read_journal sb img1 k =
      log_records sb
        (stage sb filename clk (init_journal sb img) v.toNat (create_slot sb img).toNat)
        (read_journal sb (init_journal sb img)) (journal_nbytes_used sb (init_journal sb img))
        k := by
    intro k hk; rw [himg]; exact read_write_journal sb _ _ hk
  have hi8 : v.toNat / 8 < 4096 := by
    unfold create_inum find_free_inode at hv
    rcases find_free_inode_loop_range _ _ _ _ hv with h1 | h1
    · omega
    · exact h1.2.2.1
  refine ⟨v.toNat, (create_slot sb img).toNat, ?_, ?_, hs, hi8, hm, hu, ?_, himg, hrd⟩
  · rw [hv, Int.toNat_of_nonneg hv0]
  · rw [Int.toNat_of_nonneg hs0]
  · unfold journal_nbytes_used
    rw [get_u32_congr (fun k _ _ => hrd k (by omega))]
    exact log_records_nbytes_used sb _ _ _ hu

/-- The shape of a journal buffer that agrees with the result of
`log_records` at an offset `u ≥ 8`: header magic and earlier bytes kept,
then the DATA records and the COMMIT of the transaction. -/
theorem logged_shape (sb : Superblock) (st : Staged) (jd jd1 : Buffer) (u : Nat)
    (hrd : ∀ k, k < 65536 → jd1 k = log_records sb st jd u k) (h8 : 8 ≤ u)
    (hu : u + num_data_records sb st * 4104 + 4 ≤ 65536) :
    get_u32 jd1 0 = get_u32 jd 0 ∧
    (∀ k, 8 ≤ k → k < u → jd1 k = jd k) ∧
    holds_data jd1 u sb.inode_bitmap st.inode_bitmap ∧
    holds_data jd1 (u + 4104) sb.inode_start st.root_inode_block ∧
    ((st.inode_block_no = u32 sb.inode_start ∧ num_data_records sb st = 3 ∧
        holds_data jd1 (u + 8208) st.root_dir_block st.root_dir ∧
        get_u16 jd1 (u + 12312) = REC_COMMIT) ∨
      (st.inode_block_no ≠ u32 sb.inode_start ∧ num_data_records sb st = 4 ∧
        holds_data jd1 (u + 8208) st.inode_block_no st.new_inode_block ∧
        holds_data jd1 (u + 12312) st.root_dir_block st.root_dir ∧
        get_u16 jd1 (u + 16416) = REC_COMMIT)) ∧
    tiles jd1 (List.replicate (num_data_records sb st) RecKind.data ++ [RecKind.commit]) u
      (u + num_data_records sb st * 4104 + 4) := by
  have hbefore : ∀ k, 8 ≤ k → k < u → jd1 k = jd k := fun k h1 h2 => by
    rw [hrd k (by omega)]; exact log_records_before sb st jd u hu h1 h2
  by_cases hs : st.inode_block_no = u32 sb.inode_start
  · have hN : num_data_records sb st = 3 := by unfold num_data_records; rw [if_pos hs]
    rw [hN] at hu ⊢
    obtain ⟨hJm, hd1, hd2, hd3, hc⟩ := log_records_three_spec sb st jd u hs h8 (by omega)
    have hd1r := holds_data_congr (fun k _ _ => hrd k (by omega)) hd1
    have hd2r := holds_data_congr (fun k _ _ => hrd k (by omega)) hd2
    have hd3r := holds_data_congr (fun k _ _ => hrd k (by omega)) hd3
    have hcr : get_u16 jd1 (u + 12312) = REC_COMMIT := by
      rw [get_u16_congr (fun k _ _ => hrd k (by omega))]; exact hc
    refine ⟨?_, hbefore, hd1r, hd2r, Or.inl ⟨hs, rfl, hd3r, hcr⟩, ?_⟩
    · rw [get_u32_congr (fun k _ _ => hrd k (by omega))]; exact hJm
    · simp only [List.replicate, List.cons_append, List.nil_append, tiles, DATA_RECORD_SIZE,
        COMMIT_RECORD_SIZE]
      refine ⟨hd1r.1, hd2r.1, ?_, ?_⟩
      · rw [(by omega : u + 4104 + 4104 = u + 8208)]; exact hd3r.1
      · rw [(by omega : u + 4104 + 4104 + 4104 = u + 12312)]; exact ⟨hcr, trivial⟩
  · have hN : num_data_records sb st = 4 := by unfold num_data_records; rw [if_neg hs]
    rw [hN] at hu ⊢
    obtain ⟨hJm, hd1, hd2, hd3, hd4, hc⟩ := log_records_four_spec sb st jd u hs h8 (by omega)
    have hd1r := holds_data_congr (fun k _ _ => hrd k (by omega)) hd1
    have hd2r := holds_data_congr (fun k _ _ => hrd k (by omega)) hd2
    have hd3r := holds_data_congr (fun k _ _ => hrd k (by omega)) hd3
    have hd4r := holds_data_congr (fun k _ _ => hrd k (by omega)) hd4
    have hcr : get_u16 jd1 (u + 16416) = REC_COMMIT := by
      rw [get_u16_congr (fun k _ _ => hrd k (by omega))]; exact hc
    refine ⟨?_, hbefore, hd1r, hd2r, Or.inr ⟨hs, rfl, hd3r, hd4r, hcr⟩, ?_⟩
    · rw [get_u32_congr (fun k _ _ => hrd k (by omega))]; exact hJm
    · simp only [List.replicate, List.cons_append, List.nil_append, tiles, DATA_RECORD_SIZE,
        COMMIT_RECORD_SIZE]
      refine ⟨hd1r.1, hd2r.1, ?_, ?_, ?_⟩
      · rw [(by omega : u + 4104 + 4104 = u + 8208)]; exact hd3r.1
      · rw [(by omega : u + 4104 + 4104 + 4104 = u + 12312)]; exact hd4r.1
      · rw [(by omega : u + 4104 + 4104 + 4104 + 4104 = u + 16416)]; exact ⟨hcr, trivial⟩

/-! ## Well-formedness of the journal is kept -/

theorem well_formed_init_journal (sb : Superblock) (img : Image)
    (h : journal_magic sb img ≠ JOURNAL_MAGIC ∨ well_formed sb img) :
    well_formed sb (init_journal sb img) := by
  by_cases hm : journal_magic sb img = JOURNAL_MAGIC
  · rw [init_journal_of_magic sb img hm]
    rcases h with h | h
    · exact absurd hm h
    · exact h
  · have hh := init_journal_header sb img
    have hn := hh.2 hm
    unfold HEADER_SIZE at hn
    refine ⟨hh.1, by omega, by omega, [], ?_, Or.inl rfl⟩
    rw [hn]
    simp only [tiles]

theorem well_formed_checkpoint (sb : Superblock) (jd : Buffer) (img : Image) :
    well_formed sb (write_journal sb (checkpoint jd) img) := by
  have hh := write_checkpoint_header sb jd img
  refine ⟨hh.1, by omega, by omega, [], ?_, Or.inl rfl⟩
  rw [hh.2]
  simp only [tiles]

theorem well_formed_journal_create (sb : Superblock) (filename : List Byte) (clk : Clock)
    (img img1 : Image) (st : Status) (hw : well_formed sb img)
    (h : journal_create sb filename clk img = .returned st img1) : well_formed sb img1 := by
  have h0 := init_journal_of_magic sb img hw.1
  by_cases hst : st = .ok
  · subst hst
    obtain ⟨i, s, _, _, _, _, _, hu, hnb, _, hrd⟩ :=
      journal_create_ok_journal sb filename clk img img1 h
    rw [h0] at hu hnb hrd
    obtain ⟨hm, hbefore, _, _, _, ht⟩ :=
      logged_shape sb _ (read_journal sb img) (read_journal sb img1) _ hrd hw.2.1 hu
    obtain ⟨ks, hks, _⟩ := hw.2.2.2
    refine ⟨?_, by omega, by omega,
      ks ++ (List.replicate (num_data_records sb (stage sb filename clk img i s)) RecKind.data
        ++ [RecKind.commit]), ?_, Or.inr ?_⟩
    · unfold journal_magic; rw [hm]; exact hw.1
    · rw [hnb]
      refine tiles_append _ _ _ _ _ _ (tiles_congr_range ks 8 _ ?_ hks) ht
      intro k h1 h2
      exact (hbefore k h1 h2).symm
    · rw [← List.append_assoc, List.getLast?_concat]
  · rw [journal_create_failed_image sb filename clk img img1 st h hst, h0]
    exact hw

theorem well_formed_journal_install (sb : Superblock) (img : Image) (hw : well_formed sb img) :
    ∃ st img1, journal_install sb img = .returned st img1 ∧ st.code = 0 ∧
      well_formed sb img1 := by
  obtain ⟨hm, _, hb, ks, hks, _⟩ := hw
  by_cases hn : journal_nbytes_used sb img = 8
  · exact ⟨_, _, journal_install_empty sb img hm hn, rfl, ⟨hm, by omega, hb, ks, hks, ‹_›⟩⟩
  · exact ⟨_, _, journal_install_tiles sb img ks hm hn hb hks, rfl,
      well_formed_checkpoint sb _ _⟩

/-- C12. Journal well-formedness is an invariant: `init_journal` produces a
well-formed journal when the magic was invalid and keeps one that was
well-formed; on an image with a well-formed journal every `journal_create`
that returns, successful or failed, leaves the journal well-formed, and
`journal_install` returns (with 0) and leaves the journal well-formed. -/
theorem well_formed_invariant (sb : Superblock) (img : Image)
    (h : journal_magic sb img ≠ JOURNAL_MAGIC ∨ well_formed sb img) :
    well_formed sb (init_journal sb img) ∧
    (well_formed sb img →
      (∀ (filename : List Byte) (clk : Clock) (st : Status) (img1 : Image),
        journal_create sb filename clk img = .returned st img1 → well_formed sb img1) ∧
      (∀ (st : Status) (img1 : Image),
        journal_install sb img = .returned st img1 → well_formed sb img1) ∧
      (∃ st img1, journal_install sb img = .returned st img1 ∧ st.code = 0)) := by
  refine ⟨well_formed_init_journal sb img h, fun hw => ⟨fun filename clk st img1 hc =>
    well_formed_journal_create sb filename clk img img1 st hw hc, fun st img1 hi => ?_, ?_⟩⟩
  · obtain ⟨st2, img2, h2, _, hw2⟩ := well_formed_journal_install sb img hw
    rw [h2] at hi
    simp only [Run.returned.injEq] at hi
    rw [← hi.2]; exact hw2
  · obtain ⟨st2, img2, h2, hc2, _⟩ := well_formed_journal_install sb img hw
    exact ⟨st2, img2, h2, hc2⟩

/-! ## The shape of an appended transaction -/

theorem holds_data_u32 {jd : Buffer} {o b : Nat} {d : Buffer}
    (h : holds_data jd o (u32 b) d) : holds_data jd o b d := by
  unfold holds_data at h ⊢
  refine ⟨h.1, ?_, h.2.2⟩
  rw [h.2.1]; unfold u32; omega

theorem same_block_iff (b i : Nat) (hi : i / 8 < 4096) :
    u32 (b + i * 128 / 4096) = u32 b ↔ i < 32 := by
  unfold u32; omega

/-- C15 (as amended). Append shape: after a successful `journal_create` that
found the journal with bytes-used `u ≥ 8` (the stored value, or 8 when it had
to initialise the journal), the journal equals the journal before on the
bytes `[8, u)`, and from `u` on it holds, in this order, a DATA record for
the inode-bitmap block, a DATA record for block `inode_start`, a DATA record
for block `inode_start + i * 128 / 4096` exactly when that block differs from
`inode_start`, which is exactly when the allocated index `i` is at least 32,
a DATA record for the root-directory block named by the root inode's first
direct pointer, and one COMMIT record; `nbytes_used` becomes
`u + n * 4104 + 4` with `n = 3` or `n = 4` accordingly.  The payloads are the
staged blocks. -/
theorem append_shape (sb : Superblock) (filename : List Byte) (clk : Clock)
    (img img1 : Image) (h : journal_create sb filename clk img = .returned .ok img1)
    (h8 : 8 ≤ journal_nbytes_used sb (init_journal sb img)) :
    ∃ i s : Nat, create_inum sb img = some (i : Int) ∧ create_slot sb img = (s : Int) ∧
      (∀ k, 8 ≤ k → k < journal_nbytes_used sb (init_journal sb img) →
        read_journal sb img1 k = read_journal sb img k) ∧
      holds_data (read_journal sb img1) (journal_nbytes_used sb (init_journal sb img))
        sb.inode_bitmap (stage sb filename clk (init_journal sb img) i s).inode_bitmap ∧
      holds_data (read_journal sb img1) (journal_nbytes_used sb (init_journal sb img) + 4104)
        sb.inode_start (stage sb filename clk (init_journal sb img) i s).root_inode_block ∧
      ((i < 32 ∧ u32 (sb.inode_start + i * 128 / 4096) = u32 sb.inode_start ∧
          holds_data (read_journal sb img1)
            (journal_nbytes_used sb (init_journal sb img) + 8208)
            (root_dir_block sb img) (stage sb filename clk (init_journal sb img) i s).root_dir ∧
          get_u16 (read_journal sb img1) (journal_nbytes_used sb (init_journal sb img) + 12312)
            = REC_COMMIT ∧
          journal_nbytes_used sb img1
            = journal_nbytes_used sb (init_journal sb img) + 3 * 4104 + 4) ∨
        (32 ≤ i ∧ u32 (sb.inode_start + i * 128 / 4096) ≠ u32 sb.inode_start ∧
          holds_data (read_journal sb img1)
            (journal_nbytes_used sb (init_journal sb img) + 8208)
            (sb.inode_start + i * 128 / 4096)
            (stage sb filename clk (init_journal sb img) i s).new_inode_block ∧
          holds_data (read_journal sb img1)
            (journal_nbytes_used sb (init_journal sb img) + 12312)
            (root_dir_block sb img) (stage sb filename clk (init_journal sb img) i s).root_dir ∧
          get_u16 (read_journal sb img1) (journal_nbytes_used sb (init_journal sb img) + 16416)
            = REC_COMMIT ∧
          journal_nbytes_used sb img1
            = journal_nbytes_used sb (init_journal sb img) + 4 * 4104 + 4)) := by
  obtain ⟨i, s, hi, hs, _, hi8, _, hu, hnb, _, hrd⟩ :=
    journal_create_ok_journal sb filename clk img img1 h
  obtain ⟨_, hbefore, hd1, hd2, hcases, _⟩ :=
    logged_shape sb _ (read_journal sb (init_journal sb img)) (read_journal sb img1) _ hrd h8 hu
  have hbn := stage_inode_block_no sb filename clk (init_journal sb img) i s
  have hdb := stage_root_dir_block sb filename clk (init_journal sb img) i s
  rw [root_dir_block_init_journal] at hdb
  refine ⟨i, s, hi, hs, fun k h1 h2 => ?_, hd1, hd2, ?_⟩
  · rw [hbefore k h1 h2]
    exact read_journal_init_journal sb img h1 (by omega)
  · rcases hcases with ⟨hsame, hn, hd3, hc⟩ | ⟨hdiff, hn, hd3, hd4, hc⟩
    · left
      rw [hbn] at hsame
      rw [hdb] at hd3
      rw [hn] at hnb
      exact ⟨(same_block_iff _ _ hi8).mp hsame, hsame, hd3, hc, hnb⟩
    · right
      rw [hbn] at hdiff hd3
      rw [hdb] at hd4
      rw [hn] at hnb
      refine ⟨?_, hdiff, holds_data_u32 hd3, hd4, hc, hnb⟩
      by_contra hlt
      exact hdiff ((same_block_iff _ _ hi8).mpr (by omega))

/-! ## What a successful install leaves in each block -/

theorem apply_records_append (jd : Buffer) (l1 l2 : List Nat) (img : Image) :
    apply_records jd (l1 ++ l2) img = apply_records jd l2 (apply_records jd l1 img) := by
  unfold apply_records
  rw [List.foldl_append]

/-- A block holds the payload of the last DATA record that names it. -/
theorem read_apply_records_last (jd : Buffer) (pre : List Nat) (r : Nat) (post : List Nat)
    (img : Image) {x k : Nat}
    (hx : disk_offset x = disk_offset (record_target jd r))
    (hpost : ∀ q ∈ post, disk_offset (record_target jd q) ≠ disk_offset x)
    (hk : k < 4096) :
    read_block (apply_records jd (pre ++ r :: post) img) x k = record_payload jd r k := by
  rw [apply_records_append, apply_records_cons, read_block_apply,
    apply_records_frame jd post _ _ (fun q hq he => by
      have := hpost q hq
      rw [disk_offset_eq, disk_offset_eq] at this
      omega),
    apply_data_apply, if_pos (by
      rw [disk_offset_eq, disk_offset_eq] at hx
      omega)]
  unfold record_payload slice
  exact buf_congr _ (by omega)

/-- A block that no DATA record names keeps its bytes. -/
theorem read_apply_records_frame (jd : Buffer) (offs : List Nat) (img : Image) {x k : Nat}
    (h : ∀ q ∈ offs, disk_offset (record_target jd q) ≠ disk_offset x) (hk : k < 4096) :
    read_block (apply_records jd offs img) x k = read_block img x k := by
  rw [read_block_apply, read_block_apply,
    apply_records_frame jd offs _ _ (fun q hq he => by
      have := h q hq
      rw [disk_offset_eq, disk_offset_eq] at this
      omega)]

/-- C16. Replay semantics: on an image with a well-formed non-empty journal
none of whose DATA records targets a journal block, `journal_install`
succeeds, and the image it leaves is the checkpointed journal laid over the
block writes of the DATA records alone, in stream order (a COMMIT record
writes nothing): every block that is no journal block and that no DATA record
names is unchanged, and every block named by a DATA record holds the 4096
payload bytes of the last DATA record in stream order that names it. -/
theorem replay_semantics (sb : Superblock) (img : Image) (ks : List RecKind)
    (hm : journal_magic sb img = JOURNAL_MAGIC)
    (hn : journal_nbytes_used sb img ≠ 8)
    (hb : journal_nbytes_used sb img ≤ 65536)
    (ht : tiles (read_journal sb img) ks 8 (journal_nbytes_used sb img))
    (hj : ∀ r ∈ data_offsets ks 8,
      ¬ is_journal_block sb (record_target (read_journal sb img) r)) :
    ∃ img1, journal_install sb img = .returned .ok img1 ∧
      img1 = write_journal sb (checkpoint (read_journal sb img))
        (apply_records (read_journal sb img) (data_offsets ks 8) img) ∧
      (∀ b, ¬ is_journal_block sb b →
        (∀ r ∈ data_offsets ks 8,
          disk_offset (record_target (read_journal sb img) r) ≠ disk_offset b) →
        ∀ k, k < 4096 → read_block img1 b k = read_block img b k) ∧
      (∀ (pre : List Nat) (r : Nat) (post : List Nat),
        data_offsets ks 8 = pre ++ r :: post →
        (∀ q ∈ post, disk_offset (record_target (read_journal sb img) q)
          ≠ disk_offset (record_target (read_journal sb img) r)) →
        ∀ k, k < 4096 →
          read_block img1 (record_target (read_journal sb img) r) k
            = record_payload (read_journal sb img) r k) := by
  refine ⟨_, journal_install_tiles sb img ks hm hn hb ht, rfl, fun b hjb hnot k hk => ?_,
    fun pre r post hsplit hpost k hk => ?_⟩
  · rw [read_block_write_journal sb _ _ hjb hk, read_apply_records_frame _ _ _ hnot hk]
  · have hr : r ∈ data_offsets ks 8 := by rw [hsplit]; simp
    rw [read_block_write_journal sb _ _ (hj r hr) hk, hsplit,
      read_apply_records_last _ pre r post img rfl hpost hk]

/-! ## A successful `journal_create`, forwards -/

theorem journal_create_ok (sb : Superblock) (filename : List Byte) (clk : Clock)
    (img : Image) (i s : Nat)
    (hi : create_inum sb img = some (i : Int)) (hs : create_slot sb img = (s : Int))
    (hu : journal_nbytes_used sb (init_journal sb img)
      + num_data_records sb (stage sb filename clk (init_journal sb img) i s) * 4104 + 4
      ≤ 65536) :
    journal_create sb filename clk img =
      .returned .ok (write_journal sb
        (log_records sb (stage sb filename clk (init_journal sb img) i s)
          (read_journal sb (init_journal sb img)) (journal_nbytes_used sb (init_journal sb img)))
        (init_journal sb img)) := by
  unfold create_inum at hi
  unfold create_slot at hs
  have hc := journal_create_log sb filename clk img i hi (by omega) (by rw [hs]; omega)
  rw [hs] at hc
  simp only [Int.toNat_ofNat] at hc
  rw [hc]
  exact log_transaction_ok sb _ _ (init_journal_header sb img).1 hu

/-! ## The staged root inode -/

/-- The second DATA record of the transaction is the root-inode block. -/
theorem log_records_root (sb : Superblock) (st : Staged) (jd : Buffer) (u : Nat)
    (hu : u + num_data_records sb st * 4104 + 4 ≤ 65536) :
    holds_data (log_records sb st jd u) (u + 4104) sb.inode_start st.root_inode_block := by
  unfold num_data_records at hu
  by_cases hs : st.inode_block_no = u32 sb.inode_start
  · rw [if_pos hs] at hu
    rw [log_records_three sb st jd u hs (by omega)]
    refine holds_data_congr (fun k h1 h2 => ?_)
      (holds_data_put (put_data_record jd u sb.inode_bitmap st.inode_bitmap) (u + 4104) _ _)
    rw [set_u32_other _ _ _ (by omega), put_commit_record_other _ _ (by omega),
      put_data_record_other _ _ _ _ (by omega)]
  · rw [if_neg hs] at hu
    rw [log_records_four sb st jd u hs (by omega)]
    refine holds_data_congr (fun k h1 h2 => ?_)
      (holds_data_put (put_data_record jd u sb.inode_bitmap st.inode_bitmap) (u + 4104) _ _)
    rw [set_u32_other _ _ _ (by omega), put_commit_record_other _ _ (by omega),
      put_data_record_other _ _ _ _ (by omega), put_data_record_other _ _ _ _ (by omega)]

theorem init_inode_other (b : Buffer) (o : Nat) (clk : Clock) {k : Nat}
    (hk : k < o ∨ o + 48 ≤ k) : init_inode b o clk k = b k := by
  unfold init_inode
  rw [clear_direct_other _ _ _ _ (by omega), set_u32_other _ _ _ (by omega),
    set_u32_other _ _ _ (by omega), set_u32_other _ _ _ (by omega),
    set_u16_other _ _ _ (by omega), set_u16_other _ _ _ (by omega)]

theorem update_root_inode_mtime (b : Buffer) (s : Nat) (clk : Clock) :
    get_u32 (update_root_inode b s clk) 44 = u32 clk.root_mtime := by
  unfold update_root_inode
  simp only []
  rw [get_u32_set_u32_same]

/-- Record 0 of the staged root-inode block when the allocated index is not 0. -/
theorem stage_root_inode_fields (sb : Superblock) (filename : List Byte) (clk : Clock)
    (img : Image) (i s : Nat) (hi0 : i ≠ 0) (hi8 : i / 8 < 4096) (hs : s < 128) :
    get_u32 (stage sb filename clk img i s).root_inode_block 4 = (s + 1) * 32 ∧
    get_u32 (stage sb filename clk img i s).root_inode_block 44 = u32 clk.root_mtime ∧
    ∀ k, k < 128 → (k < 4 ∨ (8 ≤ k ∧ k < 44) ∨ 48 ≤ k) →
      (stage sb filename clk img i s).root_inode_block k = read_block img sb.inode_start k := by
  rw [stage_root_inode_block]
  by_cases hsame : u32 (sb.inode_start + i * 128 / 4096) = u32 sb.inode_start
  · rw [if_pos hsame]
    have hlt := (same_block_iff _ _ hi8).mp hsame
    refine ⟨?_, update_root_inode_mtime _ _ _, fun k hk hf => ?_⟩
    · rw [update_root_inode_size, u32_of_lt (by omega)]
    · rw [update_root_inode_other _ _ _ hf, init_inode_other _ _ _ (by omega)]
  · rw [if_neg hsame]
    refine ⟨?_, update_root_inode_mtime _ _ _, fun k hk hf => ?_⟩
    · rw [update_root_inode_size, u32_of_lt (by omega)]
    · rw [update_root_inode_other _ _ _ hf]

/-- C17 (as amended). Root directory size: after a successful `journal_create` that
allocated slot `s` and an inode index other than 0, the second DATA record of
the transaction is the staged root-inode block, and in its record 0 the size
is `(s + 1) * 32` whatever it was before, the mtime is the time of the call,
and every other byte is the one of the root inode as the call read it, which
is the one on the image before the call (for the bytes 0..3, type and links,
when the journal was initialised or the root-inode block is not the first
journal block); so when the size on the image before the call exceeds
`(s + 1) * 32`, the staged size is strictly smaller. -/
theorem root_directory_size (sb : Superblock) (filename : List Byte) (clk : Clock)
    (img img1 : Image) (h : journal_create sb filename clk img = .returned .ok img1)
    (hi0 : create_inum sb img ≠ some 0) :
    ∃ i s : Nat, create_inum sb img = some (i : Int) ∧ create_slot sb img = (s : Int) ∧
      holds_data (read_journal sb img1)
        (journal_nbytes_used sb (init_journal sb img) + 4104) sb.inode_start
        (stage sb filename clk (init_journal sb img) i s).root_inode_block ∧
      get_u32 (stage sb filename clk (init_journal sb img) i s).root_inode_block 4
        = (s + 1) * 32 ∧
      get_u32 (stage sb filename clk (init_journal sb img) i s).root_inode_block 44
        = u32 clk.root_mtime ∧
      (∀ k, k < 128 → (k < 4 ∨ (8 ≤ k ∧ k < 44) ∨ 48 ≤ k) →
        (stage sb filename clk (init_journal sb img) i s).root_inode_block k
          = read_block (init_journal sb img) sb.inode_start k) ∧
      (∀ k, k < 128 → ((8 ≤ k ∧ k < 44) ∨ 48 ≤ k) →
        (stage sb filename clk (init_journal sb img) i s).root_inode_block k
          = read_block img sb.inode_start k) ∧
      ((journal_magic sb img = JOURNAL_MAGIC ∨
          disk_offset sb.inode_start ≠ disk_offset sb.journal_blocks) →
        ∀ k, k < 4 →
          (stage sb filename clk (init_journal sb img) i s).root_inode_block k
            = read_block img sb.inode_start k) ∧
      ((s + 1) * 32 < get_u32 (read_block img sb.inode_start) 4 →
        get_u32 (stage sb filename clk (init_journal sb img) i s).root_inode_block 4
          < get_u32 (read_block img sb.inode_start) 4) := by
  obtain ⟨i, s, hi, hs, hs128, hi8, _, hu, _, _, hrd⟩ :=
    journal_create_ok_journal sb filename clk img img1 h
  have hne : i ≠ 0 := by
    intro h0
    apply hi0
    rw [hi, h0]
    rfl
  obtain ⟨f1, f2, f3⟩ :=
    stage_root_inode_fields sb filename clk (init_journal sb img) i s hne hi8 hs128
  have hn := num_data_records_cases sb (stage sb filename clk (init_journal sb img) i s)
  have hd := holds_data_congr (fun k _ _ => hrd k (by omega))
    (log_records_root sb _ (read_journal sb (init_journal sb img)) _ hu)
  refine ⟨i, s, hi, hs, hd, f1, f2, f3, fun k hk hf => ?_, fun hc k hk => ?_, fun hlt => ?_⟩
  · rw [f3 k hk (by omega)]
    by_cases hm : journal_magic sb img = JOURNAL_MAGIC
    · rw [init_journal_of_magic sb img hm]
    · unfold read_block
      rw [init_journal_apply sb img hm, if_neg]
      rw [disk_offset_eq, disk_offset_eq]
      omega
  · rw [f3 k (by omega) (by omega)]
    rcases hc with hm | hne2
    · rw [init_journal_of_magic sb img hm]
    · exact read_block_init_journal sb img hne2 (by omega)
  · rw [f1]; exact hlt

/-! ## The allocators after create and install -/

theorem bit_set_iff_of_eq {b1 b2 : Buffer} {j : Nat} (h : b1 (j / 8) = b2 (j / 8)) :
    bit_set b1 j ↔ bit_set b2 j := by
  unfold bit_set
  rw [h]

/-- `mark_inode` sets the bit of the index and leaves every other bit. -/
theorem mark_inode_bit_iff (bitmap : Buffer) (i j : Nat) :
    bit_set (mark_inode bitmap i) j ↔ bit_set bitmap j ∨ (j = i ∧ i / 8 < 4096) := by
  unfold bit_set mark_inode
  have e : ∀ x : Nat, x % 256 = x % 2 ^ 8 := fun x => by norm_num
  by_cases hb : j / 8 = i / 8
  · rw [hb, set_u8_same, byte_of_val, e, Nat.testBit_mod_two_pow, Nat.testBit_or,
      Nat.one_shiftLeft, Nat.testBit_two_pow]
    have h8 : decide (j % 8 < 8) = true := decide_eq_true (by omega)
    rw [h8, Bool.true_and]
    by_cases hm : i % 8 = j % 8
    · have hji : j = i := by omega
      simp only [hm, decide_True, Bool.or_true, and_true]
      constructor
      · intro h; exact Or.inr ⟨hji, h⟩
      · intro h
        rcases h with h | h
        · exact h.1
        · exact h.2
    · have hji : j ≠ i := fun hh => hm (by rw [hh])
      simp only [hm, decide_False, Bool.or_false]
      constructor
      · intro h; exact Or.inl h
      · intro h
        rcases h with h | h
        · exact h
        · exact absurd h.1 hji
  · have hji : j ≠ i := fun hh => hb (by rw [hh])
    rw [set_u8_other _ _ _ hb]
    constructor
    · intro h; exact Or.inl h
    · intro h
      rcases h with h | h
      · exact h
      · exact absurd h.1 hji

/-- An index the bitmap scan returns is the first clear bit from where it started. -/
theorem find_free_inode_loop_found (bitmap : Buffer) :
    ∀ r i (v : Nat), find_free_inode_loop bitmap r i = some (v : Int) →
      i ≤ v ∧ v < i + r ∧ v / 8 < 4096 ∧ ¬ bit_set bitmap v ∧
        ∀ j, i ≤ j → j < v → bit_set bitmap j := by
  intro r
  induction r with
  | zero =>
    intro i v h
    simp only [find_free_inode_loop, Option.some.injEq] at h
    omega
  | succ r ih =>
    intro i v h
    simp only [find_free_inode_loop] at h
    split_ifs at h with c1 c2
    · simp only [Option.some.injEq, Nat.cast_inj] at h
      subst h
      refine ⟨Nat.le_refl _, by omega, by omega, ?_, fun j h1 h2 => by omega⟩
      intro hb
      rw [and_shift_eq_zero_iff, hb.2] at c2
      exact Bool.noConfusion c2
    · obtain ⟨h1, h2, h3, h4, h5⟩ := ih _ _ h
      refine ⟨by omega, by omega, h3, h4, fun j h6 h7 => ?_⟩
      by_cases hj : j = i
      · rw [hj]
        refine ⟨by omega, ?_⟩
        rw [and_shift_eq_zero_iff] at c2
        simpa using c2
      · exact h5 j (by omega) h7

theorem slot_free_congr {d1 d2 : Buffer} {t : Nat}
    (h : ∀ k, t * 32 ≤ k → k < t * 32 + 5 → d1 k = d2 k) : slot_free d1 t ↔ slot_free d2 t := by
  unfold slot_free
  rw [get_u32_congr (fun k h1 h2 => h k h1 (by omega)), h (t * 32 + 4) (by omega) (by omega)]

/-- What the allocators see after a create and an install on an image whose
journal was uninitialised or empty: bit `i` is the one new bit of the inode
bitmap, the root directory is the same block, slot `s` is occupied, and the
other slots are as before. -/
theorem allocators_after_install (sb : Superblock) (filename : List Byte) (clk : Clock)
    (img : Image) (i s : Nat) (hL : Layout sb img)
    (hj : journal_magic sb img ≠ JOURNAL_MAGIC ∨ journal_nbytes_used sb img = 8)
    (h0 : bit_set (read_block img sb.inode_bitmap) 0)
    (hi : find_free_inode sb img = some (i : Int))
    (hs : find_free_dirent (read_block img (root_dir_block sb img)) = (s : Int)) :
    ∃ img1 img2, journal_create sb filename clk img = .returned .ok img1 ∧
      journal_install sb img1 = .returned .ok img2 ∧ 1 ≤ i ∧
      (∀ j, j < i → bit_set (read_block img sb.inode_bitmap) j) ∧
      (∀ j, bit_set (read_block img2 sb.inode_bitmap) j ↔
        bit_set (read_block img sb.inode_bitmap) j ∨ j = i) ∧
      root_dir_block sb img2 = root_dir_block sb img ∧
      (∀ t, t < s → ¬ slot_free (read_block img (root_dir_block sb img)) t) ∧
      ¬ slot_free (read_block img2 (root_dir_block sb img)) s ∧
      (∀ t, t < 128 → t ≠ s → (slot_free (read_block img2 (root_dir_block sb img)) t ↔
        slot_free (read_block img (root_dir_block sb img)) t)) := by
  obtain ⟨hcnt, hi8⟩ := find_free_inode_some_range sb img i hi
  have hs128 := find_free_dirent_some_range _ s hs
  have hfound : ¬ bit_set (read_block img sb.inode_bitmap) i ∧
      ∀ j, j < i → bit_set (read_block img sb.inode_bitmap) j := by
    unfold find_free_inode at hi
    obtain ⟨_, _, _, h4, h5⟩ := find_free_inode_loop_found _ _ _ _ hi
    exact ⟨h4, fun j hj => h5 j (by omega) hj⟩
  have hi1 : 1 ≤ i := by
    rcases Nat.eq_zero_or_pos i with h | h
    · rw [h] at hfound
      exact absurd h0 hfound.1
    · exact h
  have hsfirst : ∀ t, t < s → ¬ slot_free (read_block img (root_dir_block sb img)) t := by
    rcases find_free_dirent_spec (read_block img (root_dir_block sb img)) with h | ⟨v, h1, _, _, h4⟩
    · rw [h.1] at hs; omega
    · rw [h1] at hs
      have hv : v = s := by omega
      rw [← hv]; exact h4
  obtain ⟨img1, img2, hc, hin, hB, hR, _, hD, _, _⟩ :=
    round_trip_blocks sb filename clk img i s hL hj hi hs
  have hjB := not_journal_block_first sb hL.bitmap_journal
  have hjR : disk_offset sb.inode_start ≠ disk_offset sb.journal_blocks := by
    have := hL.table_journal 0 (by omega)
    rw [Nat.add_zero] at this
    exact not_journal_block_first sb this
  have hjD := not_journal_block_first sb hL.dir_journal
  refine ⟨img1, img2, hc, hin, hi1, hfound.2, fun j => ?_, ?_, hsfirst, ?_, fun t ht128 ht => ?_⟩
  · by_cases hj8 : j / 8 < 4096
    · rw [bit_set_iff_of_eq (hB (j / 8) hj8), stage_inode_bitmap, mark_inode_bit_iff,
        bit_set_iff_of_eq (read_block_init_journal sb img hjB hj8)]
      constructor
      · intro h
        rcases h with h | h
        · exact Or.inl h
        · exact Or.inr h.1
      · intro h
        rcases h with h | h
        · exact Or.inl h
        · exact Or.inr ⟨h, hi8⟩
    · constructor
      · intro h; exact absurd h.1 hj8
      · intro h
        rcases h with h | h
        · exact absurd h.1 hj8
        · rw [h] at hj8; exact absurd hi8 hj8
  · unfold root_dir_block
    apply get_u32_congr
    intro k h1 h2
    rw [hR k (by omega),
      (stage_root_inode_fields sb filename clk (init_journal sb img) i s (by omega) hi8 hs128).2.2
        k (by omega) (by omega),
      read_block_init_journal sb img hjR (by omega)]
  · intro hf
    have h1 := hf.1
    rw [get_u32_congr (fun k h1 h2 => hD k (by omega)), stage_root_dir, add_dirent_inode,
      u32_of_lt (by omega)] at h1
    omega
  · apply slot_free_congr
    intro k h1 h2
    have hk : k < 4096 := by omega
    rw [hD k hk, stage_root_dir, add_dirent_other _ _ _ _ (by omega), root_dir_block_init_journal,
      read_block_init_journal sb img hjD hk]

/-- The bitmap scan returns the first clear bit when it lies within its range. -/
theorem find_free_inode_loop_first (bitmap : Buffer) (v : Nat) (hv : v / 8 < 4096)
    (hclear : ¬ bit_set bitmap v) :
    ∀ r i, i ≤ v → v < i + r → (∀ j, i ≤ j → j < v → bit_set bitmap j) →
      find_free_inode_loop bitmap r i = some (v : Int) := by
  intro r
  induction r with
  | zero => intro i h1 h2; omega
  | succ r ih =>
    intro i h1 h2 hall
    simp only [find_free_inode_loop]
    rw [if_neg (by omega)]
    by_cases hiv : i = v
    · rw [hiv, if_pos]
      rw [and_shift_eq_zero_iff]
      by_contra hne
      exact hclear ⟨hv, by simpa using hne⟩
    · have hb := hall i (Nat.le_refl _) (by omega)
      rw [if_neg, ih (i + 1) (by omega) (by omega) (fun j h3 h4 => hall j (by omega) h4)]
      rw [and_shift_eq_zero_iff, hb.2]
      exact Bool.noConfusion

/-- With every bit of the block set, a scan of more than the 32768 bits of the
block reads past the end of the bitmap buffer. -/
theorem find_free_inode_loop_overrun (bitmap : Buffer)
    (hall : ∀ j, j < 32768 → bit_set bitmap j) :
    ∀ r i, i ≤ 32768 → 32768 < i + r → find_free_inode_loop bitmap r i = none := by
  intro r
  induction r with
  | zero => intro i h1 h2; omega
  | succ r ih =>
    intro i h1 h2
    simp only [find_free_inode_loop]
    by_cases hi : i = 32768
    · rw [if_pos (by omega)]
    · have hb := hall i (by omega)
      rw [if_neg (by omega), if_neg, ih (i + 1) (by omega) (by omega)]
      rw [and_shift_eq_zero_iff, hb.2]
      exact Bool.noConfusion

theorem last_inode_image_layout : Layout sb_wide last_inode_image := by
  have hD : root_dir_block sb_wide last_inode_image = 1044 := by decide
  constructor
  · unfold is_journal_block; decide
  · rintro j hj ⟨i, hi, h⟩
    rw [disk_offset_u32, disk_offset_eq, disk_offset_eq] at h
    simp only [sb_wide] at hj h
    omega
  · rw [hD]; unfold is_journal_block; decide
  · intro j hj h
    rw [disk_offset_eq, disk_offset_eq] at h
    simp only [sb_wide] at hj h
    omega
  · rw [hD]; decide
  · intro j hj h
    rw [hD, disk_offset_eq, disk_offset_eq] at h
    simp only [sb_wide] at hj h
    omega

theorem last_inode_image_bits (j : Nat) (hj : j < 32767) :
    bit_set (read_block last_inode_image sb_wide.inode_bitmap) j := by
  have h255 : ∀ m, m < 8 → Nat.testBit 255 m = true := by decide
  have h127 : ∀ m, m < 7 → Nat.testBit 127 m = true := by decide
  have hoff : disk_offset sb_wide.inode_bitmap = 69632 := by decide
  refine ⟨by omega, ?_⟩
  unfold read_block last_inode_image
  rw [hoff]
  by_cases hlast : j / 8 = 4095
  · rw [if_neg (by omega), if_pos (by omega)]
    exact h127 _ (by omega)
  · rw [if_pos (by omega)]
    exact h255 _ (Nat.mod_lt _ (by omega))

theorem last_inode_image_find : find_free_inode sb_wide last_inode_image = some 32767 := by
  unfold find_free_inode
  have hoff : disk_offset sb_wide.inode_bitmap = 69632 := by decide
  refine find_free_inode_loop_first _ 32767 (by omega) ?_ _ 0 (by omega) (by decide)
    (fun j _ hj => last_inode_image_bits j hj)
  intro hb
  have h := hb.2
  unfold read_block last_inode_image at h
  rw [hoff] at h
  revert h
  decide

/-- The scan past the buffer does occur: `last_inode_image`, of a geometry
with 32769 inodes, has its blocks apart, an uninitialised journal and bit 0
set, `find_free_inode` returns 32767 and `find_free_dirent` returns 2, create
and install both return 0, and on the resulting image every bit of the bitmap
block is set, so the scan of `find_free_inode` goes on to index 32768 and
reads byte 4096 of the 4096-byte buffer, where C defines no result. -/
theorem last_inode_image_overrun :
    Layout sb_wide last_inode_image ∧ journal_magic sb_wide last_inode_image ≠ JOURNAL_MAGIC ∧
    bit_set (read_block last_inode_image sb_wide.inode_bitmap) 0 ∧
    find_free_inode sb_wide last_inode_image = some 32767 ∧
    find_free_dirent (read_block last_inode_image (root_dir_block sb_wide last_inode_image)) = 2 ∧
    ∃ img1 img2, journal_create sb_wide foo_txt clock0 last_inode_image = .returned .ok img1 ∧
      journal_install sb_wide img1 = .returned .ok img2 ∧
      find_free_inode sb_wide img2 = none := by
  have hm : journal_magic sb_wide last_inode_image ≠ JOURNAL_MAGIC := by decide
  have hd : find_free_dirent
      (read_block last_inode_image (root_dir_block sb_wide last_inode_image)) = 2 := by decide
  refine ⟨last_inode_image_layout, hm, last_inode_image_bits 0 (by omega),
    last_inode_image_find, hd, ?_⟩
  obtain ⟨img1, img2, hc, hin, _, _, hbits, _⟩ :=
    allocators_after_install sb_wide foo_txt clock0 last_inode_image 32767 2
      last_inode_image_layout (Or.inl hm) (last_inode_image_bits 0 (by omega))
      last_inode_image_find hd
  refine ⟨img1, img2, hc, hin, ?_⟩
  unfold find_free_inode
  refine find_free_inode_loop_overrun _ (fun j hj => ?_) _ 0 (by omega) (by decide)
  rw [hbits]
  by_cases h : j = 32767
  · exact Or.inr h
  · exact Or.inl (last_inode_image_bits j (by omega))

/-- On an image on which the allocators of `journal_create` find inode `i`
and slot `s` and whose journal header says at most 49116 bytes are used, the
call succeeds. -/
theorem journal_create_returns (sb : Superblock) (filename : List Byte) (clk : Clock)
    (img : Image) (i s : Nat)
    (hi : create_inum sb img = some (i : Int)) (hs : create_slot sb img = (s : Int))
    (hu : journal_nbytes_used sb (init_journal sb img) ≤ 49116) :
    ∃ img1, journal_create sb filename clk img = .returned .ok img1 := by
  have hn := num_data_records_cases sb (stage sb filename clk (init_journal sb img) i s)
  exact ⟨_, journal_create_ok sb filename clk img i s hi hs (by omega)⟩

/-- C11, counterexample to the claim as stated: with the inode bitmap in
block 2, the second journal block, `journal_create` returns 0 on the fresh
image and byte 16 of the inode-bitmap block, 0 before the call, is 1 after
it (the type field of the second DATA record): the inode bitmap on the image
was written. -/
theorem create_only_stages_counterexample :
    ∃ img1, journal_create sb_overlap foo_txt clock0 fresh_image = .returned .ok img1 ∧
      (read_block fresh_image sb_overlap.inode_bitmap 16).val = 0 ∧
      (read_block img1 sb_overlap.inode_bitmap 16).val = 1 := by
  have hm : journal_magic sb_overlap fresh_image ≠ JOURNAL_MAGIC := by decide
  have hu0 := (init_journal_header sb_overlap fresh_image).2 hm
  obtain ⟨img1, h⟩ := journal_create_returns sb_overlap foo_txt clock0 fresh_image 0 2
    (by decide) (by decide) (by rw [hu0]; decide)
  refine ⟨img1, h, by decide, ?_⟩
  obtain ⟨i, s, _, _, _, _, _, hu, _, _, hrd⟩ :=
    journal_create_ok_journal sb_overlap foo_txt clock0 fresh_image img1 h
  obtain ⟨_, _, _, hR, _⟩ := logged_shape sb_overlap _
    (read_journal sb_overlap (init_journal sb_overlap fresh_image))
    (read_journal sb_overlap img1) _ hrd (by rw [hu0]; decide) hu
  have h16 := hR.1
  rw [hu0] at h16
  unfold get_u16 REC_DATA HEADER_SIZE at h16
  have e : read_block img1 sb_overlap.inode_bitmap 16
      = read_journal sb_overlap img1 (8 + 4104) := by
    unfold read_block read_journal
    exact buf_congr img1 (by decide)
  rw [e]
  have hlt := (read_journal sb_overlap img1 (8 + 4104 + 1)).isLt
  have hlt2 := (read_journal sb_overlap img1 (8 + 4104)).isLt
  omega

/-- C11, witness: a successful create of "foo.txt" on the fresh image. -/
theorem create_only_stages_witness :
    ∃ img1, journal_create sb0 foo_txt clock0 fresh_image = .returned .ok img1 ∧
      (∀ a, ¬ in_journal_region sb0 a → img1 a = fresh_image a) ∧
      (∀ b, ¬ is_journal_block sb0 b →
        ∀ k, k < 4096 → read_block img1 b k = read_block fresh_image b k) ∧
      (¬ is_journal_block sb0 sb0.inode_bitmap →
        ∀ k, k < 4096 →
          read_block img1 sb0.inode_bitmap k = read_block fresh_image sb0.inode_bitmap k) ∧
      (∀ j, ¬ is_journal_block sb0 (sb0.inode_start + j) →
        ∀ k, k < 4096 →
          read_block img1 (sb0.inode_start + j) k
            = read_block fresh_image (sb0.inode_start + j) k) ∧
      (¬ is_journal_block sb0 (root_dir_block sb0 fresh_image) →
        ∀ k, k < 4096 →
          read_block img1 (root_dir_block sb0 fresh_image) k
            = read_block fresh_image (root_dir_block sb0 fresh_image) k) := by
  obtain ⟨img1, h⟩ := journal_create_returns sb0 foo_txt clock0 fresh_image 1 2
    (by decide) (by decide)
    (by rw [(init_journal_header sb0 fresh_image).2 (by decide)]; decide)
  exact ⟨img1, h, create_only_stages sb0 foo_txt clock0 fresh_image img1 .ok h⟩

/-- C13, witness: the geometry `sb0`, with 64 inodes, and the fresh image. -/
theorem find_free_inode_first_fit_witness :
    ((find_free_inode sb0 fresh_image = some (-1) ∧
        ∀ i, i < sb0.inode_count → bit_set (read_block fresh_image sb0.inode_bitmap) i) ∨
      (∃ v : Nat, find_free_inode sb0 fresh_image = some (v : Int) ∧ v < sb0.inode_count ∧
        ¬ bit_set (read_block fresh_image sb0.inode_bitmap) v ∧
        ∀ j, j < v → bit_set (read_block fresh_image sb0.inode_bitmap) j)) ∧
    (find_free_inode sb0 fresh_image = some (-1) ↔
      ∀ i, i < sb0.inode_count → bit_set (read_block fresh_image sb0.inode_bitmap) i) ∧
    (∀ img2 : Image,
      (∀ i, i < sb0.inode_count →
        (bit_set (read_block img2 sb0.inode_bitmap) i ↔
          bit_set (read_block fresh_image sb0.inode_bitmap) i)) →
      find_free_inode sb0 img2 = find_free_inode sb0 fresh_image) :=
  find_free_inode_first_fit sb0 fresh_image (by decide)

theorem staged_image_well_formed : well_formed sb0 staged_image :=
  ⟨by decide, by decide, by decide, [.data, .commit], staged_image_tiles, Or.inr rfl⟩

/-- C12, witness: `staged_image`, whose journal holds one DATA record and its COMMIT. -/
theorem well_formed_invariant_witness :
    well_formed sb0 (init_journal sb0 staged_image) ∧
    (well_formed sb0 staged_image →
      (∀ (filename : List Byte) (clk : Clock) (st : Status) (img1 : Image),
        journal_create sb0 filename clk staged_image = .returned st img1 →
          well_formed sb0 img1) ∧
      (∀ (st : Status) (img1 : Image),
        journal_install sb0 staged_image = .returned st img1 → well_formed sb0 img1) ∧
      (∃ st img1, journal_install sb0 staged_image = .returned st img1 ∧ st.code = 0)) :=
  well_formed_invariant sb0 staged_image (Or.inr staged_image_well_formed)

/-- C20, witness: `staged_image`, whose journal holds one DATA record and its COMMIT. -/
theorem replay_walk_safe_witness :
    (∀ fuel, REPLAY_FUEL ≤ fuel →
      walk (read_journal sb0 staged_image) (journal_nbytes_used sb0 staged_image) fuel 8
        = (records_at [.data, .commit] 8, .finished (journal_nbytes_used sb0 staged_image))) ∧
    (∀ fuel, REPLAY_FUEL ≤ fuel → ∀ img0 : Image,
      replay (read_journal sb0 staged_image) (journal_nbytes_used sb0 staged_image) fuel 8 img0
        = .finished (apply_records (read_journal sb0 staged_image)
            (data_offsets [.data, .commit] 8) img0)) ∧
    (∀ r ∈ records_at [.data, .commit] 8,
      8 ≤ r.1 ∧ r.1 + 4 ≤ 65536 ∧ (r.2 = RecKind.data → r.1 + 4104 ≤ 65536)) ∧
    (journal_install sb0 staged_image).code = some 0 ∧
    (journal_install sb0 staged_image).status ≠ some .unknown_record :=
  replay_walk_safe sb0 staged_image [.data, .commit] (by decide) (by decide) staged_image_tiles

/-- C16, witness: `staged_image`, whose one DATA record targets block 30. -/
theorem replay_semantics_witness :
    ∃ img1, journal_install sb0 staged_image = .returned .ok img1 ∧
      img1 = write_journal sb0 (checkpoint (read_journal sb0 staged_image))
        (apply_records (read_journal sb0 staged_image) (data_offsets [.data, .commit] 8)
          staged_image) ∧
      (∀ b, ¬ is_journal_block sb0 b →
        (∀ r ∈ data_offsets [.data, .commit] 8,
          disk_offset (record_target (read_journal sb0 staged_image) r) ≠ disk_offset b) →
        ∀ k, k < 4096 → read_block img1 b k = read_block staged_image b k) ∧
      (∀ (pre : List Nat) (r : Nat) (post : List Nat),
        data_offsets [.data, .commit] 8 = pre ++ r :: post →
        (∀ q ∈ post, disk_offset (record_target (read_journal sb0 staged_image) q)
          ≠ disk_offset (record_target (read_journal sb0 staged_image) r)) →
        ∀ k, k < 4096 →
          read_block img1 (record_target (read_journal sb0 staged_image) r) k
            = record_payload (read_journal sb0 staged_image) r k) :=
  replay_semantics sb0 staged_image [.data, .commit] (by decide) (by decide) (by decide)
    staged_image_tiles staged_image_targets

/-- C15, witness: a successful create of "foo.txt" on the fresh image, whose
journal the call initialises to 8 bytes used. -/
theorem append_shape_witness :
    ∃ img1, journal_create sb0 foo_txt clock0 fresh_image = .returned .ok img1 ∧
      ∃ i s : Nat, create_inum sb0 fresh_image = some (i : Int) ∧ create_slot sb0 fresh_image = (s : Int) ∧
        (∀ k, 8 ≤ k → k < journal_nbytes_used sb0 (init_journal sb0 fresh_image) →
          read_journal sb0 img1 k = read_journal sb0 fresh_image k) ∧
        holds_data (read_journal sb0 img1) (journal_nbytes_used sb0 (init_journal sb0 fresh_image))
          sb0.inode_bitmap (stage sb0 foo_txt clock0 (init_journal sb0 fresh_image) i s).inode_bitmap ∧
        holds_data (read_journal sb0 img1) (journal_nbytes_used sb0 (init_journal sb0 fresh_image) + 4104)
          sb0.inode_start (stage sb0 foo_txt clock0 (init_journal sb0 fresh_image) i s).root_inode_block ∧
        ((i < 32 ∧ u32 (sb0.inode_start + i * 128 / 4096) = u32 sb0.inode_start ∧
            holds_data (read_journal sb0 img1)
              (journal_nbytes_used sb0 (init_journal sb0 fresh_image) + 8208)
              (root_dir_block sb0 fresh_image) (stage sb0 foo_txt clock0 (init_journal sb0 fresh_image) i s).root_dir ∧
            get_u16 (read_journal sb0 img1) (journal_nbytes_used sb0 (init_journal sb0 fresh_image) + 12312)
              = REC_COMMIT ∧
            journal_nbytes_used sb0 img1
              = journal_nbytes_used sb0 (init_journal sb0 fresh_image) + 3 * 4104 + 4) ∨
          (32 ≤ i ∧ u32 (sb0.inode_start + i * 128 / 4096) ≠ u32 sb0.inode_start ∧
            holds_data (read_journal sb0 img1)
              (journal_nbytes_used sb0 (init_journal sb0 fresh_image) + 8208)
              (sb0.inode_start + i * 128 / 4096)
              (stage sb0 foo_txt clock0 (init_journal sb0 fresh_image) i s).new_inode_block ∧
            holds_data (read_journal sb0 img1)
              (journal_nbytes_used sb0 (init_journal sb0 fresh_image) + 12312)
              (root_dir_block sb0 fresh_image) (stage sb0 foo_txt clock0 (init_journal sb0 fresh_image) i s).root_dir ∧
            get_u16 (read_journal sb0 img1) (journal_nbytes_used sb0 (init_journal sb0 fresh_image) + 16416)
              = REC_COMMIT ∧
            journal_nbytes_used sb0 img1
              = journal_nbytes_used sb0 (init_journal sb0 fresh_image) + 4 * 4104 + 4)) := by
  obtain ⟨img1, h⟩ := journal_create_returns sb0 foo_txt clock0 fresh_image 1 2
    (by decide) (by decide)
    (by rw [(init_journal_header sb0 fresh_image).2 (by decide)]; decide)
  exact ⟨img1, h, append_shape sb0 foo_txt clock0 fresh_image img1 h
    (by rw [(init_journal_header sb0 fresh_image).2 (by decide)]; decide)⟩

/-- C15, counterexample to the claim as stated: the journal of
`short_header_image` has a valid magic and bytes-used 0; `journal_create`
returns 0, having laid the first record over the header from byte 0, and the
bytes-used it then stores in the bytes 4..7 are the block number of that
record: the record at `u = 0` does not target the inode-bitmap block 17. -/
theorem append_shape_counterexample :
    journal_magic sb0 short_header_image = JOURNAL_MAGIC ∧
    journal_nbytes_used sb0 short_header_image = 0 ∧
    ∃ img1, journal_create sb0 foo_txt clock0 short_header_image = .returned .ok img1 ∧
      (record_target (read_journal sb0 img1) 0 = 12316 ∨
        record_target (read_journal sb0 img1) 0 = 16420) ∧
      u32 sb0.inode_bitmap = 17 := by
  have hm : journal_magic sb0 short_header_image = JOURNAL_MAGIC := by decide
  have hu : journal_nbytes_used sb0 short_header_image = 0 := by decide
  have h0 := init_journal_of_magic sb0 short_header_image hm
  obtain ⟨img1, h⟩ := journal_create_returns sb0 foo_txt clock0 short_header_image 1 2
    (by decide) (by decide) (by rw [h0, hu]; decide)
  refine ⟨hm, hu, img1, h, ?_, by decide⟩
  obtain ⟨i, s, _, _, _, _, _, _, hnb, _, _⟩ :=
    journal_create_ok_journal sb0 foo_txt clock0 short_header_image img1 h
  rw [h0, hu] at hnb
  have hn := num_data_records_cases sb0 (stage sb0 foo_txt clock0 short_header_image i s)
  have e : record_target (read_journal sb0 img1) 0 = journal_nbytes_used sb0 img1 := rfl
  rw [e, hnb]
  omega

/-- C17, witness: `shrunk_image`, whose root inode records size 128 and whose
first free slot is slot 2; the staged size is 96. -/
theorem root_directory_size_witness :
    ∃ img1, journal_create sb0 foo_txt clock0 shrunk_image = .returned .ok img1 ∧
      ∃ i s : Nat, create_inum sb0 shrunk_image = some (i : Int) ∧ create_slot sb0 shrunk_image = (s : Int) ∧
        holds_data (read_journal sb0 img1)
          (journal_nbytes_used sb0 (init_journal sb0 shrunk_image) + 4104) sb0.inode_start
          (stage sb0 foo_txt clock0 (init_journal sb0 shrunk_image) i s).root_inode_block ∧
        get_u32 (stage sb0 foo_txt clock0 (init_journal sb0 shrunk_image) i s).root_inode_block 4
          = (s + 1) * 32 ∧
        get_u32 (stage sb0 foo_txt clock0 (init_journal sb0 shrunk_image) i s).root_inode_block 44
          = u32 clock0.root_mtime ∧
        (∀ k, k < 128 → (k < 4 ∨ (8 ≤ k ∧ k < 44) ∨ 48 ≤ k) →
          (stage sb0 foo_txt clock0 (init_journal sb0 shrunk_image) i s).root_inode_block k
            = read_block (init_journal sb0 shrunk_image) sb0.inode_start k) ∧
        (∀ k, k < 128 → ((8 ≤ k ∧ k < 44) ∨ 48 ≤ k) →
          (stage sb0 foo_txt clock0 (init_journal sb0 shrunk_image) i s).root_inode_block k
            = read_block shrunk_image sb0.inode_start k) ∧
        ((journal_magic sb0 shrunk_image = JOURNAL_MAGIC ∨
            disk_offset sb0.inode_start ≠ disk_offset sb0.journal_blocks) →
          ∀ k, k < 4 →
            (stage sb0 foo_txt clock0 (init_journal sb0 shrunk_image) i s).root_inode_block k
              = read_block shrunk_image sb0.inode_start k) ∧
        ((s + 1) * 32 < get_u32 (read_block shrunk_image sb0.inode_start) 4 →
          get_u32 (stage sb0 foo_txt clock0 (init_journal sb0 shrunk_image) i s).root_inode_block 4
            < get_u32 (read_block shrunk_image sb0.inode_start) 4) := by
  obtain ⟨img1, h⟩ := journal_create_returns sb0 foo_txt clock0 shrunk_image 1 2
    (by decide) (by decide)
    (by rw [(init_journal_header sb0 shrunk_image).2 (by decide)]; decide)
  exact ⟨img1, h, root_directory_size sb0 foo_txt clock0 shrunk_image img1 h (by decide)⟩

/-- C17, counterexample to the claim as stated: in `root_journal_image` the
journal starts at block `inode_start` and has no header yet.  `journal_create`
returns 0 having allocated inode 1 and slot 2, and the root inode it staged
in the second DATA record has type 20044 and links 19026, the two halves of
the journal magic that `init_journal` wrote over the block before the root
inode was read, where the image before the call has type 2 and links 2. -/
theorem root_directory_size_counterexample :
    read_superblock root_journal_image = some sb_root_journal ∧
    journal_magic sb_root_journal root_journal_image ≠ JOURNAL_MAGIC ∧
    create_inum sb_root_journal root_journal_image = some 1 ∧
    create_slot sb_root_journal root_journal_image = 2 ∧
    get_u16 (read_block root_journal_image sb_root_journal.inode_start) 0 = 2 ∧
    get_u16 (read_block root_journal_image sb_root_journal.inode_start) 2 = 2 ∧
    ∃ img1, journal_create sb_root_journal foo_txt clock0 root_journal_image
        = .returned .ok img1 ∧
      holds_data (read_journal sb_root_journal img1) (8 + 4104) sb_root_journal.inode_start
        (stage sb_root_journal foo_txt clock0
          (init_journal sb_root_journal root_journal_image) 1 2).root_inode_block ∧
      get_u16 (stage sb_root_journal foo_txt clock0
        (init_journal sb_root_journal root_journal_image) 1 2).root_inode_block 0 = 20044 ∧
      get_u16 (stage sb_root_journal foo_txt clock0
        (init_journal sb_root_journal root_journal_image) 1 2).root_inode_block 2 = 19026 := by
  have hm : journal_magic sb_root_journal root_journal_image ≠ JOURNAL_MAGIC := by decide
  have hu0 := (init_journal_header sb_root_journal root_journal_image).2 hm
  have hci : create_inum sb_root_journal root_journal_image = some ((1 : Nat) : Int) := by decide
  have hcs : create_slot sb_root_journal root_journal_image = ((2 : Nat) : Int) := by decide
  obtain ⟨img1, h⟩ := journal_create_returns sb_root_journal foo_txt clock0 root_journal_image
    1 2 hci hcs (by rw [hu0]; decide)
  refine ⟨rfl, hm, hci, hcs, by decide, by decide, img1, h, ?_, ?_, ?_⟩
  · obtain ⟨i, s, hi, hs, _, _, _, hu, _, _, hrd⟩ :=
      journal_create_ok_journal sb_root_journal foo_txt clock0 root_journal_image img1 h
    rw [hci] at hi
    rw [hcs] at hs
    have hi1 : i = 1 := by
      simp only [Option.some.injEq, Nat.cast_inj] at hi
      exact hi.symm
    have hs2 : s = 2 := by
      simp only [Nat.cast_inj] at hs
      exact hs.symm
    subst hi1
    subst hs2
    obtain ⟨_, _, _, hR, _⟩ := logged_shape sb_root_journal _
      (read_journal sb_root_journal (init_journal sb_root_journal root_journal_image))
      (read_journal sb_root_journal img1) _ hrd (by rw [hu0]; decide) hu
    rw [hu0] at hR
    exact hR
  · have hf := (stage_root_inode_fields sb_root_journal foo_txt clock0
      (init_journal sb_root_journal root_journal_image) 1 2 (by omega) (by omega) (by omega)).2.2
    rw [get_u16_congr (fun k h1 h2 => hf k (by omega) (by omega))]
    decide
  · have hf := (stage_root_inode_fields sb_root_journal foo_txt clock0
      (init_journal sb_root_journal root_journal_image) 1 2 (by omega) (by omega) (by omega)).2.2
    rw [get_u16_congr (fun k h1 h2 => hf k (by omega) (by omega))]
    decide

end VSFS
